import Mathlib

/-!
# kube-arangodb: rotation decision, plan appender, finalizer removal

A shallow embedding of parts of the operator:

* `pkg/deployment/rotation/check.go`: `Mode`, `Mode.And`, `CheckPossible`, `IsRotationRequired`;
* `pkg/deployment/reconcile/plan_builder_appender.go`: `planAppenderType`, `planAppenderRecovery`;
* `pkg/util/k8sutil/finalizers.go`: `RemoveFinalizers`.

Go functions that touch the cluster are embedded by explicit state passing over an arbitrary
world type `σ`; a Go panic is an explicit `Fault` outcome; logging is not modelled.
-/

namespace KubeArangoDB

/-! ## Shared data model (package `api` and Kubernetes objects) -/

/-- Modelled from the spec: the three error classes of the Status Store boundary
(`error(Conflict|NotFound|Other)`); the helpers `IsNotFound` and `IsConflict` of package
`k8sutil` are not among the sources. `errors.WithStack` keeps the class of an error and is
embedded as the identity. -/
inductive Error
  | NotFound
  | Conflict
  | Other (msg : String)
deriving DecidableEq, Repr

/-- Modelled from the spec: `IsNotFound` recognises the not-found class. -/
def IsNotFound : Option Error → Bool
  | some .NotFound => true
  | _ => false

/-- Modelled from the spec: `IsConflict` recognises the write-conflict class. -/
def IsConflict : Option Error → Bool
  | some .Conflict => true
  | _ => false

/-- Modelled from the spec: the condition names of a member (`api.ConditionType`); the package
declaring them is not among the sources. -/
inductive ConditionType
  | Ready
  | Terminated
  | Terminating
  | PendingRestart
  | PendingTLSRotation
  | AutoUpgrade
  | Other (name : String)
deriving DecidableEq, Repr

/-- Modelled from the spec: a condition is a named flag carrying a boolean. -/
structure Condition where
  type : ConditionType
  Status : Bool
deriving DecidableEq, Repr

/-- Modelled from the spec: the condition set of a member. -/
abbrev ConditionList := List Condition

/-- Modelled from the spec: `ConditionList.IsTrue` holds when the condition of the given type
is present and its boolean is true. -/
def ConditionList.IsTrue (list : ConditionList) (conditionType : ConditionType) : Bool :=
  match list.find? (fun c => c.type == conditionType) with
  | some c => c.Status
  | none => false

/-- Modelled from the spec: the server groups (roles) of a deployment. -/
inductive ServerGroup
  | Unknown
  | Single
  | Agents
  | DBServers
  | Coordinators
  | SyncMasters
  | SyncWorkers
deriving DecidableEq, Repr

/-- Modelled from the spec: one planned step (type tag, target member and group, parameters). -/
structure Action where
  ID : String
  type : String
  MemberID : String
  Group : ServerGroup
  Params : List (String × String)
deriving DecidableEq, Repr

/-- Plan is an ordered sequence of actions (`api.Plan`). -/
abbrev Plan := List Action

/-- Modelled from the spec: `Plan.IsEmpty` is the emptiness predicate of a plan. -/
def Plan.IsEmpty (p : Plan) : Bool := p.length == 0

/-- Modelled from the spec: the member propagation policy of a deployment. -/
inductive DeploymentMemberPropagationMode
  | Always
  | OnRestart
deriving DecidableEq, Repr

/-- Container is the part of `core.Container` that is told apart here: the name, the image
and the command. -/
structure Container where
  Name : String := ""
  Image : String := ""
  Command : List String := []
deriving DecidableEq, Repr

/-- Modelled from the spec: the mode of the init containers of a group
(`api.ServerGroupInitContainerMode`), a string in the Go code. -/
inductive ServerGroupInitContainerMode
  | ServerGroupInitContainerIgnoreMode
  | ServerGroupInitContainerUpdateMode
  | Other (name : String)
deriving DecidableEq, Repr

/-- Modelled from the spec: the init containers a user gives for a group
(`api.ServerGroupInitContainers`) and their mode, a pointer that may be nil. -/
structure ServerGroupInitContainers where
  Containers : List Container := []
  Mode : Option ServerGroupInitContainerMode := none
deriving DecidableEq, Repr

/-- Modelled from the spec: `GetMode` on a pointer that may be nil is the mode pointer, nil
for nil. -/
def ServerGroupInitContainers.GetMode (s : Option ServerGroupInitContainers) :
    Option ServerGroupInitContainerMode :=
  match s with
  | none => none
  | some x => x.Mode

/-- Modelled from the spec: `GetContainers` on a pointer that may be nil is the container
list, nil for nil. -/
def ServerGroupInitContainers.GetContainers (s : Option ServerGroupInitContainers) :
    List Container :=
  match s with
  | none => []
  | some x => x.Containers

/-- Modelled from the spec: `Get` on a mode pointer is the mode, or the default mode `d` of the
package for nil. -/
def ServerGroupInitContainerMode.Get (d : ServerGroupInitContainerMode)
    (s : Option ServerGroupInitContainerMode) : ServerGroupInitContainerMode :=
  match s with
  | none => d
  | some m => m

/-- Modelled from the spec: the desired configuration of one server group, its count with the
minimum and maximum bounds (`api.ServerGroupSpec`); each is a pointer that may be nil. The
pod creator also reads the raw arguments, the internal port and the init containers. -/
structure ServerGroupSpec where
  Count : Option Int := none
  MinCount : Option Int := none
  MaxCount : Option Int := none
  Args : List String := []
  InternalPort : Option Int := none
  InitContainers : Option ServerGroupInitContainers := none
deriving DecidableEq, Repr

/-- Modelled from the spec: the feature flags of a deployment (`api.DeploymentFeatures`); the
flag is a pointer that may be nil. -/
structure DeploymentFeatures where
  FoxxQueues : Option Bool := none
deriving DecidableEq, Repr

/-- Modelled from the spec: `GetFoxxQueues` on a pointer that may be nil. The package is not
among the sources; the test `TestEnsurePod_ArangoDB_Features` expects `true` for a deployment
that does not set the feature. -/
def DeploymentFeatures.GetFoxxQueues (d : Option DeploymentFeatures) : Bool :=
  match d with
  | none => true
  | some f =>
    match f.FoxxQueues with
    | none => true
    | some b => b

/-- Modelled from the spec: the part of the desired configuration read by the rotation check
and by the scaling integration. -/
structure DeploymentSpec where
  MemberPropagationMode : Option DeploymentMemberPropagationMode := none
  Image : String := ""
  Coordinators : ServerGroupSpec := {}
  DBServers : ServerGroupSpec := {}
  Agents : ServerGroupSpec := {}
  Features : Option DeploymentFeatures := none
deriving DecidableEq, Repr

/-- Modelled from the spec: `GetImage` is the image reference of the spec. -/
def DeploymentSpec.GetImage (s : DeploymentSpec) : String := s.Image

/-- Methods of package `api` on the desired configuration that the embedded sources call and
do not contain: `DeploymentSpec.Validate`, `ServerGroupSpec.GetMinCount` and
`ServerGroupSpec.GetMaxCount`. -/
structure SpecMethods where
  Validate : DeploymentSpec → Option Error
  GetMinCount : ServerGroupSpec → Int
  GetMaxCount : ServerGroupSpec → Int

/-- Modelled from the spec: what is known of a container image (`api.ImageInfo`). -/
structure ImageInfo where
  Image : String := ""
  ImageID : String := ""
  ArangoDBVersion : String := ""
  Enterprise : Bool := false
deriving DecidableEq, Repr

/-- Modelled from the spec: `ImageInfoList.GetByImage` is the first entry of the list for the
given image reference, and whether there is one. -/
def ImageInfoList.GetByImage (l : List ImageInfo) (image : String) : Option ImageInfo :=
  l.find? (fun x => x.Image == image)

/-- Modelled from the spec: the part of a member status read by the rotation check, by the
actions and by the pod creator; `Image` and `Endpoint` are pointers that may be nil. -/
structure MemberStatus where
  ID : String := ""
  PodName : String := ""
  PodUID : String := ""
  PodSpecVersion : String := ""
  PersistentVolumeClaimName : String := ""
  Conditions : ConditionList := []
  Image : Option ImageInfo := none
  Endpoint : Option String := none
deriving DecidableEq, Repr

/-- Affinity is `core.Affinity`: the three groups of scheduling constraints, each kept as an
uninterpreted value. -/
structure Affinity where
  NodeAffinity : Option String := none
  PodAffinity : Option String := none
  PodAntiAffinity : Option String := none
deriving DecidableEq, Repr

/-- The method `DeepCopy` of a pointer to an affinity: nil for nil, else a copy. -/
def Affinity.DeepCopy (a : Option Affinity) : Option Affinity :=
  match a with
  | none => none
  | some x => some { NodeAffinity := x.NodeAffinity, PodAffinity := x.PodAffinity,
                     PodAntiAffinity := x.PodAntiAffinity }

/-- PodSpec is the part of `core.PodSpec` that the comparators are given: the scheduler name
and the affinity, which they read, and fields they do not read. -/
structure PodSpec where
  SchedulerName : String := ""
  Affinity : Option Affinity := none
  NodeName : String := ""
  ServiceAccountName : String := ""
  PriorityClassName : String := ""
  NodeSelector : List (String × String) := []
  InitContainers : List Container := []
deriving DecidableEq, Repr

/-- Pod is the part of `core.Pod` read by the operator code embedded here: metadata (name,
uid, deletion timestamp, finalizers, annotations) and the pod spec. -/
structure Pod where
  Name : String := ""
  UID : String := ""
  DeletionTimestamp : Option Nat := none
  Finalizers : List String := []
  Annotations : List (String × String) := []
  Spec : PodSpec := {}
deriving DecidableEq, Repr

/-- Modelled from the spec: the builder of actions for one member (`api.ActionBuilder`), which
carries the target group and member id. -/
structure ActionBuilder where
  Group : ServerGroup := .Unknown
  MemberID : String := ""
deriving DecidableEq, Repr

/-- PersistentVolumeClaim is the part of `core.PersistentVolumeClaim` that is relevant here:
its name, finalizers and status conditions. -/
structure PersistentVolumeClaim where
  Name : String := ""
  Finalizers : List String := []
  Conditions : List (String × Bool) := []
deriving DecidableEq, Repr

/-- Modelled from the spec: a pod template snapshot of a member with its checksum. -/
structure ArangoMemberPodTemplate where
  SchedulerName : String := ""
  Affinity : Option String := none
  Checksum : String := ""
deriving DecidableEq, Repr

/-- The method `DeepCopy` of a pointer to a pod template: nil for nil, else a copy. -/
def ArangoMemberPodTemplate.DeepCopy (t : Option ArangoMemberPodTemplate) :
    Option ArangoMemberPodTemplate :=
  match t with
  | none => none
  | some x => some { SchedulerName := x.SchedulerName, Affinity := x.Affinity,
                     Checksum := x.Checksum }

/-- Modelled from the spec: the desired part of an `api.ArangoMember` object, the pod template
a member should run with. -/
structure ArangoMemberSpec where
  Template : Option ArangoMemberPodTemplate := none
deriving DecidableEq, Repr

/-- Modelled from the spec: the observed part of an `api.ArangoMember` object, the pod
template the member was last seen to run with. -/
structure ArangoMemberStatus where
  Template : Option ArangoMemberPodTemplate := none
deriving DecidableEq, Repr

/-- Modelled from the spec: the `api.ArangoMember` object of one member. -/
structure ArangoMember where
  Namespace : String := ""
  Name : String := ""
  Spec : ArangoMemberSpec := {}
  Status : ArangoMemberStatus := {}
deriving DecidableEq, Repr

/-- Modelled from the spec: `Action.GetParam` is the value of the parameter with the given key
and whether it is set. -/
def Action.GetParam (a : Action) (key : String) : Option String :=
  a.Params.lookup key

/-- Modelled from the spec: the read-only point-in-time view of live objects. -/
structure Inspector where
  PersistentVolumeClaim : String → Option PersistentVolumeClaim
  Pod : String → Option Pod

/-- Modelled from the spec: `StringList.Has` of package `utils` tests whether a marker is
carried by a list. -/
def StringList.Has (l : List String) (i : String) : Bool :=
  l.any (fun obj => obj == i)

/-- Constants of the repository that the embedded sources use and do not declare. -/
structure Constants where
  FinalizerPodGracefulShutdown : String
  FinalizerDelayPodTermination : String
  ArangoDeploymentPodRotateAnnotation : String
  DeploymentMemberPropagationModeDefault : DeploymentMemberPropagationMode

/-- Modelled from the spec: `Get` on the optional propagation mode yields the configured mode
or the default when none is set. -/
def DeploymentMemberPropagationMode.Get (k : Constants)
    (d : Option DeploymentMemberPropagationMode) : DeploymentMemberPropagationMode :=
  match d with
  | none => k.DeploymentMemberPropagationModeDefault
  | some m => m

/-! ## Package `rotation` (`check.go`) -/

namespace rotation

/-- Mode is the rotation mode, `type Mode int` with the five `iota` constants. -/
inductive Mode
  | SkippedRotation
  | SilentRotation
  | InPlaceRotation
  | GracefulRotation
  | EnforcedRotation
deriving DecidableEq, Repr

open Mode

/-- The integer value that `iota` gives to each constant. -/
def Mode.toInt : Mode → Int
  | SkippedRotation => 0
  | SilentRotation => 1
  | InPlaceRotation => 2
  | GracefulRotation => 3
  | EnforcedRotation => 4

/-- And returns the higher value of the rotation mode. -/
def Mode.And (m b : Mode) : Mode :=
  if m.toInt > b.toInt then m else b

/-- The declared order of the modes is the order of their integer values:
`SkippedRotation < SilentRotation < InPlaceRotation < GracefulRotation < EnforcedRotation`. -/
instance : LinearOrder Mode :=
  LinearOrder.lift' Mode.toInt (by
    intro a b h
    cases a <;> cases b <;> first | rfl | (exfalso; revert h; decide))

/-- CheckPossible returns true if rotation is possible. -/
def CheckPossible (member : MemberStatus) : Bool :=
  !member.Conditions.IsTrue .Terminated

/-- The four results `(mode, plan, reason, err)` of `IsRotationRequired`. -/
structure Result where
  mode : Mode
  plan : Plan
  reason : String
  err : Option Error
deriving DecidableEq, Repr

/-- The signature of the comparator chain `compare`, which is not among the sources: it yields
an error, or a mode and a plan. -/
abbrev Compare :=
  DeploymentSpec → MemberStatus → ServerGroup → ArangoMemberPodTemplate →
    ArangoMemberPodTemplate → Except Error (Mode × Plan)

/-- IsRotationRequired of `check.go`. The comparator chain `compare` and the helper
`IsPersistentVolumeClaimFileSystemResizePending` of package `k8sutil` are not among the sources
and are parameters. Every `return` of the Go function is a result here; the statements that
follow a conditional block which may return are the next local function, in source order. -/
def IsRotationRequired (k : Constants) (compare : Compare)
    (IsPersistentVolumeClaimFileSystemResizePending : PersistentVolumeClaim → Bool)
    (cachedStatus : Inspector) (spec : DeploymentSpec) (member : MemberStatus)
    (group : ServerGroup) (pod : Option Pod)
    (specTemplate statusTemplate : Option ArangoMemberPodTemplate) : Result :=
  -- Set default mode for return value: mode = SkippedRotation, the other results are zero.
  -- We are under termination
  match pod with
  | some p =>
    if member.Conditions.IsTrue .Terminating || p.DeletionTimestamp.isSome then
      if StringList.Has p.Finalizers k.FinalizerPodGracefulShutdown
          && !StringList.Has p.Finalizers k.FinalizerDelayPodTermination then
        ⟨EnforcedRotation, [], "Recreation enforced by deleted state", none⟩
      else
        ⟨SkippedRotation, [], "", none⟩
    else checkMember
  | none => checkMember
where
  /-- Lines 78 to 87: the state of the member and the pending restart. -/
  checkMember : Result :=
    if !CheckPossible member then
      -- Check is not possible due to improper state of member
      ⟨SkippedRotation, [], "", none⟩
    else if DeploymentMemberPropagationMode.Get k spec.MemberPropagationMode == .Always
        && member.Conditions.IsTrue .PendingRestart then
      ⟨EnforcedRotation, [], "Restart is pending", none⟩
    else
      -- Check if pod details are propagated
      match pod with
      | some p =>
        if member.PodUID != p.UID then
          ⟨EnforcedRotation, [],
            "Pod UID does not match, this pod is not managed by Operator. Recreating", none⟩
        else if (p.Annotations.lookup k.ArangoDeploymentPodRotateAnnotation).isSome then
          ⟨EnforcedRotation, [], "Recreation enforced by annotation", none⟩
        else checkTemplates
      | none => checkTemplates
  /-- Lines 104 to 129: the pod spec version, the templates, TLS and volume resize. -/
  checkTemplates : Result :=
    if member.PodSpecVersion == "" then
      ⟨EnforcedRotation, [], "Pod Spec Version is nil - recreating pod", none⟩
    else
      match specTemplate, statusTemplate with
      | some specT, some statusT =>
        -- Check if any of resize events are in place
        if member.Conditions.IsTrue .PendingTLSRotation then
          ⟨EnforcedRotation, [], "TLS Rotation pending", none⟩
        else
          match cachedStatus.PersistentVolumeClaim member.PersistentVolumeClaimName with
          | some pvc =>
            if IsPersistentVolumeClaimFileSystemResizePending pvc then
              ⟨EnforcedRotation, [], "PVC Resize pending", none⟩
            else runCompare specT statusT
          | none => runCompare specT statusT
      | _, _ =>
        -- If spec or status is nil rotation is not needed
        ⟨SkippedRotation, [], "", none⟩
  /-- Lines 131 to 135: the comparator chain. -/
  runCompare (specT statusT : ArangoMemberPodTemplate) : Result :=
    match compare spec member group specT statusT with
    | .error err => ⟨SkippedRotation, [], "", some err⟩
    | .ok (m, plan) => ⟨m, plan, "Pod needs rotation", none⟩

/-! ### The rule table of the decision procedure, as the specification words it -/

/-- One rule of the evaluation order: the condition under which it fires and the mode it
decides. -/
structure Rule where
  applies : Bool
  outcome : Mode
deriving DecidableEq, Repr

/-- The outcome of the first rule whose condition holds (`SkippedRotation`, the default mode,
when no rule applies). -/
def firstMatch : List Rule → Mode
  | [] => SkippedRotation
  | r :: rest => if r.applies then r.outcome else firstMatch rest

/-- The pod is given and is being terminated: the member is Terminating or the pod carries a
deletion timestamp. -/
def underTermination (member : MemberStatus) (pod : Option Pod) : Bool :=
  match pod with
  | some p => member.Conditions.IsTrue .Terminating || p.DeletionTimestamp.isSome
  | none => false

/-- The pod is given, carries the graceful-shutdown finalizer and does not carry the
delay-termination finalizer. -/
def gracefulWithoutDelay (k : Constants) (pod : Option Pod) : Bool :=
  match pod with
  | some p => StringList.Has p.Finalizers k.FinalizerPodGracefulShutdown
      && !StringList.Has p.Finalizers k.FinalizerDelayPodTermination
  | none => false

/-- The pod is given and its UID differs from the UID recorded for the member. -/
def uidMismatch (member : MemberStatus) (pod : Option Pod) : Bool :=
  match pod with
  | some p => member.PodUID != p.UID
  | none => false

/-- The pod is given and carries the rotate annotation. -/
def rotateAnnotated (k : Constants) (pod : Option Pod) : Bool :=
  match pod with
  | some p => (p.Annotations.lookup k.ArangoDeploymentPodRotateAnnotation).isSome
  | none => false

/-- The persistent volume claim of the member exists and has a filesystem resize pending. -/
def pvcResizePending (resizePending : PersistentVolumeClaim → Bool) (cachedStatus : Inspector)
    (member : MemberStatus) : Bool :=
  match cachedStatus.PersistentVolumeClaim member.PersistentVolumeClaimName with
  | some pvc => resizePending pvc
  | none => false

/-- The mode of the comparator chain: its accumulated mode, `SkippedRotation` when it fails
(or when a template is missing, in which case the chain is never reached). -/
def comparatorMode (compare : Compare) (spec : DeploymentSpec) (member : MemberStatus)
    (group : ServerGroup) (specTemplate statusTemplate : Option ArangoMemberPodTemplate) : Mode :=
  match specTemplate, statusTemplate with
  | some specT, some statusT =>
    match compare spec member group specT statusT with
    | .error _ => SkippedRotation
    | .ok (m, _) => m
  | _, _ => SkippedRotation

/-- Rules 2 to 10 of the evaluation order of the specification, in the listed order. -/
def rulesTwoToTen (k : Constants) (compare : Compare)
    (resizePending : PersistentVolumeClaim → Bool)
    (cachedStatus : Inspector) (spec : DeploymentSpec) (member : MemberStatus)
    (group : ServerGroup) (pod : Option Pod)
    (specTemplate statusTemplate : Option ArangoMemberPodTemplate) : List Rule :=
  [ ⟨member.Conditions.IsTrue .Terminated, SkippedRotation⟩,
    ⟨DeploymentMemberPropagationMode.Get k spec.MemberPropagationMode == .Always
      && member.Conditions.IsTrue .PendingRestart, EnforcedRotation⟩,
    ⟨uidMismatch member pod, EnforcedRotation⟩,
    ⟨rotateAnnotated k pod, EnforcedRotation⟩,
    ⟨member.PodSpecVersion == "", EnforcedRotation⟩,
    ⟨specTemplate.isNone || statusTemplate.isNone, SkippedRotation⟩,
    ⟨member.Conditions.IsTrue .PendingTLSRotation, EnforcedRotation⟩,
    ⟨pvcResizePending resizePending cachedStatus member, EnforcedRotation⟩,
    ⟨true, comparatorMode compare spec member group specTemplate statusTemplate⟩ ]

/-- The ten rules as the specification lists them: rule 1 is the terminating pod with the
graceful-shutdown and without the delay-termination finalizer. -/
def specRules (k : Constants) (compare : Compare)
    (resizePending : PersistentVolumeClaim → Bool)
    (cachedStatus : Inspector) (spec : DeploymentSpec) (member : MemberStatus)
    (group : ServerGroup) (pod : Option Pod)
    (specTemplate statusTemplate : Option ArangoMemberPodTemplate) : List Rule :=
  ⟨underTermination member pod && gracefulWithoutDelay k pod, EnforcedRotation⟩ ::
    rulesTwoToTen k compare resizePending cachedStatus spec member group pod
      specTemplate statusTemplate

/-- The rules the code evaluates: rule 1 decides for every pod under termination, with
`EnforcedRotation` for the graceful-shutdown finalizer without the delay-termination finalizer
and `SkippedRotation` otherwise; rules 2 to 10 are those of the specification. -/
def codeRules (k : Constants) (compare : Compare)
    (resizePending : PersistentVolumeClaim → Bool)
    (cachedStatus : Inspector) (spec : DeploymentSpec) (member : MemberStatus)
    (group : ServerGroup) (pod : Option Pod)
    (specTemplate statusTemplate : Option ArangoMemberPodTemplate) : List Rule :=
  ⟨underTermination member pod && gracefulWithoutDelay k pod, EnforcedRotation⟩ ::
  ⟨underTermination member pod, SkippedRotation⟩ ::
    rulesTwoToTen k compare resizePending cachedStatus spec member group pod
      specTemplate statusTemplate

/-- One rule of the evaluation order with all that it decides: the condition under which it
fires and the whole result `(mode, plan, reason, err)` that is returned then. -/
structure ResultRule where
  applies : Bool
  outcome : Result

/-- The result of the first rule whose condition holds (the zero result with the default mode
`SkippedRotation` when no rule applies). -/
def firstResult : List ResultRule → Result
  | [] => ⟨SkippedRotation, [], "", none⟩
  | r :: rest => if r.applies then r.outcome else firstResult rest

/-- The result of the comparator chain: its mode and plan with the reason
`Pod needs rotation`, or `SkippedRotation` with its error when it fails (and the zero result
when a template is missing, in which case the chain is never reached). -/
def comparatorResult (compare : Compare) (spec : DeploymentSpec) (member : MemberStatus)
    (group : ServerGroup) (specTemplate statusTemplate : Option ArangoMemberPodTemplate) :
    Result :=
  match specTemplate, statusTemplate with
  | some specT, some statusT =>
    match compare spec member group specT statusT with
    | .error err => ⟨SkippedRotation, [], "", some err⟩
    | .ok (m, plan) => ⟨m, plan, "Pod needs rotation", none⟩
  | _, _ => ⟨SkippedRotation, [], "", none⟩

/-- The rules the code evaluates, in order, each with the whole result it returns: the two
outcomes of a pod under termination, then rules 2 to 10. -/
def codeResultRules (k : Constants) (compare : Compare)
    (resizePending : PersistentVolumeClaim → Bool)
    (cachedStatus : Inspector) (spec : DeploymentSpec) (member : MemberStatus)
    (group : ServerGroup) (pod : Option Pod)
    (specTemplate statusTemplate : Option ArangoMemberPodTemplate) : List ResultRule :=
  [ ⟨underTermination member pod && gracefulWithoutDelay k pod,
      ⟨EnforcedRotation, [], "Recreation enforced by deleted state", none⟩⟩,
    ⟨underTermination member pod, ⟨SkippedRotation, [], "", none⟩⟩,
    ⟨member.Conditions.IsTrue .Terminated, ⟨SkippedRotation, [], "", none⟩⟩,
    ⟨DeploymentMemberPropagationMode.Get k spec.MemberPropagationMode == .Always
      && member.Conditions.IsTrue .PendingRestart,
      ⟨EnforcedRotation, [], "Restart is pending", none⟩⟩,
    ⟨uidMismatch member pod,
      ⟨EnforcedRotation, [],
        "Pod UID does not match, this pod is not managed by Operator. Recreating", none⟩⟩,
    ⟨rotateAnnotated k pod, ⟨EnforcedRotation, [], "Recreation enforced by annotation", none⟩⟩,
    ⟨member.PodSpecVersion == "",
      ⟨EnforcedRotation, [], "Pod Spec Version is nil - recreating pod", none⟩⟩,
    ⟨specTemplate.isNone || statusTemplate.isNone, ⟨SkippedRotation, [], "", none⟩⟩,
    ⟨member.Conditions.IsTrue .PendingTLSRotation,
      ⟨EnforcedRotation, [], "TLS Rotation pending", none⟩⟩,
    ⟨pvcResizePending resizePending cachedStatus member,
      ⟨EnforcedRotation, [], "PVC Resize pending", none⟩⟩,
    ⟨true, comparatorResult compare spec member group specTemplate statusTemplate⟩ ]

/-! ### The comparators of `arangod.go` -/

/-- The results `(mode, plan, err)` of a `compareFunc`, and the two pod specifications that
the comparator was given by pointer as they are after the call. -/
structure CompareResult where
  mode : Mode
  plan : Plan
  err : Option Error
  spec : PodSpec
  status : PodSpec
deriving DecidableEq, Repr

/-- The type `compareFunc`. -/
abbrev compareFunc := ActionBuilder → CompareResult

/-- The comparator `podCompare`. The named results start as `SkippedRotation`, nil and nil. -/
def podCompare (_ : DeploymentSpec) (_ : ServerGroup) (spec status : PodSpec) : compareFunc :=
  fun _builder =>
    if spec.SchedulerName != status.SchedulerName then
      ⟨SkippedRotation.And SilentRotation, [], none, spec,
        { status with SchedulerName := spec.SchedulerName }⟩
    else
      ⟨SkippedRotation, [], none, spec, status⟩

/-- The comparator `affinityCompare`. The hash function `util.SHA256FromJSON` is not among the
sources and is a parameter. -/
def affinityCompare (SHA256FromJSON : Option Affinity → Except Error String)
    (_ : DeploymentSpec) (_ : ServerGroup) (spec status : PodSpec) : compareFunc :=
  fun _builder =>
    match SHA256FromJSON spec.Affinity with
    | .error err => ⟨SkippedRotation, [], some err, spec, status⟩
    | .ok specC =>
      match SHA256FromJSON status.Affinity with
      | .error err => ⟨SkippedRotation, [], some err, spec, status⟩
      | .ok statusC =>
        if specC != statusC then
          ⟨SkippedRotation.And SilentRotation, [], none, spec,
            { status with Affinity := Affinity.DeepCopy spec.Affinity }⟩
        else
          ⟨SkippedRotation, [], none, spec, status⟩

/-! ### Concrete inputs -/

/-- The constants used by the examples. -/
def exampleConstants : Constants :=
  { FinalizerPodGracefulShutdown := "pod.database.arangodb.com/graceful-shutdown"
    FinalizerDelayPodTermination := "pod.database.arangodb.com/delay"
    ArangoDeploymentPodRotateAnnotation := "deployment.arangodb.com/rotate"
    DeploymentMemberPropagationModeDefault := .Always }

/-- A comparator chain that finds no difference. -/
def exampleCompare : Compare := fun _ _ _ _ _ => .ok (SkippedRotation, [])

/-- A snapshot without objects. -/
def emptyInspector : Inspector := ⟨fun _ => none, fun _ => none⟩

/-- A hash for the examples: the node affinity of the value, and a failure for a value whose
node affinity is the text unhashable. -/
def exampleHash : Option Affinity → Except Error String
  | none => .ok "null"
  | some a =>
    if a.NodeAffinity = some "unhashable" then .error (.Other "json: unsupported value")
    else .ok (a.NodeAffinity.getD "")

/-- A comparator chain that fails. -/
def failingCompare : Compare := fun _ _ _ _ _ => .error (.Other "json: unsupported value")

end rotation

/-! ## Package `reconcile` (`plan_builder_appender.go`) -/

namespace reconcile

/-- Fault is the value carried by a Go panic. -/
structure Fault where
  msg : String
deriving DecidableEq, Repr

/-- Run is Go code that yields a value or panics while it reads and changes the world `σ`
(the cluster view, the reconciliation context): from the world before, the value or the fault
and the world after. -/
abbrev Run (σ α : Type) := σ → Except Fault α × σ

/-- WithPlanBuilder is the plan builder interface; it is declared outside these sources, the
signatures are those of the calls of `planAppenderType`. The step types `planBuilder`,
`planBuilderCondition` and `planBuilderSubPlan` are the type parameters `PB`, `C` and `SP`. -/
structure WithPlanBuilder (σ PB C SP : Type) where
  Apply : PB → Run σ Plan
  ApplyWithCondition : C → PB → Run σ Plan
  ApplySubPlan : SP → List PB → Run σ Plan

/-- The struct `planAppenderType`. -/
structure planAppenderType (σ PB C SP : Type) where
  pb : WithPlanBuilder σ PB C SP
  current : Plan

/-- PlanAppender is the interface, with its two implementations in this file:
`planAppenderType`, and `planAppenderRecovery` which wraps a `PlanAppender` (its logger is not
modelled). -/
inductive PlanAppender (σ PB C SP : Type)
  | planAppender (p : planAppenderType σ PB C SP)
  | planAppenderRecovery (appender : PlanAppender σ PB C SP)

section appender

variable {σ PB C SP : Type}

/-- The constructor `newPlanAppender`. -/
def newPlanAppender (pb : WithPlanBuilder σ PB C SP) (current : Plan) : PlanAppender σ PB C SP :=
  .planAppender { current := current, pb := pb }

/-- The constructor `recoverPlanAppender`. -/
def recoverPlanAppender (p : PlanAppender σ PB C SP) : PlanAppender σ PB C SP :=
  .planAppenderRecovery p

/-- The method `planAppenderType.Plan`. -/
def planAppenderType.Plan (p : planAppenderType σ PB C SP) : KubeArangoDB.Plan :=
  p.current

/-- The method `planAppenderType.new`: `append(p.current, plan...)`. -/
def planAppenderType.new (p : planAppenderType σ PB C SP) (plan : KubeArangoDB.Plan) :
    planAppenderType σ PB C SP :=
  { pb := p.pb, current := p.current ++ plan }

/-- The call `p.new(x)` where `x` is the result of a builder call that may panic. -/
def planAppenderType.newFrom (p : planAppenderType σ PB C SP)
    (x : Run σ KubeArangoDB.Plan) :
    Run σ (PlanAppender σ PB C SP) := fun w =>
  match x w with
  | (.ok plan, w1) => (.ok (.planAppender (p.new plan)), w1)
  | (.error e, w1) => (.error e, w1)

/-- The method `planAppenderType.Apply`. -/
def planAppenderType.Apply (p : planAppenderType σ PB C SP) (pb : PB) :
    Run σ (PlanAppender σ PB C SP) :=
  p.newFrom (p.pb.Apply pb)

/-- The method `planAppenderType.ApplyWithCondition`. -/
def planAppenderType.ApplyWithCondition (p : planAppenderType σ PB C SP) (c : C) (pb : PB) :
    Run σ (PlanAppender σ PB C SP) :=
  p.newFrom (p.pb.ApplyWithCondition c pb)

/-- The method `planAppenderType.ApplySubPlan`. -/
def planAppenderType.ApplySubPlan (p : planAppenderType σ PB C SP) (pb : SP)
    (plans : List PB) : Run σ (PlanAppender σ PB C SP) :=
  p.newFrom (p.pb.ApplySubPlan pb plans)

/-- The method `planAppenderType.ApplyIfEmpty`. -/
def planAppenderType.ApplyIfEmpty (p : planAppenderType σ PB C SP) (pb : PB) :
    Run σ (PlanAppender σ PB C SP) := fun w =>
  if p.current.IsEmpty then
    p.Apply pb w
  else (.ok (.planAppender p), w)

/-- The method `planAppenderType.ApplyWithConditionIfEmpty`. -/
def planAppenderType.ApplyWithConditionIfEmpty (p : planAppenderType σ PB C SP) (c : C)
    (pb : PB) : Run σ (PlanAppender σ PB C SP) := fun w =>
  if p.current.IsEmpty then
    p.ApplyWithCondition c pb w
  else (.ok (.planAppender p), w)

/-- The method `planAppenderType.ApplySubPlanIfEmpty`. -/
def planAppenderType.ApplySubPlanIfEmpty (p : planAppenderType σ PB C SP) (pb : SP)
    (plans : List PB) : Run σ (PlanAppender σ PB C SP) := fun w =>
  if p.current.IsEmpty then
    p.ApplySubPlan pb plans w
  else (.ok (.planAppender p), w)

/-- The method `planAppenderRecovery.create` of the recovery appender `p` that wraps
`appender`: the result of `ret(p.appender)` is wrapped again; when `ret` panics the deferred
function recovers and the named result is set to `p` itself. The world is the one the
panicking step left. -/
def planAppenderRecovery.create (appender : PlanAppender σ PB C SP)
    (ret : PlanAppender σ PB C SP → Run σ (PlanAppender σ PB C SP)) :
    Run σ (PlanAppender σ PB C SP) := fun w =>
  match ret appender w with
  | (.ok r, w1) => (.ok (.planAppenderRecovery r), w1)
  | (.error _, w1) => (.ok (.planAppenderRecovery appender), w1)

/-- The interface method `Apply`. For the recovery appender the function given to `create` is
`func(in) { return in.Apply(pb) }`, and `create` calls it with `in = p.appender`. -/
def PlanAppender.Apply : PlanAppender σ PB C SP → PB → Run σ (PlanAppender σ PB C SP)
  | .planAppender p, pb => p.Apply pb
  | .planAppenderRecovery a, pb => planAppenderRecovery.create a (fun _ => a.Apply pb)

/-- The interface method `ApplyWithCondition`. -/
def PlanAppender.ApplyWithCondition :
    PlanAppender σ PB C SP → C → PB → Run σ (PlanAppender σ PB C SP)
  | .planAppender p, c, pb => p.ApplyWithCondition c pb
  | .planAppenderRecovery a, c, pb =>
    planAppenderRecovery.create a (fun _ => a.ApplyWithCondition c pb)

/-- The interface method `ApplySubPlan`. -/
def PlanAppender.ApplySubPlan :
    PlanAppender σ PB C SP → SP → List PB → Run σ (PlanAppender σ PB C SP)
  | .planAppender p, pb, plans => p.ApplySubPlan pb plans
  | .planAppenderRecovery a, pb, plans =>
    planAppenderRecovery.create a (fun _ => a.ApplySubPlan pb plans)

/-- The interface method `ApplyIfEmpty`. -/
def PlanAppender.ApplyIfEmpty : PlanAppender σ PB C SP → PB → Run σ (PlanAppender σ PB C SP)
  | .planAppender p, pb => p.ApplyIfEmpty pb
  | .planAppenderRecovery a, pb => planAppenderRecovery.create a (fun _ => a.ApplyIfEmpty pb)

/-- The interface method `ApplyWithConditionIfEmpty`. -/
def PlanAppender.ApplyWithConditionIfEmpty :
    PlanAppender σ PB C SP → C → PB → Run σ (PlanAppender σ PB C SP)
  | .planAppender p, c, pb => p.ApplyWithConditionIfEmpty c pb
  | .planAppenderRecovery a, c, pb =>
    planAppenderRecovery.create a (fun _ => a.ApplyWithConditionIfEmpty c pb)

/-- The interface method `ApplySubPlanIfEmpty`. -/
def PlanAppender.ApplySubPlanIfEmpty :
    PlanAppender σ PB C SP → SP → List PB → Run σ (PlanAppender σ PB C SP)
  | .planAppender p, pb, plans => p.ApplySubPlanIfEmpty pb plans
  | .planAppenderRecovery a, pb, plans =>
    planAppenderRecovery.create a (fun _ => a.ApplySubPlanIfEmpty pb plans)

/-- The interface method `Plan`: `planAppenderRecovery.Plan` is the plan of the wrapped
appender. -/
def PlanAppender.Plan : PlanAppender σ PB C SP → KubeArangoDB.Plan
  | .planAppender p => p.Plan
  | .planAppenderRecovery a => a.Plan

/-- One call of a chain of appender operations: the operation and its arguments. -/
inductive Op (PB C SP : Type)
  | Apply (pb : PB)
  | ApplyWithCondition (c : C) (pb : PB)
  | ApplySubPlan (pb : SP) (plans : List PB)
  | ApplyIfEmpty (pb : PB)
  | ApplyWithConditionIfEmpty (c : C) (pb : PB)
  | ApplySubPlanIfEmpty (pb : SP) (plans : List PB)

/-- Whether the call goes through one of the three `...IfEmpty` variants. -/
def Op.isIfEmpty : Op PB C SP → Bool
  | .ApplyIfEmpty _ => true
  | .ApplyWithConditionIfEmpty _ _ => true
  | .ApplySubPlanIfEmpty _ _ => true
  | _ => false

/-- The call `a.op(args)` on the interface. -/
def PlanAppender.call (a : PlanAppender σ PB C SP) : Op PB C SP → Run σ (PlanAppender σ PB C SP)
  | .Apply pb => a.Apply pb
  | .ApplyWithCondition c pb => a.ApplyWithCondition c pb
  | .ApplySubPlan pb plans => a.ApplySubPlan pb plans
  | .ApplyIfEmpty pb => a.ApplyIfEmpty pb
  | .ApplyWithConditionIfEmpty c pb => a.ApplyWithConditionIfEmpty c pb
  | .ApplySubPlanIfEmpty pb plans => a.ApplySubPlanIfEmpty pb plans

/-- A chain of calls `a.op1(..).op2(..)...`: each call is made on the appender returned by the
previous one; a panic that reaches the caller ends the chain. -/
def PlanAppender.chain : List (Op PB C SP) → PlanAppender σ PB C SP →
    Run σ (PlanAppender σ PB C SP)
  | [], a => fun w => (.ok a, w)
  | op :: rest, a => fun w =>
    match a.call op w with
    | (.ok a1, w1) => PlanAppender.chain rest a1 w1
    | (.error e, w1) => (.error e, w1)

end appender

/-! ### The actions (`action_kill_member_pod.go`, `action_arango_membed_update_pod_status.go`) -/

/-- ActionContext is the interface `a.actionCtx` as the two actions use it; it is declared
outside these sources. The calls read and change the world `σ`. `ArangoMember` is the lookup
`GetCachedStatus().ArangoMember(name)` of the snapshot. The function given to
`WithArangoMemberStatusUpdate` gets the object and its status and yields whether it changed
the status, with the status after. -/
structure ActionContext (σ : Type) where
  GetMemberStatusByID : σ → String → Option MemberStatus
  GetCachedStatus : σ → Inspector
  ArangoMember : σ → String → Option ArangoMember
  GetName : σ → String
  DeletePod : String → σ → Option Error × σ
  WithArangoMemberStatusUpdate : String → String →
    (KubeArangoDB.ArangoMember → ArangoMemberStatus → Bool × ArangoMemberStatus) → σ →
      Option Error × σ

/-- The struct `actionImpl` that the actions embed: the planned action and the context (the
logger and the timeout are not modelled). -/
structure actionImpl (σ : Type) where
  action : Action
  actionCtx : ActionContext σ

/-- The struct `actionKillMemberPod`. -/
structure actionKillMemberPod (σ : Type) extends actionImpl σ

/-- The struct `actionArangoMemberUpdatePodStatus`. -/
structure actionArangoMemberUpdatePodStatus (σ : Type) extends actionImpl σ

/-- The constant `ActionTypeArangoMemberUpdatePodStatusChecksum`. -/
def ActionTypeArangoMemberUpdatePodStatusChecksum : String := "checksum"

/-- One call of an action that changes the world, recorded for the claims. -/
inductive ContextCall
  | DeletePod (podName : String)
  | WithArangoMemberStatusUpdate (ns name : String)
deriving DecidableEq, Repr

/-- What `Start` of an action did: the two results `(done, err)`, the world after, and the
world-changing calls it made, in order. -/
structure Started (σ : Type) where
  done : Bool
  err : Option Error
  world : σ
  calls : List ContextCall

section actions

variable {σ : Type}

/-- The method `actionKillMemberPod.Start`. The feature switch
`features.GracefulShutdown().Enabled()` is not among the sources and is the parameter
`gracefulShutdown`. -/
def actionKillMemberPod.Start (gracefulShutdown : Bool) (a : actionKillMemberPod σ) (w : σ) :
    Started σ :=
  if !gracefulShutdown then
    ⟨true, none, w, []⟩
  else
    match a.actionCtx.GetMemberStatusByID w a.action.MemberID with
    | none => ⟨true, none, w, []⟩
    | some m =>
      match a.actionCtx.DeletePod m.PodName w with
      | (some _, w1) => ⟨true, none, w1, [.DeletePod m.PodName]⟩
      | (none, w1) => ⟨false, none, w1, [.DeletePod m.PodName]⟩

/-- The method `actionKillMemberPod.CheckProgress`; returns ready, abort, error. It only
reads the world. -/
def actionKillMemberPod.CheckProgress (k : Constants) (gracefulShutdown : Bool)
    (a : actionKillMemberPod σ) (w : σ) : Bool × Bool × Option Error :=
  if !gracefulShutdown then
    (true, false, none)
  else
    match a.actionCtx.GetMemberStatusByID w a.action.MemberID with
    | none => (true, false, none)
    | some m =>
      match (a.actionCtx.GetCachedStatus w).Pod m.PodName with
      | none => (true, false, none)
      | some p =>
        let l := p.Finalizers
        if !StringList.Has l k.FinalizerPodGracefulShutdown then
          (true, false, none)
        else if StringList.Has l k.FinalizerDelayPodTermination then
          (false, false, none)
        else (true, false, none)

/-- The test `status == nil || !status.Equals(spec)` on two template pointers, made by `Start`
and again by the function it gives to the status update. `Equals` is called on a non-nil
receiver only. -/
def templateDiffers (Equals : ArangoMemberPodTemplate → Option ArangoMemberPodTemplate → Bool)
    (status spec : Option ArangoMemberPodTemplate) : Bool :=
  match status with
  | none => true
  | some t => !Equals t spec

/-- The method `actionArangoMemberUpdatePodStatus.Start`. `MemberStatus.ArangoMemberName` and
`ArangoMemberPodTemplate.Equals` of package `api` are not among the sources and are
parameters. -/
def actionArangoMemberUpdatePodStatus.Start
    (ArangoMemberName : MemberStatus → String → ServerGroup → String)
    (Equals : ArangoMemberPodTemplate → Option ArangoMemberPodTemplate → Bool)
    (a : actionArangoMemberUpdatePodStatus σ) (w : σ) : Started σ :=
  match a.actionCtx.GetMemberStatusByID w a.action.MemberID with
  | none => ⟨true, none, w, []⟩
  | some m =>
    match a.actionCtx.ArangoMember w
        (ArangoMemberName m (a.actionCtx.GetName w) a.action.Group) with
    | none => ⟨false, some (.Other "ArangoMember not found"), w, []⟩
    | some member =>
      match a.action.GetParam ActionTypeArangoMemberUpdatePodStatusChecksum with
      | some c =>
        match member.Spec.Template with
        | none => ⟨true, none, w, []⟩
        | some t =>
          if t.Checksum != c then
            -- Checksum is invalid
            ⟨true, none, w, []⟩
          else update member
      | none => update member
where
  /-- Lines 90 to 103: the status update when the status template is missing or differs. -/
  update (member : ArangoMember) : Started σ :=
    if templateDiffers Equals member.Status.Template member.Spec.Template then
      match a.actionCtx.WithArangoMemberStatusUpdate member.Namespace member.Name
          (fun _ status =>
            if templateDiffers Equals status.Template member.Spec.Template then
              (true, { status with
                Template := ArangoMemberPodTemplate.DeepCopy member.Spec.Template })
            else (false, status)) w with
      | (some err, w1) =>
        ⟨false, some err, w1, [.WithArangoMemberStatusUpdate member.Namespace member.Name]⟩
      | (none, w1) =>
        ⟨true, none, w1, [.WithArangoMemberStatusUpdate member.Namespace member.Name]⟩
    else ⟨true, none, w, []⟩

end actions

/-! ### Concrete inputs -/

/-- A builder over a call counter: every call counts; step 0 panics, step `n + 1` yields `n + 1`
actions. -/
def exampleBuilder : WithPlanBuilder Nat Nat Bool Unit where
  Apply := fun n w =>
    if n = 0 then (.error ⟨"step failed"⟩, w + 1)
    else (.ok (List.replicate n ⟨"", "Idle", "", .Unknown, []⟩), w + 1)
  ApplyWithCondition := fun c n w =>
    if c then
      if n = 0 then (.error ⟨"step failed"⟩, w + 1)
      else (.ok (List.replicate n ⟨"", "Idle", "", .Unknown, []⟩), w + 1)
    else (.ok [], w + 1)
  ApplySubPlan := fun _ plans w =>
    if plans.any (fun n => n == 0) then (.error ⟨"step failed"⟩, w + 1)
    else (.ok (List.replicate plans.sum ⟨"", "Idle", "", .Unknown, []⟩), w + 1)

/-- An action of the examples. -/
def idle : Action := ⟨"", "Idle", "", .Unknown, []⟩

/-- An appender of the example builder with an empty plan. -/
def emptyAppender : planAppenderType Nat Nat Bool Unit := ⟨exampleBuilder, []⟩

/-- An appender of the example builder with a plan of one action. -/
def busyAppender : planAppenderType Nat Nat Bool Unit := ⟨exampleBuilder, [idle]⟩

/-- The name of the `ArangoMember` object of a member in the examples: the deployment name,
a dash and the member id. -/
def exampleMemberName : MemberStatus → String → ServerGroup → String :=
  fun m name _ => name ++ "-" ++ m.ID

/-- The template comparison of the examples: the two templates are the same. -/
def exampleEquals : ArangoMemberPodTemplate → Option ArangoMemberPodTemplate → Bool :=
  fun t other => other == some t

/-- A context of the deployment `depl` with two members. Member `m1` runs the pod `pod-m1`,
which carries both finalizers and can be deleted; its `ArangoMember` has the status template
equal to the spec template. Member `m2` runs the pod `pod-m2`, which carries only the
graceful-shutdown finalizer and cannot be deleted; its `ArangoMember` has no status template.
The world counts the world-changing calls. -/
def exampleContext : ActionContext Nat where
  GetMemberStatusByID := fun _ id =>
    if id = "m1" then some { ID := "m1", PodName := "pod-m1" }
    else if id = "m2" then some { ID := "m2", PodName := "pod-m2" }
    else none
  GetCachedStatus := fun _ =>
    ⟨fun _ => none, fun name =>
      if name = "pod-m1" then
        some { Name := "pod-m1"
               Finalizers := ["pod.database.arangodb.com/graceful-shutdown",
                 "pod.database.arangodb.com/delay"] }
      else if name = "pod-m2" then
        some { Name := "pod-m2", Finalizers := ["pod.database.arangodb.com/graceful-shutdown"] }
      else none⟩
  ArangoMember := fun _ name =>
    if name = "depl-m1" then
      some { Namespace := "default", Name := "depl-m1"
             Spec := { Template := some { Checksum := "abc" } }
             Status := { Template := some { Checksum := "abc" } } }
    else if name = "depl-m2" then
      some { Namespace := "default", Name := "depl-m2"
             Spec := { Template := some { Checksum := "abc" } } }
    else none
  GetName := fun _ => "depl"
  DeletePod := fun name w =>
    if name = "pod-m1" then (none, w + 1) else (some (.Other "pod is protected"), w + 1)
  WithArangoMemberStatusUpdate := fun _ _ _ w => (none, w + 1)

/-- The planned `KillMemberPod` action for the member with the given id. -/
def killAction (id : String) : actionKillMemberPod Nat :=
  { action := ⟨"", "KillMemberPod", id, .DBServers, []⟩, actionCtx := exampleContext }

/-- The planned `ArangoMemberUpdatePodStatus` action for the member with the given id and
the given parameters. -/
def updateAction (id : String) (params : List (String × String)) :
    actionArangoMemberUpdatePodStatus Nat :=
  { action := ⟨"", "ArangoMemberUpdatePodStatus", id, .DBServers, params⟩
    actionCtx := exampleContext }

end reconcile

/-! ## Package `k8sutil` (`finalizers.go`) -/

namespace k8sutil

/-- The constant `maxRemoveFinalizersAttempts`. -/
def maxRemoveFinalizersAttempts : Nat := 50

/-- Object is the part of `metav1.Object` that is relevant to finalizer removal. -/
structure Object where
  Name : String := ""
  ResourceVersion : Nat := 0
  Finalizers : List String := []
deriving DecidableEq, Repr

/-- The method `GetFinalizers`. -/
def Object.GetFinalizers (obj : Object) : List String := obj.Finalizers

/-- The method `SetFinalizers`. -/
def Object.SetFinalizers (obj : Object) (finalizers : List String) : Object :=
  { obj with Finalizers := finalizers }

/-- The closure `shouldRemove` of `RemoveFinalizers`: the loop over `finalizers`. -/
def shouldRemove (finalizers : List String) (f : String) : Bool :=
  match finalizers with
  | [] => false
  | x :: rest => if x == f then true else shouldRemove rest f

/-- The loop of `RemoveFinalizers` that fills `newList` from `original`. -/
def newList (finalizers : List String) (original : List String) : List String :=
  original.foldl (fun acc f => if !shouldRemove finalizers f then acc ++ [f] else acc) []

/-- One call of `updateFunc`, recorded for the claims: the object `getFunc` returned and the
object `updateFunc` was given. -/
structure UpdateCall where
  original : Object
  updated : Object
deriving DecidableEq, Repr

/-- What a run of `RemoveFinalizers` did: the error it returned, the number of calls of
`getFunc`, the calls of `updateFunc` in order, and the world it left. -/
structure Outcome (σ : Type) where
  err : Option Error
  gets : Nat
  updates : List UpdateCall
  world : σ

/-- The body of the `for` loop of `RemoveFinalizers`, entered with the current value of
`attempts` in the world `w`; `continue` is the recursive call. `getFunc` and `updateFunc` read
and change the world `σ`. -/
def RemoveFinalizers.loop {σ : Type} (finalizers : List String)
    (getFunc : σ → Except Error Object × σ) (updateFunc : Object → σ → Option Error × σ)
    (ignoreNotFound : Bool) (attempts : Nat) (w : σ) : Outcome σ :=
  let attempts := attempts + 1
  match getFunc w with
  | (.error err, w1) =>
    if IsNotFound (some err) && ignoreNotFound then
      -- Object no longer found and we are allowed to ignore that.
      ⟨none, 1, [], w1⟩
    else ⟨some err, 1, [], w1⟩
  | (.ok obj, w1) =>
    let original := obj.GetFinalizers
    if original.length == 0 then
      -- We are done
      ⟨none, 1, [], w1⟩
    else
      let newList := newList finalizers original
      if newList.length < original.length then
        let obj1 := obj.SetFinalizers newList
        match updateFunc obj1 w1 with
        | (err, w2) =>
          if IsConflict err then
            if h : attempts > maxRemoveFinalizersAttempts then
              ⟨err, 1, [⟨obj, obj1⟩], w2⟩
            else
              -- Try again
              let rest := RemoveFinalizers.loop finalizers getFunc updateFunc ignoreNotFound
                attempts w2
              ⟨rest.err, 1 + rest.gets, ⟨obj, obj1⟩ :: rest.updates, rest.world⟩
          else if IsNotFound err && ignoreNotFound then
            -- Object no longer found and we are allowed to ignore that.
            ⟨none, 1, [⟨obj, obj1⟩], w2⟩
          else if err != none then
            ⟨err, 1, [⟨obj, obj1⟩], w2⟩
          else ⟨none, 1, [⟨obj, obj1⟩], w2⟩
      else
        -- No finalizers needed removal. Resource unchanged
        ⟨none, 1, [], w1⟩
termination_by maxRemoveFinalizersAttempts + 1 - attempts
decreasing_by
  simp only [maxRemoveFinalizersAttempts] at h ⊢
  omega

/-- RemoveFinalizers is a helper used to remove finalizers from an object: the loop entered
with `attempts := 0`. -/
def RemoveFinalizers {σ : Type} (finalizers : List String)
    (getFunc : σ → Except Error Object × σ) (updateFunc : Object → σ → Option Error × σ)
    (ignoreNotFound : Bool) (w : σ) : Outcome σ :=
  RemoveFinalizers.loop finalizers getFunc updateFunc ignoreNotFound 0 w

/-- What the object given to `updateFunc` is, for the object `getFunc` returned. -/
def writtenAsSpecified {σ : Type} (finalizers : List String)
    (getFunc : σ → Except Error Object × σ) (call : UpdateCall) : Prop :=
  call.updated
      = call.original.SetFinalizers
          (call.original.GetFinalizers.filter (fun f => decide (f ∉ finalizers)))
    ∧ call.updated.GetFinalizers.length < call.original.GetFinalizers.length
    ∧ (∀ f ∈ call.updated.GetFinalizers, f ∉ finalizers)
    ∧ ∃ w0 w1, getFunc w0 = (.ok call.original, w1)

/-! ### Concrete inputs -/

/-- A get that returns a pod with two finalizers; the world is a counter of writes. -/
def exampleGet : Nat → Except Error Object × Nat :=
  fun w => (.ok { Name := "pod", ResourceVersion := w, Finalizers := ["keep", "remove"] }, w)

/-- A get that reports the object as not found. -/
def missingGet : Nat → Except Error Object × Nat :=
  fun w => (.error .NotFound, w)

/-- An update that always conflicts. -/
def conflictingUpdate : Object → Nat → Option Error × Nat :=
  fun _ w => (some .Conflict, w + 1)

/-- An update that succeeds. -/
def acceptingUpdate : Object → Nat → Option Error × Nat :=
  fun _ w => (none, w + 1)

/-- An update that reports the object as not found. -/
def vanishedUpdate : Object → Nat → Option Error × Nat :=
  fun _ w => (some .NotFound, w + 1)

end k8sutil

/-! ## Package `deployment` (`cluster_scaling_integration.go`) -/

namespace deployment

/-- Modelled from the spec: the counts `{coordinatorCount, dbServerCount}` of the
administrative protocol of the cluster (`arangod.NumberOfServers`), each a pointer that may be
nil. -/
structure NumberOfServers where
  Coordinators : Option Int := none
  DBServers : Option Int := none
deriving DecidableEq, Repr

/-- Modelled from the spec: `GetCoordinators` is the count, 0 when it is not set. -/
def NumberOfServers.GetCoordinators (n : NumberOfServers) : Int :=
  match n.Coordinators with
  | some c => c
  | none => 0

/-- Modelled from the spec: `GetDBServers` is the count, 0 when it is not set. -/
def NumberOfServers.GetDBServers (n : NumberOfServers) : Int :=
  match n.DBServers with
  | some c => c
  | none => 0

/-- Modelled from the spec: the phase of a deployment (`api.DeploymentPhase`). -/
inductive DeploymentPhase
  | None
  | Running
  | Failed
deriving DecidableEq, Repr

/-- Modelled from the spec: the member lists of the two scalable groups. -/
structure DeploymentStatusMembers where
  Coordinators : List MemberStatus := []
  DBServers : List MemberStatus := []
  Agents : List MemberStatus := []
deriving DecidableEq, Repr

/-- Modelled from the spec: the part of the observed state read by the scaling integration
and by the pod creator; `CurrentImage` is a pointer that may be nil. -/
structure DeploymentStatus where
  Plan : Plan := []
  Members : DeploymentStatusMembers := {}
  Images : List ImageInfo := []
  CurrentImage : Option ImageInfo := none
deriving DecidableEq, Repr

/-- The deployment `ci.depl` as the scaling integration uses it. Its methods and the remote
calls are not among the sources; they read and change the world `σ` (the stored deployment
object, the live cluster):
`config.ScalingIntegrationEnabled`, `GetStatus`/`getStatus`, `GetPhase`,
`clientCache.GetDatabase`, `arangod.GetNumberOfServers`, the `Get` of the stored deployment
(its `Spec`), `CreateEvent`, `updateCRSpec` and `SetNumberOfServers`. -/
structure Deployment (σ : Type) where
  ScalingIntegrationEnabled : Bool
  GetStatus : σ → DeploymentStatus
  GetPhase : σ → DeploymentPhase
  GetDatabase : σ → Option Error × σ
  GetNumberOfServers : σ → Except Error NumberOfServers × σ
  GetCurrent : σ → Except Error DeploymentSpec × σ
  CreateEvent : Error → σ → σ
  updateCRSpec : DeploymentSpec → σ → Option Error × σ
  SetNumberOfServers : Option Int → Option Int → σ → Option Error × σ

/-- The struct `clusterScalingIntegration`: the pending update, the last known numbers of
servers and the enabled flag. The mutexes are not modelled: every function below runs without
another goroutine in between. -/
structure clusterScalingIntegration where
  pendingUpdate : Option DeploymentSpec := none
  lastNumberOfServers : NumberOfServers := {}
  scaleEnabled : Bool := false
deriving DecidableEq, Repr

/-- One call that leaves the integration, recorded for the claims. -/
inductive Call
  | GetDatabase
  | GetNumberOfServers
  | GetCurrent
  | CreateEvent (err : Error)
  | updateCRSpec (spec : DeploymentSpec)
  | SetNumberOfServers (coordinators dbservers : Option Int)
deriving DecidableEq, Repr

/-- What a function of the integration did: its result, the integration and the world after,
and the calls it made, in order. -/
structure Effect (σ α : Type) where
  result : α
  ci : clusterScalingIntegration
  world : σ
  calls : List Call

section scaling

variable {σ : Type}

/-- The constructor `newClusterScalingIntegration`. -/
def newClusterScalingIntegration : clusterScalingIntegration :=
  { scaleEnabled := true }

/-- SendUpdateToCluster records the given spec to be sended to the cluster. -/
def SendUpdateToCluster (ci : clusterScalingIntegration) (spec : DeploymentSpec) :
    clusterScalingIntegration :=
  { ci with pendingUpdate := some spec }

/-- GetLastNumberOfServers returns the last number of servers. -/
def GetLastNumberOfServers (ci : clusterScalingIntegration) : NumberOfServers :=
  ci.lastNumberOfServers

/-- The method `getNumbersOfServers`: the lengths of the two member lists of the status. -/
def getNumbersOfServers (depl : Deployment σ) (w : σ) : Int × Int :=
  (((depl.GetStatus w).Members.Coordinators.length : Nat),
    ((depl.GetStatus w).Members.DBServers.length : Nat))

/-- The method `setNumberOfServers`. -/
def setNumberOfServers (depl : Deployment σ) (w : σ) : Option Error × σ :=
  depl.SetNumberOfServers (some (getNumbersOfServers depl w).1)
    (some (getNumbersOfServers depl w).2) w

/-- Whether the live count of a group differs from the last known one, both being set. -/
def countChanged (req desired : Option Int) (reqCount desiredCount : Int) : Bool :=
  req != none && desired != none && reqCount != desiredCount

/-- The spec that `inspectCluster` builds from a copy of the stored one. -/
def updatedSpec (current : DeploymentSpec) (coordinatorsChanged dbserversChanged : Bool)
    (req : NumberOfServers) : DeploymentSpec :=
  let newSpec := current
  let newSpec :=
    if coordinatorsChanged then
      { newSpec with Coordinators := { newSpec.Coordinators with
          Count := some req.GetCoordinators } }
    else newSpec
  if dbserversChanged then
    { newSpec with DBServers := { newSpec.DBServers with Count := some req.GetDBServers } }
  else newSpec

/-- The method `inspectCluster`: a single inspection of the cluster. The result is the
returned error. -/
def inspectCluster (m : SpecMethods) (depl : Deployment σ) (ci : clusterScalingIntegration)
    (_expectSuccess : Bool) (w : σ) : Effect σ (Option Error) :=
  match depl.GetDatabase w with
  | (some err, w1) => ⟨some err, ci, w1, [.GetDatabase]⟩
  | (none, w1) =>
    match depl.GetNumberOfServers w1 with
    | (.error err, w2) => ⟨some err, ci, w2, [.GetDatabase, .GetNumberOfServers]⟩
    | (.ok req, w2) =>
      if req.Coordinators == none && req.DBServers == none then
        -- Nothing to check
        ⟨none, ci, w2, [.GetDatabase, .GetNumberOfServers]⟩
      else
        let desired := ci.lastNumberOfServers
        let coordinatorsChanged :=
          countChanged req.Coordinators desired.Coordinators
            req.GetCoordinators desired.GetCoordinators
        let dbserversChanged :=
          countChanged req.DBServers desired.DBServers req.GetDBServers desired.GetDBServers
        if !coordinatorsChanged && !dbserversChanged then
          -- if there is nothing to change, check if we never have asked the cluster before
          -- if so, fill in the values for the first time.
          let last :=
            if desired.Coordinators == none || desired.DBServers == none then
              let last := ci.lastNumberOfServers
              let last :=
                if req.Coordinators != none then { last with Coordinators := req.Coordinators }
                else last
              if req.DBServers != none then { last with DBServers := req.DBServers }
              else last
            else ci.lastNumberOfServers
          -- Nothing has changed
          ⟨none, { ci with lastNumberOfServers := last }, w2,
            [.GetDatabase, .GetNumberOfServers]⟩
        else
          -- Let us update the spec
          match depl.GetCurrent w2 with
          | (.error err, w3) =>
            ⟨some err, ci, w3, [.GetDatabase, .GetNumberOfServers, .GetCurrent]⟩
          | (.ok current, w3) =>
            let newSpec := updatedSpec current coordinatorsChanged dbserversChanged req
            match m.Validate newSpec with
            | some err =>
              -- Log failure and create event; restore original spec in cluster
              ⟨none, SendUpdateToCluster ci current, depl.CreateEvent err w3,
                [.GetDatabase, .GetNumberOfServers, .GetCurrent, .CreateEvent err]⟩
            | none =>
              match depl.updateCRSpec newSpec w3 with
              | (some err, w4) =>
                ⟨some err, ci, w4,
                  [.GetDatabase, .GetNumberOfServers, .GetCurrent, .updateCRSpec newSpec]⟩
              | (none, w4) =>
                ⟨none, ci, w4,
                  [.GetDatabase, .GetNumberOfServers, .GetCurrent, .updateCRSpec newSpec]⟩

/-- The method `updateClusterServerCount`: the result is `(safeToAskCluster, err)`. The test
`spec == ci.pendingUpdate.spec` compares the pointer read at the start with the slot; it is the
comparison of the slot with what was read from it. -/
def updateClusterServerCount (m : SpecMethods) (depl : Deployment σ)
    (ci : clusterScalingIntegration) (_expectSuccess : Bool) (w : σ) :
    Effect σ (Bool × Option Error) :=
  -- Any update needed?
  match ci.pendingUpdate with
  | none =>
    -- Nothing pending
    ⟨(true, none), ci, w, []⟩
  | some spec =>
    let coordinatorCount := (getNumbersOfServers depl w).1
    let dbserverCount := (getNumbersOfServers depl w).2
    let coordinatorCountPtr : Option Int :=
      if m.GetMaxCount spec.Coordinators == m.GetMinCount spec.Coordinators then none
      else some coordinatorCount
    let dbserverCountPtr : Option Int :=
      if m.GetMaxCount spec.DBServers == m.GetMinCount spec.DBServers then none
      else some dbserverCount
    let lastNumberOfServers := GetLastNumberOfServers ci
    -- Success, now update internal state
    let success (w1 : σ) (calls : List Call) : Effect σ (Bool × Option Error) :=
      let safeToAskCluster := some spec == ci.pendingUpdate
      let ci1 := if some spec == ci.pendingUpdate then { ci with pendingUpdate := none } else ci
      ⟨(safeToAskCluster, none),
        { ci1 with lastNumberOfServers :=
            { Coordinators := some coordinatorCount, DBServers := some dbserverCount } },
        w1, calls⟩
    -- This is to prevent unneseccary updates that may override some values written by the
    -- WebUI (in the case of a update loop)
    if coordinatorCount != lastNumberOfServers.GetCoordinators
        || dbserverCount != lastNumberOfServers.GetDBServers then
      match depl.SetNumberOfServers coordinatorCountPtr dbserverCountPtr w with
      | (some err, w1) =>
        ⟨(false, some err), ci, w1, [.SetNumberOfServers coordinatorCountPtr dbserverCountPtr]⟩
      | (none, w1) => success w1 [.SetNumberOfServers coordinatorCountPtr dbserverCountPtr]
    else success w []

/-- The method `checkScalingCluster`: returns true if inspection occurred. -/
def checkScalingCluster (m : SpecMethods) (depl : Deployment σ)
    (ci : clusterScalingIntegration) (expectSuccess : Bool) (w : σ) : Effect σ Bool :=
  if !depl.ScalingIntegrationEnabled then
    ⟨false, ci, w, []⟩
  else
    if depl.GetPhase enable.world != .Running || !enable.ci.scaleEnabled then
      -- Deployment must be in running state and scaling must be enabled
      ⟨false, enable.ci, enable.world, enable.calls⟩
    else
      -- Update cluster with our state
      let push := updateClusterServerCount m depl enable.ci expectSuccess enable.world
      if push.result.2 != none then
        ⟨false, push.ci, push.world, enable.calls ++ push.calls⟩
      else if push.result.1 then
        -- Inspect once
        let inspect := inspectCluster m depl push.ci expectSuccess push.world
        if inspect.result != none then
          ⟨false, inspect.ci, inspect.world, enable.calls ++ push.calls ++ inspect.calls⟩
        else
          ⟨true, inspect.ci, inspect.world, enable.calls ++ push.calls ++ inspect.calls⟩
      else ⟨false, push.ci, push.world, enable.calls ++ push.calls⟩
where
  /-- Lines 94 to 103: with the flag off, the attempt to turn scaling on again when the plan
  is empty. -/
  enable : Effect σ Unit :=
    let status := depl.GetStatus w
    if !ci.scaleEnabled then
      -- Check if it is possible to turn on scaling without any issue
      if status.Plan.IsEmpty then
        match setNumberOfServers depl w with
        | (none, w1) =>
          -- Scaling should be enabled because there is no Plan.
          ⟨(), { ci with scaleEnabled := true }, w1,
            [.SetNumberOfServers (some (getNumbersOfServers depl w).1)
              (some (getNumbersOfServers depl w).2)]⟩
        | (some _, w1) =>
          ⟨(), ci, w1,
            [.SetNumberOfServers (some (getNumbersOfServers depl w).1)
              (some (getNumbersOfServers depl w).2)]⟩
      else ⟨(), ci, w, []⟩
    else ⟨(), ci, w, []⟩

/-- A number of ticks of the loop that inspect the cluster one after the other: the errors
returned, the integration and the world after the last one, and all the calls made. -/
def inspectRepeatedly (m : SpecMethods) (depl : Deployment σ) (expectSuccess : Bool) :
    Nat → clusterScalingIntegration → σ → Effect σ (List (Option Error))
  | 0, ci, w => ⟨[], ci, w, []⟩
  | n + 1, ci, w =>
    let first := inspectCluster m depl ci expectSuccess w
    let rest := inspectRepeatedly m depl expectSuccess n first.ci first.world
    ⟨first.result :: rest.result, rest.ci, rest.world, first.calls ++ rest.calls⟩

/-- Whether a call belongs to the inspection of the cluster and its write-back (every call
but `SetNumberOfServers`). -/
def Call.isInspection : Call → Bool
  | .SetNumberOfServers _ _ => false
  | _ => true

/-- DisableScalingCluster disables scaling DBservers and coordinators. The result is the
returned error. -/
def DisableScalingCluster (depl : Deployment σ) (ci : clusterScalingIntegration) (w : σ) :
    Effect σ (Option Error) :=
  -- Turn off scaling DBservers and coordinators in arangoDB for the UI
  match depl.SetNumberOfServers none none w with
  | (some err, w1) => ⟨some err, ci, w1, [.SetNumberOfServers none none]⟩
  | (none, w1) => ⟨none, { ci with scaleEnabled := false }, w1, [.SetNumberOfServers none none]⟩

/-- EnableScalingCluster enables scaling DBservers and coordinators. The result is the
returned error. -/
def EnableScalingCluster (depl : Deployment σ) (ci : clusterScalingIntegration) (w : σ) :
    Effect σ (Option Error) :=
  if ci.scaleEnabled then
    ⟨none, ci, w, []⟩
  else
    match setNumberOfServers depl w with
    | (some err, w1) =>
      ⟨some err, ci, w1,
        [.SetNumberOfServers (some (getNumbersOfServers depl w).1)
          (some (getNumbersOfServers depl w).2)]⟩
    | (none, w1) =>
      ⟨none, { ci with scaleEnabled := true }, w1,
        [.SetNumberOfServers (some (getNumbersOfServers depl w).1)
          (some (getNumbersOfServers depl w).2)]⟩

end scaling

/-! ### Concrete inputs -/

/-- The methods of the examples: `Validate` checks `min <= count <= max` for the two groups,
the bounds default to 1 and to the largest 32 bit integer. -/
def exampleMethods : SpecMethods where
  Validate := fun s =>
    if s.Coordinators.MinCount.getD 1 ≤ s.Coordinators.Count.getD 0
        ∧ s.Coordinators.Count.getD 0 ≤ s.Coordinators.MaxCount.getD 2147483647
        ∧ s.DBServers.MinCount.getD 1 ≤ s.DBServers.Count.getD 0
        ∧ s.DBServers.Count.getD 0 ≤ s.DBServers.MaxCount.getD 2147483647 then none
    else some (.Other "Invalid count value")
  GetMinCount := fun g => g.MinCount.getD 1
  GetMaxCount := fun g => g.MaxCount.getD 2147483647

/-- The stored spec of the scenario: coordinators `min=2, max=5, count=3`, three dbservers. -/
def storedSpec : DeploymentSpec :=
  { Coordinators := { Count := some 3, MinCount := some 2, MaxCount := some 5 }
    DBServers := { Count := some 3, MinCount := some 3, MaxCount := some 3 } }

/-- A deployment whose world is the number of coordinators the live cluster reports; it has
three coordinators and three dbservers as members and no plan, and every call succeeds. -/
def exampleDeployment : Deployment Int where
  ScalingIntegrationEnabled := true
  GetStatus := fun _ =>
    { Members := { Coordinators := [{ ID := "c1" }, { ID := "c2" }, { ID := "c3" }]
                   DBServers := [{ ID := "d1" }, { ID := "d2" }, { ID := "d3" }] } }
  GetPhase := fun _ => .Running
  GetDatabase := fun w => (none, w)
  GetNumberOfServers := fun w => (.ok { Coordinators := some w, DBServers := some 3 }, w)
  GetCurrent := fun w => (.ok storedSpec, w)
  CreateEvent := fun _ w => w
  updateCRSpec := fun _ w => (none, w)
  SetNumberOfServers := fun _ _ w => (none, w)

/-- A deployment whose live cluster reports three coordinators and three dbservers at every
fetch; the world counts the fetches. -/
def steadyDeployment : Deployment Int :=
  { exampleDeployment with
    GetNumberOfServers := fun w => (.ok { Coordinators := some 3, DBServers := some 3 }, w + 1) }

/-- The integration after three coordinators and three dbservers were pushed. -/
def settledIntegration : clusterScalingIntegration :=
  { lastNumberOfServers := { Coordinators := some 3, DBServers := some 3 }
    scaleEnabled := true }

/-- A deployment like the one above whose `updateCRSpec` leaves a trace in the world: it adds
100 when the write is accepted, and it refuses, adding 1, a spec with more than five
coordinators. -/
def writingDeployment : Deployment Int :=
  { exampleDeployment with
    updateCRSpec := fun spec w =>
      if spec.Coordinators.Count.getD 0 ≤ 5 then (none, w + 100)
      else (some (.Other "admission refused"), w + 1) }

/-- A deployment whose cluster refuses every `SetNumberOfServers`; the world counts the
calls. -/
def refusingDeployment : Deployment Int :=
  { exampleDeployment with
    SetNumberOfServers := fun _ _ w => (some (.Other "cluster unreachable"), w + 1) }

/-- A deployment whose cluster accepts every `SetNumberOfServers`; the world counts the
calls. -/
def acceptingDeployment : Deployment Int :=
  { exampleDeployment with SetNumberOfServers := fun _ _ w => (none, w + 1) }

end deployment

/-! ## Package `resources` (`pod_creator.go`) -/

namespace resources

/-- What `SelectImage` returns, `(imageInfo, found)`, together with the two statuses that Go
keeps apart after the call: `status` is a parameter passed by value, so the function works on
its own copy, `status` here, while the status of the caller, `callerStatus`, is reached by no
statement of the function. -/
structure Selected where
  imageInfo : ImageInfo
  found : Bool
  status : deployment.DeploymentStatus
  callerStatus : deployment.DeploymentStatus
deriving DecidableEq, Repr

/-- The method `Resources.SelectImage` (the receiver is not used). -/
def SelectImage (spec : DeploymentSpec) (status : deployment.DeploymentStatus) : Selected :=
  match status.CurrentImage with
  | some current =>
    -- Use current image
    ⟨current, true, status, status⟩
  | none =>
    -- Find image ID
    match ImageInfoList.GetByImage status.Images spec.GetImage with
    | none => ⟨{}, false, status, status⟩
    | some info =>
      -- Save image as current image
      ⟨info, true, { status with CurrentImage := some info }, status⟩

/-- The method `Resources.SelectImageForMember`. -/
def SelectImageForMember (spec : DeploymentSpec) (status : deployment.DeploymentStatus)
    (member : MemberStatus) : ImageInfo × Bool :=
  match member.Image with
  | some image => (image, true)
  | none => ((SelectImage spec status).imageInfo, (SelectImage spec status).found)

/-- The method `DeepCopy` of a pod: a separate object with the same contents. -/
def Pod.DeepCopy (p : Pod) : Pod :=
  { Name := p.Name, UID := p.UID, DeletionTimestamp := p.DeletionTimestamp,
    Finalizers := p.Finalizers, Annotations := p.Annotations, Spec := p.Spec }

/-- What `ChecksumArangoPod` returns, `(checksum, err)`, together with the pod behind the
pointer it was given as it is after the call. -/
structure Checksummed where
  checksum : String
  err : Option Error
  pod : Pod
deriving DecidableEq, Repr

/-- ChecksumArangoPod of `pod_creator.go`. `json.Marshal` on a pod spec and `util.SHA256`
are not among the sources and are the parameters `Marshal` and `SHA256`; `modeDefault` is the
default init container mode of package `api`. -/
def ChecksumArangoPod (modeDefault : ServerGroupInitContainerMode)
    (Marshal : PodSpec → Except Error String) (SHA256 : String → String)
    (groupSpec : ServerGroupSpec) (pod : Pod) : Checksummed :=
  let shaPod := Pod.DeepCopy pod
  let shaPod : Pod :=
    match ServerGroupInitContainerMode.Get modeDefault
        (ServerGroupInitContainers.GetMode groupSpec.InitContainers) with
    | .ServerGroupInitContainerUpdateMode =>
      { shaPod with Spec := { shaPod.Spec with
          InitContainers := ServerGroupInitContainers.GetContainers groupSpec.InitContainers } }
    | _ => { shaPod with Spec := { shaPod.Spec with InitContainers := [] } }
  match Marshal shaPod.Spec with
  | .error err => ⟨"", some err, pod⟩
  | .ok data => ⟨SHA256 data, none, pod⟩

/-! ### The command line of an arangod server (`createArangodArgs`) -/

/-- Modelled from the spec: the value given to `OptionPairs.Add` of package `k8sutil`, its
`interface` argument: a string or a boolean. The package is not among the sources. -/
inductive OptionValue
  | str (s : String)
  | bool (b : Bool)
deriving DecidableEq, Repr

/-- Modelled from the spec: one command line option of package `k8sutil`, a key with its
value. -/
structure OptionPair where
  Key : String
  Value : OptionValue
deriving DecidableEq, Repr

/-- Modelled from the spec: the options collected for a command line, in the order they were
added (`k8sutil.OptionPairs`). -/
abbrev OptionPairs := List OptionPair

/-- Modelled from the spec: `OptionPairs.Add` adds one option at the end. -/
def OptionPairs.Add (o : OptionPairs) (key : String) (value : OptionValue) : OptionPairs :=
  o ++ [⟨key, value⟩]

/-- Modelled from the spec: `OptionPairs.Addf` adds one option whose value is the formatted
text, given here as it is after formatting. -/
def OptionPairs.Addf (o : OptionPairs) (key : String) (text : String) : OptionPairs :=
  OptionPairs.Add o key (.str text)

/-- Modelled from the spec: `OptionPairs.Append` adds the given options at the end. -/
def OptionPairs.Append (o : OptionPairs) (pairs : List OptionPair) : OptionPairs :=
  o ++ pairs

/-- Modelled from the spec: `OptionPairs.Merge` adds the options of another collection at the
end. -/
def OptionPairs.Merge (o : OptionPairs) (pairs : OptionPairs) : OptionPairs :=
  o ++ pairs

/-- The constant `ArangoPort` of `k8sutil/constants.go`. -/
def ArangoPort : Nat := 8529

/-- The function `net.JoinHostPort` of the Go library: `host:port`, the host in brackets when
it contains a colon. -/
def JoinHostPort (host port : String) : String :=
  if host.toList.contains ':' then "[" ++ host ++ "]:" ++ port else host ++ ":" ++ port

/-- Modelled from the spec: `util.StringOrDefault` is the string behind the pointer, or the
default for nil. -/
def StringOrDefault (input : Option String) (defaultValue : String) : String :=
  match input with
  | some s => s
  | none => defaultValue

/-- Modelled from the spec: the part of `pod.Input` that `createArangodArgs` reads: the
deployment object (by name), the desired and the observed state, the group with its spec, and
the member. -/
structure Input where
  ApiObject : String := ""
  Deployment : DeploymentSpec := {}
  Status : deployment.DeploymentStatus := {}
  GroupSpec : ServerGroupSpec := {}
  Group : ServerGroup := .Unknown
  Member : MemberStatus := {}
deriving DecidableEq, Repr

/-- What `createArangodArgs` calls and these sources do not contain: methods of package `api`
on the spec (`IsSecure`, `GetListenAddr`, `GetStorageEngine().AsArangoArgument()`, `GetCount`,
`ExternalAccess.HasAdvertisedEndpoint`, `ExternalAccess.GetAdvertisedEndpoint`,
`GetMode() == api.DeploymentModeActiveFailover`), the argument builders of package `pod`
(`JWT`, `Security`, `TLS`, `Encryption`, `SNI`), `pod.GenerateMemberEndpoint`, the feature
switch `features.EncryptionRotation().Enabled()`, the constant `k8sutil.ArangodVolumeMountDir`
and the rendering `Sort().AsArgs()` of the collected options, the field `SortAsArgs`. -/
structure ArgsHelpers where
  IsSecure : DeploymentSpec → Bool
  GetListenAddr : DeploymentSpec → String
  StorageEngineArgument : DeploymentSpec → String
  GetCount : ServerGroupSpec → Int
  HasAdvertisedEndpoint : DeploymentSpec → Bool
  GetAdvertisedEndpoint : DeploymentSpec → String
  IsActiveFailover : DeploymentSpec → Bool
  JWT : Input → OptionPairs
  Security : Input → OptionPairs
  TLS : Input → OptionPairs
  Encryption : Input → OptionPairs
  SNI : Input → OptionPairs
  GenerateMemberEndpoint :
    Inspector → String → DeploymentSpec → ServerGroup → MemberStatus → Except Error String
  EncryptionRotationEnabled : Bool
  ArangodVolumeMountDir : String
  SortAsArgs : OptionPairs → List String

/-- The loop of lines 125 to 133: one `--agency.endpoint` option for every other agent; an
endpoint that cannot be generated ends the function with that error. -/
def agencyEndpoints (h : ArgsHelpers) (cachedStatus : Inspector) (input : Input)
    (scheme : String) : List MemberStatus → OptionPairs → Except Error OptionPairs
  | [], options => .ok options
  | p :: rest, options =>
    if p.ID != input.Member.ID then
      match h.GenerateMemberEndpoint cachedStatus input.ApiObject input.Deployment .Agents p with
      | .error err => .error err
      | .ok dnsName =>
        agencyEndpoints h cachedStatus input scheme rest
          (options.Addf "--agency.endpoint"
            (scheme ++ "://"
              ++ JoinHostPort (StringOrDefault p.Endpoint dnsName) (toString ArangoPort)))
    else agencyEndpoints h cachedStatus input scheme rest options

/-- The loop of lines 162 to 170: one `--cluster.agency-endpoint` option for every agent. -/
def clusterAgencyEndpoints (h : ArgsHelpers) (cachedStatus : Inspector) (input : Input)
    (scheme : String) : List MemberStatus → OptionPairs → Except Error OptionPairs
  | [], options => .ok options
  | p :: rest, options =>
    match h.GenerateMemberEndpoint cachedStatus input.ApiObject input.Deployment .Agents p with
    | .error err => .error err
    | .ok dnsName =>
      clusterAgencyEndpoints h cachedStatus input scheme rest
        (options.Addf "--cluster.agency-endpoint"
          (scheme ++ "://"
            ++ JoinHostPort (StringOrDefault p.Endpoint dnsName) (toString ArangoPort)))

/-- The switch on the group of lines 116 to 161: from the options collected so far, the
options after it and the flag `addAgentEndpoints`, or the error that ends the function. -/
def groupSwitch (h : ArgsHelpers) (cachedStatus : Inspector) (input : Input)
    (scheme myTCPURL : String) (options : OptionPairs) : Except Error (OptionPairs × Bool) :=
  match input.Group with
  | .Agents =>
    let options := options.Add "--agency.disaster-recovery-id" (.str input.Member.ID)
    let options := options.Add "--agency.activate" (.str "true")
    let options := options.Add "--agency.my-address" (.str myTCPURL)
    let options := options.Addf "--agency.size" (toString (h.GetCount input.Deployment.Agents))
    let options := options.Add "--agency.supervision" (.str "true")
    let options := options.Add "--foxx.queues" (.bool false)
    let options := options.Add "--server.statistics" (.str "false")
    match agencyEndpoints h cachedStatus input scheme input.Status.Members.Agents options with
    | .error err => .error err
    | .ok options => .ok (options, false)
  | .DBServers =>
    let options := options.Add "--cluster.my-address" (.str myTCPURL)
    let options := options.Add "--cluster.my-role" (.str "PRIMARY")
    let options := options.Add "--foxx.queues" (.bool false)
    let options := options.Add "--server.statistics" (.str "true")
    .ok (options, true)
  | .Coordinators =>
    let options := options.Add "--cluster.my-address" (.str myTCPURL)
    let options := options.Add "--cluster.my-role" (.str "COORDINATOR")
    let options := options.Add "--foxx.queues"
      (.bool (DeploymentFeatures.GetFoxxQueues input.Deployment.Features))
    let options := options.Add "--server.statistics" (.str "true")
    let options :=
      if h.HasAdvertisedEndpoint input.Deployment then
        options.Add "--cluster.my-advertised-endpoint"
          (.str (h.GetAdvertisedEndpoint input.Deployment))
      else options
    .ok (options, true)
  | .Single =>
    let options := options.Add "--foxx.queues"
      (.bool (DeploymentFeatures.GetFoxxQueues input.Deployment.Features))
    let options := options.Add "--server.statistics" (.str "true")
    if h.IsActiveFailover input.Deployment then
      let options := options.Add "--replication.automatic-failover" (.str "true")
      let options := options.Add "--cluster.my-address" (.str myTCPURL)
      let options := options.Add "--cluster.my-role" (.str "SINGLE")
      let options :=
        if h.HasAdvertisedEndpoint input.Deployment then
          options.Add "--cluster.my-advertised-endpoint"
            (.str (h.GetAdvertisedEndpoint input.Deployment))
        else options
      .ok (options, true)
    else .ok (options, false)
  | _ => .ok (options, false)

/-- The function `createArangodArgs`: the command line arguments of an arangod server in the
given group, or the error. The local function `options` is lines 70 to 172, the value of the
variable `options` when it is rendered at line 174. -/
def createArangodArgs (h : ArgsHelpers) (cachedStatus : Inspector) (input : Input)
    (additionalOptions : List OptionPair) : Except Error (List String) :=
  match options with
  | .error err => .error err
  | .ok options =>
    let args := h.SortAsArgs options
    if input.GroupSpec.Args.length > 0 then
      .ok (args ++ input.GroupSpec.Args)
    else .ok args
where
  /-- Lines 70 to 172. -/
  options : Except Error OptionPairs :=
    let options : OptionPairs := []
    let scheme := if h.IsSecure input.Deployment then "ssl" else "tcp"
    let options := options.Addf "--server.endpoint"
      (scheme ++ "://" ++ h.GetListenAddr input.Deployment ++ ":" ++ toString ArangoPort)
    let options :=
      match input.GroupSpec.InternalPort with
      | some port => options.Addf "--server.endpoint" ("tcp://127.0.0.1:" ++ toString port)
      | none => options
    -- Authentication
    let options := options.Merge (h.JWT input)
    -- Security
    let options := options.Merge (h.Security input)
    -- Storage engine
    let options := options.Add "--server.storage-engine"
      (.str (h.StorageEngineArgument input.Deployment))
    -- Logging
    let options := options.Add "--log.level" (.str "INFO")
    let options := options.Append additionalOptions
    -- TLS
    let options := options.Merge (h.TLS input)
    -- RocksDB
    let options := options.Merge (h.Encryption input)
    let options := options.Add "--database.directory" (.str h.ArangodVolumeMountDir)
    let options := options.Add "--log.output" (.str "+")
    let options := options.Merge (h.SNI input)
    match h.GenerateMemberEndpoint cachedStatus input.ApiObject input.Deployment input.Group
        input.Member with
    | .error err => .error err
    | .ok endpoint =>
      let endpoint := StringOrDefault input.Member.Endpoint endpoint
      let myTCPURL := scheme ++ "://" ++ JoinHostPort endpoint (toString ArangoPort)
      match groupSwitch h cachedStatus input scheme myTCPURL options with
      | .error err => .error err
      | .ok (options, addAgentEndpoints) =>
        let withEndpoints :=
          if addAgentEndpoints then
            clusterAgencyEndpoints h cachedStatus input scheme input.Status.Members.Agents
              options
          else .ok options
        match withEndpoints with
        | .error err => .error err
        | .ok options =>
          if h.EncryptionRotationEnabled then
            .ok (options.Add "--rocksdb.encryption-key-rotation" (.str "true"))
          else .ok options

/-- The `--foxx.queues` options that the specification expects for a member of a group:
false for an agent and a dbserver, the value of the feature of the deployment for a
coordinator and a single server. -/
def expectedFoxxQueues (input : Input) : OptionPairs :=
  match input.Group with
  | .Agents => [⟨"--foxx.queues", .bool false⟩]
  | .DBServers => [⟨"--foxx.queues", .bool false⟩]
  | .Coordinators =>
    [⟨"--foxx.queues", .bool (DeploymentFeatures.GetFoxxQueues input.Deployment.Features)⟩]
  | .Single =>
    [⟨"--foxx.queues", .bool (DeploymentFeatures.GetFoxxQueues input.Deployment.Features)⟩]
  | _ => []

/-- The options with the key `--foxx.queues` among the collected options, in order. -/
def foxxQueues (o : OptionPairs) : OptionPairs :=
  o.filter (fun p => p.Key == "--foxx.queues")

/-! ### Concrete inputs -/

/-- A spec that asks for the image `arangodb/arangodb:3.7.10`. -/
def imageSpec : DeploymentSpec := { Image := "arangodb/arangodb:3.7.10" }

/-- What is known of the image `arangodb/arangodb:3.7.10`. -/
def knownImage : ImageInfo :=
  { Image := "arangodb/arangodb:3.7.10", ImageID := "arangodb/arangodb@sha256:0a1b",
    ArangoDBVersion := "3.7.10" }

/-- A status that knows the image of the spec and has no current image. -/
def imageStatus : deployment.DeploymentStatus := { Images := [knownImage] }

/-- A marshaller of the examples: the scheduler name, the node name and the names of the init
containers, separated by semicolons. -/
def exampleMarshal : PodSpec → Except Error String :=
  fun spec => .ok (spec.SchedulerName ++ ";" ++ spec.NodeName ++ ";"
    ++ String.intercalate "," (spec.InitContainers.map (fun c => c.Name)))

/-- A hash of the examples: the text itself, marked. -/
def exampleSHA256 : String → String := fun data => "sha256:" ++ data

/-- A group spec with one init container of the user, in update mode. -/
def updateGroupSpec : ServerGroupSpec :=
  { InitContainers := some { Containers := [{ Name := "user-init" }]
                             Mode := some .ServerGroupInitContainerUpdateMode } }

/-- The text of an option value in the examples. -/
def OptionValue.text : OptionValue → String
  | .str s => s
  | .bool b => if b then "true" else "false"

/-- Helpers of the examples: no TLS, no options from the argument builders, the endpoint of a
member is its id under the name of the deployment, and an option is rendered as
`key=value`, in the order of collection. -/
def exampleHelpers : ArgsHelpers where
  IsSecure := fun _ => false
  GetListenAddr := fun _ => "[::]"
  StorageEngineArgument := fun _ => "rocksdb"
  GetCount := fun g => g.Count.getD 3
  HasAdvertisedEndpoint := fun _ => false
  GetAdvertisedEndpoint := fun _ => ""
  IsActiveFailover := fun _ => false
  JWT := fun _ => []
  Security := fun _ => []
  TLS := fun _ => []
  Encryption := fun _ => []
  SNI := fun _ => []
  GenerateMemberEndpoint := fun _ name _ _ m => .ok (name ++ "-" ++ m.ID ++ ".svc")
  EncryptionRotationEnabled := false
  ArangodVolumeMountDir := "/data"
  SortAsArgs := fun o => o.map (fun p => p.Key ++ "=" ++ p.Value.text)

/-- The input for the dbserver `d1` of the deployment `depl`, which has no agents and does not
set the feature. -/
def dbserverInput : Input :=
  { ApiObject := "depl", Group := .DBServers, Member := { ID := "d1" } }

/-- The input for the coordinator `c1` of the deployment `depl`, whose spec turns the feature
off. -/
def coordinatorInput : Input :=
  { ApiObject := "depl", Group := .Coordinators, Member := { ID := "c1" }
    Deployment := { Features := some { FoxxQueues := some false } } }

/-- A snapshot without objects. -/
def noObjects : Inspector := ⟨fun _ => none, fun _ => none⟩

end resources

/-! ## Theorems -/

namespace rotation

open Mode


section stages

variable (k : Constants) (compare : Compare) (resizePending : PersistentVolumeClaim → Bool)
  (cachedStatus : Inspector) (spec : DeploymentSpec) (member : MemberStatus)
  (group : ServerGroup) (pod : Option Pod)
  (specTemplate statusTemplate : Option ArangoMemberPodTemplate)

/-- A pod under termination decides the result on the spot. -/
theorem stage_termination (h1 : underTermination member pod = true) :
    IsRotationRequired k compare resizePending cachedStatus spec member group pod
      specTemplate statusTemplate
    = if gracefulWithoutDelay k pod then
        ⟨EnforcedRotation, [], "Recreation enforced by deleted state", none⟩
      else ⟨SkippedRotation, [], "", none⟩ := by
  rcases pod with _ | p
  · simp [underTermination] at h1
  · simp only [underTermination] at h1
    simp only [IsRotationRequired, gracefulWithoutDelay, h1, if_true]

/-- Without a pod under termination the decision continues with the state of the member. -/
theorem stage_checkMember (h1 : underTermination member pod = false) :
    IsRotationRequired k compare resizePending cachedStatus spec member group pod
      specTemplate statusTemplate
    = IsRotationRequired.checkMember k compare resizePending cachedStatus spec member group pod
      specTemplate statusTemplate := by
  rcases pod with _ | p
  · simp only [IsRotationRequired]
  · simp only [underTermination] at h1
    simp [IsRotationRequired, h1]

/-- A Terminated member is skipped. -/
theorem checkMember_terminated (h2 : member.Conditions.IsTrue .Terminated = true) :
    IsRotationRequired.checkMember k compare resizePending cachedStatus spec member group pod
      specTemplate statusTemplate
    = ⟨SkippedRotation, [], "", none⟩ := by
  simp [IsRotationRequired.checkMember, CheckPossible, h2]

/-- Propagation mode Always with a pending restart enforces the rotation. -/
theorem checkMember_restart (h2 : member.Conditions.IsTrue .Terminated = false)
    (h3 : (DeploymentMemberPropagationMode.Get k spec.MemberPropagationMode == .Always
      && member.Conditions.IsTrue .PendingRestart) = true) :
    IsRotationRequired.checkMember k compare resizePending cachedStatus spec member group pod
      specTemplate statusTemplate
    = ⟨EnforcedRotation, [], "Restart is pending", none⟩ := by
  simp only [IsRotationRequired.checkMember, CheckPossible, h2, h3]
  simp

/-- A pod whose UID is not the recorded one enforces the rotation. -/
theorem checkMember_uid (h2 : member.Conditions.IsTrue .Terminated = false)
    (h3 : (DeploymentMemberPropagationMode.Get k spec.MemberPropagationMode == .Always
      && member.Conditions.IsTrue .PendingRestart) = false)
    (h4 : uidMismatch member pod = true) :
    IsRotationRequired.checkMember k compare resizePending cachedStatus spec member group pod
      specTemplate statusTemplate
    = ⟨EnforcedRotation, [],
        "Pod UID does not match, this pod is not managed by Operator. Recreating", none⟩ := by
  rcases pod with _ | p
  · simp [uidMismatch] at h4
  · simp only [uidMismatch] at h4
    simp only [IsRotationRequired.checkMember, CheckPossible, h2, h3, h4]
    simp

/-- A pod carrying the rotate annotation enforces the rotation. -/
theorem checkMember_rotateAnnotated (h2 : member.Conditions.IsTrue .Terminated = false)
    (h3 : (DeploymentMemberPropagationMode.Get k spec.MemberPropagationMode == .Always
      && member.Conditions.IsTrue .PendingRestart) = false)
    (h4 : uidMismatch member pod = false) (h5 : rotateAnnotated k pod = true) :
    IsRotationRequired.checkMember k compare resizePending cachedStatus spec member group pod
      specTemplate statusTemplate
    = ⟨EnforcedRotation, [], "Recreation enforced by annotation", none⟩ := by
  rcases pod with _ | p
  · simp [rotateAnnotated] at h5
  · simp only [uidMismatch] at h4
    simp only [rotateAnnotated] at h5
    simp only [IsRotationRequired.checkMember, CheckPossible, h2, h3, h4, h5]
    simp

/-- When none of the rules 2 to 5 fires the decision continues with the templates. -/
theorem checkMember_checkTemplates (h2 : member.Conditions.IsTrue .Terminated = false)
    (h3 : (DeploymentMemberPropagationMode.Get k spec.MemberPropagationMode == .Always
      && member.Conditions.IsTrue .PendingRestart) = false)
    (h4 : uidMismatch member pod = false) (h5 : rotateAnnotated k pod = false) :
    IsRotationRequired.checkMember k compare resizePending cachedStatus spec member group pod
      specTemplate statusTemplate
    = IsRotationRequired.checkTemplates compare resizePending cachedStatus spec member group
      specTemplate statusTemplate := by
  rcases pod with _ | p
  · simp only [IsRotationRequired.checkMember, CheckPossible, h2, h3]
    simp
  · simp only [uidMismatch] at h4
    simp only [rotateAnnotated] at h5
    simp only [IsRotationRequired.checkMember, CheckPossible, h2, h3, h4, h5]
    simp

/-- An empty pod spec version enforces the rotation. -/
theorem checkTemplates_version (h6 : member.PodSpecVersion = "") :
    IsRotationRequired.checkTemplates compare resizePending cachedStatus spec member group
      specTemplate statusTemplate
    = ⟨EnforcedRotation, [], "Pod Spec Version is nil - recreating pod", none⟩ := by
  simp [IsRotationRequired.checkTemplates, h6]

/-- A missing template skips the rotation. -/
theorem checkTemplates_missing (h6 : member.PodSpecVersion ≠ "")
    (h7 : (specTemplate.isNone || statusTemplate.isNone) = true) :
    IsRotationRequired.checkTemplates compare resizePending cachedStatus spec member group
      specTemplate statusTemplate
    = ⟨SkippedRotation, [], "", none⟩ := by
  rcases specTemplate with _ | specT <;> rcases statusTemplate with _ | statusT <;>
    simp [IsRotationRequired.checkTemplates, h6] at h7 ⊢

/-- With both templates, the remaining rules 8 to 10 in closed form. -/
theorem checkTemplates_both (h6 : member.PodSpecVersion ≠ "")
    (specT statusT : ArangoMemberPodTemplate) :
    IsRotationRequired.checkTemplates compare resizePending cachedStatus spec member group
      (some specT) (some statusT)
    = if member.Conditions.IsTrue .PendingTLSRotation then
        ⟨EnforcedRotation, [], "TLS Rotation pending", none⟩
      else if pvcResizePending resizePending cachedStatus member then
        ⟨EnforcedRotation, [], "PVC Resize pending", none⟩
      else IsRotationRequired.runCompare compare spec member group specT statusT := by
  simp only [IsRotationRequired.checkTemplates, pvcResizePending]
  rcases Option.eq_none_or_eq_some
      (cachedStatus.PersistentVolumeClaim member.PersistentVolumeClaimName) with hp | ⟨pvc, hp⟩ <;>
    simp [hp, h6]

/-- The mode of the comparator stage. -/
theorem runCompare_mode (specT statusT : ArangoMemberPodTemplate) :
    (IsRotationRequired.runCompare compare spec member group specT statusT).mode
    = comparatorMode compare spec member group (some specT) (some statusT) := by
  simp only [IsRotationRequired.runCompare, comparatorMode]
  rcases compare spec member group specT statusT with e | ⟨m, plan⟩ <;> rfl

end stages

/-! ### Claims about `Mode.And` and `IsRotationRequired` -/

/-- C1 (as stated, refuted): a pod with a deletion timestamp and no finalizer, of a member
without a pod spec version, is skipped by the code, while the first matching rule of the
specification (rule 6) enforces the rotation. -/
theorem IsRotationRequired_specRules_counterexample :
    (IsRotationRequired exampleConstants exampleCompare (fun _ => false) emptyInspector {}
        { PodUID := "uid-1", PodSpecVersion := "" } .DBServers
        (some { UID := "uid-1", DeletionTimestamp := some 1, Finalizers := [] })
        none none).mode = SkippedRotation
    ∧ firstMatch (specRules exampleConstants exampleCompare (fun _ => false) emptyInspector {}
        { PodUID := "uid-1", PodSpecVersion := "" } .DBServers
        (some { UID := "uid-1", DeletionTimestamp := some 1, Finalizers := [] })
        none none) = EnforcedRotation := by
  decide

/-- The mode returned by `IsRotationRequired` is the outcome of the first rule of the code
that applies. -/
theorem mode_codeRules (k : Constants) (compare : Compare)
    (resizePending : PersistentVolumeClaim → Bool)
    (cachedStatus : Inspector) (spec : DeploymentSpec) (member : MemberStatus)
    (group : ServerGroup) (pod : Option Pod)
    (specTemplate statusTemplate : Option ArangoMemberPodTemplate) :
    (IsRotationRequired k compare resizePending cachedStatus spec member group pod
      specTemplate statusTemplate).mode
    = firstMatch (codeRules k compare resizePending cachedStatus spec member group pod
      specTemplate statusTemplate) := by
  simp only [codeRules, rulesTwoToTen, firstMatch]
  rcases Bool.eq_false_or_eq_true (underTermination member pod) with h1 | h1
  · rw [stage_termination _ _ _ _ _ _ _ _ _ _ h1]
    rcases Bool.eq_false_or_eq_true (gracefulWithoutDelay k pod) with hg | hg <;>
      simp [h1, hg]
  rw [stage_checkMember _ _ _ _ _ _ _ _ _ _ h1]
  rcases Bool.eq_false_or_eq_true (member.Conditions.IsTrue .Terminated) with h2 | h2
  · rw [checkMember_terminated _ _ _ _ _ _ _ _ _ _ h2]
    simp [h1, h2]
  rcases Bool.eq_false_or_eq_true
    (DeploymentMemberPropagationMode.Get k spec.MemberPropagationMode == .Always
      && member.Conditions.IsTrue .PendingRestart) with h3 | h3
  · rw [checkMember_restart _ _ _ _ _ _ _ _ _ _ h2 h3]
    simp only [h1, h2, h3]
    simp
  rcases Bool.eq_false_or_eq_true (uidMismatch member pod) with h4 | h4
  · rw [checkMember_uid _ _ _ _ _ _ _ _ _ _ h2 h3 h4]
    simp only [h1, h2, h3, h4]
    simp
  rcases Bool.eq_false_or_eq_true (rotateAnnotated k pod) with h5 | h5
  · rw [checkMember_rotateAnnotated _ _ _ _ _ _ _ _ _ _ h2 h3 h4 h5]
    simp only [h1, h2, h3, h4, h5]
    simp
  rw [checkMember_checkTemplates _ _ _ _ _ _ _ _ _ _ h2 h3 h4 h5]
  simp only [h1, h2, h3, h4, h5]
  by_cases h6 : member.PodSpecVersion = ""
  · rw [checkTemplates_version _ _ _ _ _ _ _ _ h6]
    simp [h6]
  rcases Bool.eq_false_or_eq_true (specTemplate.isNone || statusTemplate.isNone) with h7 | h7
  · rw [checkTemplates_missing _ _ _ _ _ _ _ _ h6 h7]
    simp [h6, h7]
  rcases specTemplate with _ | specT
  · simp at h7
  rcases statusTemplate with _ | statusT
  · simp at h7
  rw [checkTemplates_both _ _ _ _ _ _ h6]
  rcases Bool.eq_false_or_eq_true (member.Conditions.IsTrue .PendingTLSRotation) with h8 | h8
  · simp [h6, h8]
  rcases Bool.eq_false_or_eq_true (pvcResizePending resizePending cachedStatus member)
    with h9 | h9
  · simp [h6, h8, h9]
  simp [h6, h8, h9, runCompare_mode]

/-- The whole result returned by `IsRotationRequired` is that of the first rule of the code
that applies. -/
theorem result_codeResultRules (k : Constants) (compare : Compare)
    (resizePending : PersistentVolumeClaim → Bool)
    (cachedStatus : Inspector) (spec : DeploymentSpec) (member : MemberStatus)
    (group : ServerGroup) (pod : Option Pod)
    (specTemplate statusTemplate : Option ArangoMemberPodTemplate) :
    IsRotationRequired k compare resizePending cachedStatus spec member group pod
      specTemplate statusTemplate
    = firstResult (codeResultRules k compare resizePending cachedStatus spec member group pod
      specTemplate statusTemplate) := by
  simp only [codeResultRules, firstResult]
  rcases Bool.eq_false_or_eq_true (underTermination member pod) with h1 | h1
  · rw [stage_termination _ _ _ _ _ _ _ _ _ _ h1]
    rcases Bool.eq_false_or_eq_true (gracefulWithoutDelay k pod) with hg | hg <;>
      simp [h1, hg]
  rw [stage_checkMember _ _ _ _ _ _ _ _ _ _ h1]
  rcases Bool.eq_false_or_eq_true (member.Conditions.IsTrue .Terminated) with h2 | h2
  · rw [checkMember_terminated _ _ _ _ _ _ _ _ _ _ h2]
    simp [h1, h2]
  rcases Bool.eq_false_or_eq_true
    (DeploymentMemberPropagationMode.Get k spec.MemberPropagationMode == .Always
      && member.Conditions.IsTrue .PendingRestart) with h3 | h3
  · rw [checkMember_restart _ _ _ _ _ _ _ _ _ _ h2 h3]
    simp only [h1, h2, h3]
    simp
  rcases Bool.eq_false_or_eq_true (uidMismatch member pod) with h4 | h4
  · rw [checkMember_uid _ _ _ _ _ _ _ _ _ _ h2 h3 h4]
    simp only [h1, h2, h3, h4]
    simp
  rcases Bool.eq_false_or_eq_true (rotateAnnotated k pod) with h5 | h5
  · rw [checkMember_rotateAnnotated _ _ _ _ _ _ _ _ _ _ h2 h3 h4 h5]
    simp only [h1, h2, h3, h4, h5]
    simp
  rw [checkMember_checkTemplates _ _ _ _ _ _ _ _ _ _ h2 h3 h4 h5]
  simp only [h1, h2, h3, h4, h5]
  by_cases h6 : member.PodSpecVersion = ""
  · rw [checkTemplates_version _ _ _ _ _ _ _ _ h6]
    simp [h6]
  rcases Bool.eq_false_or_eq_true (specTemplate.isNone || statusTemplate.isNone) with h7 | h7
  · rw [checkTemplates_missing _ _ _ _ _ _ _ _ h6 h7]
    simp [h6, h7]
  rcases specTemplate with _ | specT
  · simp at h7
  rcases statusTemplate with _ | statusT
  · simp at h7
  rw [checkTemplates_both _ _ _ _ _ _ h6]
  rcases Bool.eq_false_or_eq_true (member.Conditions.IsTrue .PendingTLSRotation) with h8 | h8
  · simp [h6, h8]
  rcases Bool.eq_false_or_eq_true (pvcResizePending resizePending cachedStatus member)
    with h9 | h9
  · simp [h6, h8, h9]
  simp [h6, h8, h9, IsRotationRequired.runCompare, comparatorResult]

/-- The rules with their whole results are the rules with their modes: same conditions, same
order, and the mode of each result is the mode of the rule. -/
theorem codeResultRules_modes (k : Constants) (compare : Compare)
    (resizePending : PersistentVolumeClaim → Bool)
    (cachedStatus : Inspector) (spec : DeploymentSpec) (member : MemberStatus)
    (group : ServerGroup) (pod : Option Pod)
    (specTemplate statusTemplate : Option ArangoMemberPodTemplate) :
    (codeResultRules k compare resizePending cachedStatus spec member group pod
      specTemplate statusTemplate).map (fun r => (⟨r.applies, r.outcome.mode⟩ : Rule))
    = codeRules k compare resizePending cachedStatus spec member group pod
      specTemplate statusTemplate := by
  have hmode : (comparatorResult compare spec member group specTemplate statusTemplate).mode
      = comparatorMode compare spec member group specTemplate statusTemplate := by
    rcases specTemplate with _ | specT <;> rcases statusTemplate with _ | statusT <;>
      simp only [comparatorResult, comparatorMode]
    rcases compare spec member group specT statusT with e | ⟨m, plan⟩ <;> rfl
  simp [codeResultRules, codeRules, rulesTwoToTen, hmode]

/-- C1 (amended): for every input `IsRotationRequired` evaluates the rules in the order:
1 pod under termination (graceful-shutdown without delay-termination finalizer gives
Enforced, any other pod under termination gives Skipped), 2 member Terminated, 3 propagation
mode Always with PendingRestart, 4 pod UID mismatch, 5 rotate annotation, 6 empty
PodSpecVersion, 7 missing spec or status template, 8 PendingTLSRotation, 9 PVC filesystem
resize pending, 10 comparator chain. The whole result it returns, mode, plan, reason and
error, is that of the first rule that applies, so a rule whose condition does not hold, or
that follows one whose condition holds, never decides it; in particular the mode is the
outcome of the first rule that applies. -/
theorem IsRotationRequired_mode_firstMatch (k : Constants) (compare : Compare)
    (resizePending : PersistentVolumeClaim → Bool)
    (cachedStatus : Inspector) (spec : DeploymentSpec) (member : MemberStatus)
    (group : ServerGroup) (pod : Option Pod)
    (specTemplate statusTemplate : Option ArangoMemberPodTemplate) :
    IsRotationRequired k compare resizePending cachedStatus spec member group pod
      specTemplate statusTemplate
    = firstResult (codeResultRules k compare resizePending cachedStatus spec member group pod
      specTemplate statusTemplate)
    ∧ (IsRotationRequired k compare resizePending cachedStatus spec member group pod
      specTemplate statusTemplate).mode
    = firstMatch (codeRules k compare resizePending cachedStatus spec member group pod
      specTemplate statusTemplate)
    ∧ (codeResultRules k compare resizePending cachedStatus spec member group pod
      specTemplate statusTemplate).map (fun r => (⟨r.applies, r.outcome.mode⟩ : Rule))
    = codeRules k compare resizePending cachedStatus spec member group pod
      specTemplate statusTemplate :=
  ⟨result_codeResultRules k compare resizePending cachedStatus spec member group pod
      specTemplate statusTemplate,
    mode_codeRules k compare resizePending cachedStatus spec member group pod
      specTemplate statusTemplate,
    codeResultRules_modes k compare resizePending cachedStatus spec member group pod
      specTemplate statusTemplate⟩

/-- C2 (as stated, refuted): a live pod with a mismatched UID and a pending TLS rotation, of a
member that is Terminated, is skipped (rule 2 fires before rule 4). -/
theorem IsRotationRequired_uid_tls_counterexample :
    (some ({ UID := "uid-2" } : Pod)).isSome = true
    ∧ ({ PodUID := "uid-1", PodSpecVersion := "1",
         Conditions := [⟨.PendingTLSRotation, true⟩, ⟨.Terminated, true⟩] } : MemberStatus).PodUID
        ≠ ({ UID := "uid-2" } : Pod).UID
    ∧ ConditionList.IsTrue [⟨.PendingTLSRotation, true⟩, ⟨.Terminated, true⟩]
        .PendingTLSRotation = true
    ∧ (IsRotationRequired exampleConstants exampleCompare (fun _ => false) emptyInspector {}
        { PodUID := "uid-1", PodSpecVersion := "1",
          Conditions := [⟨.PendingTLSRotation, true⟩, ⟨.Terminated, true⟩] }
        .DBServers (some { UID := "uid-2" }) none none).mode ≠ EnforcedRotation := by
  decide

/-- C2 (amended): for every input with a live pod whose UID differs from `member.PodUID` and
with the PendingTLSRotation condition true, the returned mode is EnforcedRotation exactly when
either the pod is under termination (member Terminating or deletion timestamp set) and carries
the graceful-shutdown finalizer without the delay-termination finalizer, or the pod is not
under termination and the member is not Terminated. -/
theorem IsRotationRequired_uid_tls (k : Constants) (compare : Compare)
    (resizePending : PersistentVolumeClaim → Bool)
    (cachedStatus : Inspector) (spec : DeploymentSpec) (member : MemberStatus)
    (group : ServerGroup) (p : Pod)
    (specTemplate statusTemplate : Option ArangoMemberPodTemplate)
    (huid : member.PodUID ≠ p.UID)
    (_htls : member.Conditions.IsTrue .PendingTLSRotation = true) :
    (IsRotationRequired k compare resizePending cachedStatus spec member group (some p)
      specTemplate statusTemplate).mode = EnforcedRotation
    ↔ (underTermination member (some p) = true ∧ gracefulWithoutDelay k (some p) = true)
      ∨ (underTermination member (some p) = false
        ∧ member.Conditions.IsTrue .Terminated = false) := by
  have hmis : uidMismatch member (some p) = true := by simp [uidMismatch, huid]
  rcases Bool.eq_false_or_eq_true (underTermination member (some p)) with h1 | h1
  · rw [stage_termination _ _ _ _ _ _ _ _ _ _ h1]
    rcases Bool.eq_false_or_eq_true (gracefulWithoutDelay k (some p)) with hg | hg <;>
      simp [h1, hg]
  rw [stage_checkMember _ _ _ _ _ _ _ _ _ _ h1]
  rcases Bool.eq_false_or_eq_true (member.Conditions.IsTrue .Terminated) with h2 | h2
  · rw [checkMember_terminated _ _ _ _ _ _ _ _ _ _ h2]
    simp [h1, h2]
  rcases Bool.eq_false_or_eq_true
    (DeploymentMemberPropagationMode.Get k spec.MemberPropagationMode == .Always
      && member.Conditions.IsTrue .PendingRestart) with h3 | h3
  · rw [checkMember_restart _ _ _ _ _ _ _ _ _ _ h2 h3]
    simp [h1, h2]
  rw [checkMember_uid _ _ _ _ _ _ _ _ _ _ h2 h3 hmis]
  simp [h1, h2]

/-- C2 (amended), at a concrete input: a pod replaced out-of-band, not under termination, of a
member with a pending TLS rotation that is not Terminated, enforces the rotation. -/
theorem IsRotationRequired_uid_tls_witness :
    (IsRotationRequired exampleConstants exampleCompare (fun _ => false) emptyInspector {}
      { PodUID := "uid-1", PodSpecVersion := "1", Conditions := [⟨.PendingTLSRotation, true⟩] }
      .DBServers (some { UID := "uid-2" }) none none).mode = EnforcedRotation :=
  (IsRotationRequired_uid_tls exampleConstants exampleCompare (fun _ => false) emptyInspector {}
    { PodUID := "uid-1", PodSpecVersion := "1", Conditions := [⟨.PendingTLSRotation, true⟩] }
    .DBServers { UID := "uid-2" } none none (by decide) (by decide)).mpr
    (Or.inr ⟨by decide, by decide⟩)

/-- C3: `And` is the maximum of its two arguments under the declared order
`SkippedRotation < SilentRotation < InPlaceRotation < GracefulRotation < EnforcedRotation`;
it is commutative and idempotent. -/
theorem Mode_And_eq_max (a b : Mode) :
    a.And b = max a b ∧ a.And b = b.And a ∧ a.And a = a
    ∧ SkippedRotation < SilentRotation ∧ SilentRotation < InPlaceRotation
    ∧ InPlaceRotation < GracefulRotation ∧ GracefulRotation < EnforcedRotation := by
  refine ⟨?_, ?_, ?_, ?_⟩
  · cases a <;> cases b <;> decide
  · cases a <;> cases b <;> decide
  · cases a <;> decide
  · decide

/-- C16: with a live pod, when the member is Terminating or the pod has a deletion timestamp,
and the pod carries the graceful-shutdown finalizer and not the delay-pod-termination
finalizer, the result is EnforcedRotation with the reason "Recreation enforced by deleted
state", an empty plan and no error, whatever the other inputs are. -/
theorem IsRotationRequired_deleted_state (k : Constants) (compare : Compare)
    (resizePending : PersistentVolumeClaim → Bool)
    (cachedStatus : Inspector) (spec : DeploymentSpec) (member : MemberStatus)
    (group : ServerGroup) (p : Pod)
    (specTemplate statusTemplate : Option ArangoMemberPodTemplate)
    (hterm : member.Conditions.IsTrue .Terminating = true ∨ p.DeletionTimestamp ≠ none)
    (hgraceful : StringList.Has p.Finalizers k.FinalizerPodGracefulShutdown = true)
    (hdelay : StringList.Has p.Finalizers k.FinalizerDelayPodTermination = false) :
    IsRotationRequired k compare resizePending cachedStatus spec member group (some p)
      specTemplate statusTemplate
    = ⟨EnforcedRotation, [], "Recreation enforced by deleted state", none⟩ := by
  have h1 : underTermination member (some p) = true := by
    simp only [underTermination]
    rcases hterm with h | h
    · simp [h]
    · cases hd : p.DeletionTimestamp with
      | none => exact absurd hd h
      | some t => simp
  have hg : gracefulWithoutDelay k (some p) = true := by
    simp [gracefulWithoutDelay, hgraceful, hdelay]
  rw [stage_termination _ _ _ _ _ _ _ _ _ _ h1, hg]
  rfl

/-- C16 at a concrete input: a pod with a deletion timestamp that carries only the
graceful-shutdown finalizer, of a Terminated member without pod spec version. -/
theorem IsRotationRequired_deleted_state_witness :
    IsRotationRequired exampleConstants exampleCompare (fun _ => false) emptyInspector {}
      { PodUID := "uid-1", Conditions := [⟨.Terminated, true⟩] } .DBServers
      (some { UID := "uid-2", DeletionTimestamp := some 1,
              Finalizers := ["pod.database.arangodb.com/graceful-shutdown"] })
      none none
    = ⟨EnforcedRotation, [], "Recreation enforced by deleted state", none⟩ :=
  IsRotationRequired_deleted_state exampleConstants exampleCompare (fun _ => false)
    emptyInspector {} { PodUID := "uid-1", Conditions := [⟨.Terminated, true⟩] } .DBServers
    { UID := "uid-2", DeletionTimestamp := some 1,
      Finalizers := ["pod.database.arangodb.com/graceful-shutdown"] }
    none none (Or.inr (by decide)) (by decide) (by decide)

/-- C17: when none of the rules 1 to 5 applies (no pod, or a pod that is not under
termination, has the recorded UID and no rotate annotation; member not Terminated; not both
propagation mode Always and PendingRestart) and `member.PodSpecVersion` is empty, the result
is EnforcedRotation with the reason "Pod Spec Version is nil - recreating pod", whatever the
templates are. -/
theorem IsRotationRequired_empty_version (k : Constants) (compare : Compare)
    (resizePending : PersistentVolumeClaim → Bool)
    (cachedStatus : Inspector) (spec : DeploymentSpec) (member : MemberStatus)
    (group : ServerGroup) (pod : Option Pod)
    (specTemplate statusTemplate : Option ArangoMemberPodTemplate)
    (hpod : pod = none ∨ ∃ p, pod = some p
      ∧ member.Conditions.IsTrue .Terminating = false ∧ p.DeletionTimestamp = none
      ∧ member.PodUID = p.UID
      ∧ p.Annotations.lookup k.ArangoDeploymentPodRotateAnnotation = none)
    (hterminated : member.Conditions.IsTrue .Terminated = false)
    (hrestart : ¬ (DeploymentMemberPropagationMode.Get k spec.MemberPropagationMode = .Always
      ∧ member.Conditions.IsTrue .PendingRestart = true))
    (hversion : member.PodSpecVersion = "") :
    IsRotationRequired k compare resizePending cachedStatus spec member group pod
      specTemplate statusTemplate
    = ⟨EnforcedRotation, [], "Pod Spec Version is nil - recreating pod", none⟩ := by
  have h1 : underTermination member pod = false := by
    rcases hpod with h | ⟨p, h, ht, hd, _, _⟩ <;> simp [underTermination, h, *]
  have h3 : (DeploymentMemberPropagationMode.Get k spec.MemberPropagationMode == .Always
      && member.Conditions.IsTrue .PendingRestart) = false := by
    rcases Bool.eq_false_or_eq_true
      (DeploymentMemberPropagationMode.Get k spec.MemberPropagationMode == .Always
        && member.Conditions.IsTrue .PendingRestart) with h | h
    · exfalso
      apply hrestart
      simpa using h
    · exact h
  have h4 : uidMismatch member pod = false := by
    rcases hpod with h | ⟨p, h, _, _, hu, _⟩ <;> simp [uidMismatch, h, *]
  have h5 : rotateAnnotated k pod = false := by
    rcases hpod with h | ⟨p, h, _, _, _, ha⟩ <;> simp [rotateAnnotated, h, *]
  rw [stage_checkMember _ _ _ _ _ _ _ _ _ _ h1,
    checkMember_checkTemplates _ _ _ _ _ _ _ _ _ _ hterminated h3 h4 h5,
    checkTemplates_version _ _ _ _ _ _ _ _ hversion]

/-- C17 at a concrete input: a live pod with the recorded UID, a member without pod spec
version and without templates. -/
theorem IsRotationRequired_empty_version_witness :
    IsRotationRequired exampleConstants exampleCompare (fun _ => false) emptyInspector {}
      { PodUID := "uid-1", PodSpecVersion := "" } .DBServers (some { UID := "uid-1" })
      none none
    = ⟨EnforcedRotation, [], "Pod Spec Version is nil - recreating pod", none⟩ :=
  IsRotationRequired_empty_version exampleConstants exampleCompare (fun _ => false)
    emptyInspector {} { PodUID := "uid-1", PodSpecVersion := "" } .DBServers
    (some { UID := "uid-1" }) none none
    (Or.inr ⟨{ UID := "uid-1" }, rfl, by decide, rfl, rfl, by decide⟩)
    (by decide) (by decide) rfl

/-- C18: when none of the rules 1 to 6 applies (in particular `member.PodSpecVersion` is not
empty) and the spec template or the status template is nil, the result is SkippedRotation
with an empty reason, an empty plan and no error, whatever the PendingTLSRotation condition
and the state of the persistent volume claim are. -/
theorem IsRotationRequired_missing_template (k : Constants) (compare : Compare)
    (resizePending : PersistentVolumeClaim → Bool)
    (cachedStatus : Inspector) (spec : DeploymentSpec) (member : MemberStatus)
    (group : ServerGroup) (pod : Option Pod)
    (specTemplate statusTemplate : Option ArangoMemberPodTemplate)
    (hpod : pod = none ∨ ∃ p, pod = some p
      ∧ member.Conditions.IsTrue .Terminating = false ∧ p.DeletionTimestamp = none
      ∧ member.PodUID = p.UID
      ∧ p.Annotations.lookup k.ArangoDeploymentPodRotateAnnotation = none)
    (hterminated : member.Conditions.IsTrue .Terminated = false)
    (hrestart : ¬ (DeploymentMemberPropagationMode.Get k spec.MemberPropagationMode = .Always
      ∧ member.Conditions.IsTrue .PendingRestart = true))
    (hversion : member.PodSpecVersion ≠ "")
    (htemplate : specTemplate = none ∨ statusTemplate = none) :
    IsRotationRequired k compare resizePending cachedStatus spec member group pod
      specTemplate statusTemplate
    = ⟨SkippedRotation, [], "", none⟩ := by
  have h1 : underTermination member pod = false := by
    rcases hpod with h | ⟨p, h, ht, hd, _, _⟩ <;> simp [underTermination, h, *]
  have h3 : (DeploymentMemberPropagationMode.Get k spec.MemberPropagationMode == .Always
      && member.Conditions.IsTrue .PendingRestart) = false := by
    rcases Bool.eq_false_or_eq_true
      (DeploymentMemberPropagationMode.Get k spec.MemberPropagationMode == .Always
        && member.Conditions.IsTrue .PendingRestart) with h | h
    · exfalso
      apply hrestart
      simpa using h
    · exact h
  have h4 : uidMismatch member pod = false := by
    rcases hpod with h | ⟨p, h, _, _, hu, _⟩ <;> simp [uidMismatch, h, *]
  have h5 : rotateAnnotated k pod = false := by
    rcases hpod with h | ⟨p, h, _, _, _, ha⟩ <;> simp [rotateAnnotated, h, *]
  have h7 : (specTemplate.isNone || statusTemplate.isNone) = true := by
    rcases htemplate with h | h <;> simp [h]
  rw [stage_checkMember _ _ _ _ _ _ _ _ _ _ h1,
    checkMember_checkTemplates _ _ _ _ _ _ _ _ _ _ hterminated h3 h4 h5,
    checkTemplates_missing _ _ _ _ _ _ _ _ hversion h7]

/-- C18 at a concrete input: no status template, while a TLS rotation is pending and the
volume claim of the member has a resize pending. -/
theorem IsRotationRequired_missing_template_witness :
    IsRotationRequired exampleConstants exampleCompare (fun _ => true)
      ⟨fun _ => some {}, fun _ => none⟩ {}
      { PodUID := "uid-1", PodSpecVersion := "1", Conditions := [⟨.PendingTLSRotation, true⟩] }
      .DBServers (some { UID := "uid-1" }) (some {}) none
    = ⟨SkippedRotation, [], "", none⟩ :=
  IsRotationRequired_missing_template exampleConstants exampleCompare (fun _ => true)
    ⟨fun _ => some {}, fun _ => none⟩ {}
    { PodUID := "uid-1", PodSpecVersion := "1", Conditions := [⟨.PendingTLSRotation, true⟩] }
    .DBServers (some { UID := "uid-1" }) (some {}) none
    (Or.inr ⟨{ UID := "uid-1" }, rfl, by decide, rfl, rfl, by decide⟩)
    (by decide) (by decide) (by decide) (Or.inr rfl)

/-- A deep copy of an affinity is equal to it. -/
theorem Affinity_DeepCopy_eq (a : Option Affinity) : Affinity.DeepCopy a = a := by
  rcases a with _ | x <;> rfl

/-- C19: `podCompare` with differing scheduler names sets `status.SchedulerName` to that of
`spec` and returns SilentRotation; `affinityCompare` with differing hashes sets
`status.Affinity` to a copy of that of `spec` and returns SilentRotation; without a difference
each returns SkippedRotation and leaves `status` as it is; the plan is empty, there is no
error, `spec` is never modified and no other field of `status` is. -/
theorem comparators_update_status (SHA256FromJSON : Option Affinity → Except Error String)
    (deploymentSpec : DeploymentSpec) (group : ServerGroup) (spec status : PodSpec)
    (builder : ActionBuilder) (specC statusC : String) :
    (spec.SchedulerName ≠ status.SchedulerName →
      podCompare deploymentSpec group spec status builder
      = ⟨SilentRotation, [], none, spec, { status with SchedulerName := spec.SchedulerName }⟩)
    ∧ (spec.SchedulerName = status.SchedulerName →
      podCompare deploymentSpec group spec status builder
      = ⟨SkippedRotation, [], none, spec, status⟩)
    ∧ (SHA256FromJSON spec.Affinity = .ok specC → SHA256FromJSON status.Affinity = .ok statusC →
      specC ≠ statusC →
      affinityCompare SHA256FromJSON deploymentSpec group spec status builder
      = ⟨SilentRotation, [], none, spec, { status with Affinity := spec.Affinity }⟩)
    ∧ (SHA256FromJSON spec.Affinity = .ok specC → SHA256FromJSON status.Affinity = .ok statusC →
      specC = statusC →
      affinityCompare SHA256FromJSON deploymentSpec group spec status builder
      = ⟨SkippedRotation, [], none, spec, status⟩)
    ∧ SkippedRotation.And SilentRotation = SilentRotation := by
  refine ⟨?_, ?_, ?_, ?_, by decide⟩
  · intro h
    simp [podCompare, h, Mode.And, Mode.toInt]
  · intro h
    simp [podCompare, h]
  · intro h1 h2 h
    simp [affinityCompare, h1, h2, h, Mode.And, Mode.toInt, Affinity_DeepCopy_eq]
  · intro h1 h2 h
    simp [affinityCompare, h1, h2, h]

/-- C19 at concrete inputs: a scheduler name and an affinity that differ are taken over, the
node name of `status` stays. -/
theorem comparators_update_status_witness :
    podCompare {} .DBServers { SchedulerName := "custom" }
        { SchedulerName := "default-scheduler", NodeName := "node-1" } {}
      = ⟨SilentRotation, [], none, { SchedulerName := "custom" },
          { SchedulerName := "custom", NodeName := "node-1" }⟩
    ∧ affinityCompare exampleHash {} .DBServers
        { Affinity := some { NodeAffinity := some "zone-a" } } { NodeName := "node-1" } {}
      = ⟨SilentRotation, [], none, { Affinity := some { NodeAffinity := some "zone-a" } },
          { Affinity := some { NodeAffinity := some "zone-a" }, NodeName := "node-1" }⟩ :=
  ⟨(comparators_update_status exampleHash {} .DBServers { SchedulerName := "custom" }
      { SchedulerName := "default-scheduler", NodeName := "node-1" } {} "" "").1 (by decide),
    (comparators_update_status exampleHash {} .DBServers
      { Affinity := some { NodeAffinity := some "zone-a" } } { NodeName := "node-1" } {}
      "zone-a" "null").2.2.1 rfl rfl (by decide)⟩

/-- C20: when hashing `spec.Affinity` fails, or hashing `status.Affinity` fails after that of
`spec` succeeded, `affinityCompare` returns that error with SkippedRotation and an empty plan
and leaves both pod specifications as they are; and when the comparator chain is reached
(none of the rules 1 to 9 applies) and returns an error, `IsRotationRequired` returns
SkippedRotation, an empty plan, an empty reason and that error. -/
theorem comparators_fail_without_effect
    (SHA256FromJSON : Option Affinity → Except Error String)
    (deploymentSpec : DeploymentSpec) (group : ServerGroup) (spec status : PodSpec)
    (builder : ActionBuilder) (specC : String) (err : Error)
    (k : Constants) (compare : Compare) (resizePending : PersistentVolumeClaim → Bool)
    (cachedStatus : Inspector) (member : MemberStatus) (pod : Option Pod)
    (specT statusT : ArangoMemberPodTemplate) :
    (SHA256FromJSON spec.Affinity = .error err →
      affinityCompare SHA256FromJSON deploymentSpec group spec status builder
      = ⟨SkippedRotation, [], some err, spec, status⟩)
    ∧ (SHA256FromJSON spec.Affinity = .ok specC → SHA256FromJSON status.Affinity = .error err →
      affinityCompare SHA256FromJSON deploymentSpec group spec status builder
      = ⟨SkippedRotation, [], some err, spec, status⟩)
    ∧ (underTermination member pod = false →
      member.Conditions.IsTrue .Terminated = false →
      (DeploymentMemberPropagationMode.Get k deploymentSpec.MemberPropagationMode == .Always
        && member.Conditions.IsTrue .PendingRestart) = false →
      uidMismatch member pod = false → rotateAnnotated k pod = false →
      member.PodSpecVersion ≠ "" →
      member.Conditions.IsTrue .PendingTLSRotation = false →
      pvcResizePending resizePending cachedStatus member = false →
      compare deploymentSpec member group specT statusT = .error err →
      IsRotationRequired k compare resizePending cachedStatus deploymentSpec member group pod
        (some specT) (some statusT)
      = ⟨SkippedRotation, [], "", some err⟩) := by
  refine ⟨?_, ?_, ?_⟩
  · intro h
    simp [affinityCompare, h]
  · intro h1 h2
    simp [affinityCompare, h1, h2]
  · intro h1 h2 h3 h4 h5 h6 h8 h9 hc
    rw [stage_checkMember _ _ _ _ _ _ _ _ _ _ h1,
      checkMember_checkTemplates _ _ _ _ _ _ _ _ _ _ h2 h3 h4 h5,
      checkTemplates_both _ _ _ _ _ _ h6]
    simp [h8, h9, IsRotationRequired.runCompare, hc]

/-- C20 at concrete inputs: an affinity of `status` that cannot be hashed, and a comparator
chain that fails for a member to which no earlier rule applies. -/
theorem comparators_fail_without_effect_witness :
    affinityCompare exampleHash {} .DBServers { SchedulerName := "custom" }
        { Affinity := some { NodeAffinity := some "unhashable" } } {}
      = ⟨SkippedRotation, [], some (.Other "json: unsupported value"),
          { SchedulerName := "custom" },
          { Affinity := some { NodeAffinity := some "unhashable" } }⟩
    ∧ IsRotationRequired exampleConstants failingCompare (fun _ => false) emptyInspector {}
        { PodUID := "uid-1", PodSpecVersion := "1" } .DBServers (some { UID := "uid-1" })
        (some {}) (some {})
      = ⟨SkippedRotation, [], "", some (.Other "json: unsupported value")⟩ :=
  ⟨(comparators_fail_without_effect exampleHash {} .DBServers { SchedulerName := "custom" }
      { Affinity := some { NodeAffinity := some "unhashable" } } {} "null"
      (.Other "json: unsupported value") exampleConstants failingCompare (fun _ => false)
      emptyInspector {} none {} {}).2.1 rfl rfl,
    (comparators_fail_without_effect exampleHash {} .DBServers {} {} {} ""
      (.Other "json: unsupported value") exampleConstants failingCompare (fun _ => false)
      emptyInspector { PodUID := "uid-1", PodSpecVersion := "1" } (some { UID := "uid-1" })
      {} {}).2.2 (by decide) (by decide) (by decide) (by decide) (by decide) (by decide)
      (by decide) (by decide) rfl⟩

end rotation

namespace reconcile

section appender

variable {σ PB C SP : Type}

/-- The recovery appender calls `create` with the function that forwards to the wrapped
appender: the six methods of `planAppenderRecovery` as they are written. -/
theorem recovery_methods (a : PlanAppender σ PB C SP) (pb : PB) (c : C) (sp : SP)
    (plans : List PB) :
    (PlanAppender.planAppenderRecovery a).Apply pb
      = planAppenderRecovery.create a (fun x => x.Apply pb)
    ∧ (PlanAppender.planAppenderRecovery a).ApplyWithCondition c pb
      = planAppenderRecovery.create a (fun x => x.ApplyWithCondition c pb)
    ∧ (PlanAppender.planAppenderRecovery a).ApplySubPlan sp plans
      = planAppenderRecovery.create a (fun x => x.ApplySubPlan sp plans)
    ∧ (PlanAppender.planAppenderRecovery a).ApplyIfEmpty pb
      = planAppenderRecovery.create a (fun x => x.ApplyIfEmpty pb)
    ∧ (PlanAppender.planAppenderRecovery a).ApplyWithConditionIfEmpty c pb
      = planAppenderRecovery.create a (fun x => x.ApplyWithConditionIfEmpty c pb)
    ∧ (PlanAppender.planAppenderRecovery a).ApplySubPlanIfEmpty sp plans
      = planAppenderRecovery.create a (fun x => x.ApplySubPlanIfEmpty sp plans) :=
  ⟨rfl, rfl, rfl, rfl, rfl, rfl⟩

/-- A call on the recovery appender in terms of the call on the wrapped appender. -/
theorem call_recovery (a : PlanAppender σ PB C SP) (op : Op PB C SP) (w : σ) :
    (PlanAppender.planAppenderRecovery a).call op w
    = match a.call op w with
      | (.ok r, w1) => (.ok (.planAppenderRecovery r), w1)
      | (.error _, w1) => (.ok (.planAppenderRecovery a), w1) := by
  cases op <;> rfl

/-- The result of `newFrom` when the builder call returns. -/
theorem newFrom_ok (p : planAppenderType σ PB C SP) (x : Run σ Plan) (w w1 : σ) (plan : Plan)
    (h : x w = (.ok plan, w1)) :
    p.newFrom x w = (.ok (.planAppender (p.new plan)), w1) := by
  simp [planAppenderType.newFrom, h]

/-- The result of `newFrom` when the builder call panics. -/
theorem newFrom_error (p : planAppenderType σ PB C SP) (x : Run σ Plan) (w w1 : σ) (e : Fault)
    (h : x w = (.error e, w1)) :
    p.newFrom x w = (.error e, w1) := by
  simp [planAppenderType.newFrom, h]

/-- Whatever `newFrom` returns carries the current plan followed by some plan. -/
theorem newFrom_grows (p : planAppenderType σ PB C SP) (x : Run σ Plan) (w w1 : σ)
    (a1 : PlanAppender σ PB C SP) (h : p.newFrom x w = (.ok a1, w1)) :
    ∃ plan, a1.Plan = p.current ++ plan := by
  rcases hx : x w with ⟨r, w2⟩
  rcases r with e | plan
  · rw [newFrom_error p x w w2 e hx] at h
    simp at h
  · rw [newFrom_ok p x w w2 plan hx] at h
    simp only [Prod.mk.injEq, Except.ok.injEq] at h
    exact ⟨plan, by rw [← h.1]; rfl⟩

/-- Every operation of every appender returns an appender whose plan starts with the plan
accumulated before. -/
theorem call_grows (a : PlanAppender σ PB C SP) (op : Op PB C SP) (w w1 : σ)
    (a1 : PlanAppender σ PB C SP) (h : a.call op w = (.ok a1, w1)) :
    ∃ plan, a1.Plan = a.Plan ++ plan := by
  induction a generalizing a1 w1 with
  | planAppender p =>
    cases op
    case Apply pb => exact newFrom_grows p _ w w1 a1 h
    case ApplyWithCondition c pb => exact newFrom_grows p _ w w1 a1 h
    case ApplySubPlan sp plans => exact newFrom_grows p _ w w1 a1 h
    case ApplyIfEmpty pb =>
      simp only [PlanAppender.call, PlanAppender.ApplyIfEmpty,
        planAppenderType.ApplyIfEmpty] at h
      split at h
      · exact newFrom_grows p _ w w1 a1 h
      · simp only [Prod.mk.injEq, Except.ok.injEq] at h
        exact ⟨[], by rw [← h.1]; simp⟩
    case ApplyWithConditionIfEmpty c pb =>
      simp only [PlanAppender.call, PlanAppender.ApplyWithConditionIfEmpty,
        planAppenderType.ApplyWithConditionIfEmpty] at h
      split at h
      · exact newFrom_grows p _ w w1 a1 h
      · simp only [Prod.mk.injEq, Except.ok.injEq] at h
        exact ⟨[], by rw [← h.1]; simp⟩
    case ApplySubPlanIfEmpty sp plans =>
      simp only [PlanAppender.call, PlanAppender.ApplySubPlanIfEmpty,
        planAppenderType.ApplySubPlanIfEmpty] at h
      split at h
      · exact newFrom_grows p _ w w1 a1 h
      · simp only [Prod.mk.injEq, Except.ok.injEq] at h
        exact ⟨[], by rw [← h.1]; simp⟩
  | planAppenderRecovery a ih =>
    rw [call_recovery] at h
    rcases hx : a.call op w with ⟨r, w2⟩
    rw [hx] at h
    rcases r with e | r
    · simp only [Prod.mk.injEq, Except.ok.injEq] at h
      exact ⟨[], by rw [← h.1]; simp⟩
    · simp only [Prod.mk.injEq, Except.ok.injEq] at h
      obtain ⟨plan, hplan⟩ := ih w2 r hx
      exact ⟨plan, by rw [← h.1]; exact hplan⟩

/-- An `...IfEmpty` call on an appender with a non-empty plan returns the appender and leaves
the world as it is. -/
theorem call_ifEmpty_nonempty (a : PlanAppender σ PB C SP) (op : Op PB C SP) (w : σ)
    (hop : op.isIfEmpty = true) (hne : a.Plan ≠ []) :
    a.call op w = (.ok a, w) := by
  induction a with
  | planAppender p =>
    have hcur : p.current.IsEmpty = false := by
      cases hp : p.current with
      | nil => exact absurd hp hne
      | cons x xs => rfl
    cases op <;> simp [Op.isIfEmpty] at hop <;>
      simp [PlanAppender.call, PlanAppender.ApplyIfEmpty, planAppenderType.ApplyIfEmpty,
        PlanAppender.ApplyWithConditionIfEmpty, planAppenderType.ApplyWithConditionIfEmpty,
        PlanAppender.ApplySubPlanIfEmpty, planAppenderType.ApplySubPlanIfEmpty, hcur]
  | planAppenderRecovery a ih =>
    rw [call_recovery, ih hne]

/-- In a chain that starts from a non-empty plan, the `...IfEmpty` calls can be left out. -/
theorem chain_nonempty (ops : List (Op PB C SP)) (a : PlanAppender σ PB C SP) (w : σ)
    (hne : a.Plan ≠ []) :
    PlanAppender.chain ops a w
    = PlanAppender.chain (ops.filter (fun op => !op.isIfEmpty)) a w := by
  induction ops generalizing a w with
  | nil => rfl
  | cons op rest ih =>
    rcases Bool.eq_false_or_eq_true op.isIfEmpty with hop | hop
    · simp only [List.filter, hop, Bool.not_true]
      simp only [PlanAppender.chain, call_ifEmpty_nonempty a op w hop hne]
      exact ih a w hne
    · simp only [List.filter, hop, Bool.not_false]
      simp only [PlanAppender.chain]
      rcases hx : a.call op w with ⟨r, w1⟩
      rcases r with e | a1
      · rfl
      · obtain ⟨plan, hplan⟩ := call_grows a op w w1 a1 hx
        have : a1.Plan ≠ [] := by
          rw [hplan]
          simp [hne]
        exact ih a1 w1 this

/-- C4: on a `planAppenderType` with an empty plan the three `...IfEmpty` operations are the
plain operations; with a non-empty plan they return the appender itself and leave the world
untouched whatever the builder is (the step is not run), so in a chain that starts from a
non-empty plan every call through an `...IfEmpty` variant can be left out. -/
theorem ApplyIfEmpty_noop_once_nonempty (p : planAppenderType σ PB C SP) (pb : PB) (c : C)
    (sp : SP) (plans : List PB) (w : σ) :
    (p.Plan = [] →
      p.ApplyIfEmpty pb w = p.Apply pb w
      ∧ p.ApplyWithConditionIfEmpty c pb w = p.ApplyWithCondition c pb w
      ∧ p.ApplySubPlanIfEmpty sp plans w = p.ApplySubPlan sp plans w)
    ∧ (p.Plan ≠ [] →
      p.ApplyIfEmpty pb w = (.ok (.planAppender p), w)
      ∧ p.ApplyWithConditionIfEmpty c pb w = (.ok (.planAppender p), w)
      ∧ p.ApplySubPlanIfEmpty sp plans w = (.ok (.planAppender p), w)
      ∧ ∀ ops : List (Op PB C SP),
          PlanAppender.chain ops (.planAppender p) w
          = PlanAppender.chain (ops.filter (fun op => !op.isIfEmpty)) (.planAppender p) w) := by
  constructor
  · intro h
    have hcur : p.current.IsEmpty = true := by
      simp only [planAppenderType.Plan] at h
      rw [h]
      rfl
    simp [planAppenderType.ApplyIfEmpty, planAppenderType.ApplyWithConditionIfEmpty,
      planAppenderType.ApplySubPlanIfEmpty, hcur]
  · intro h
    have hne : (PlanAppender.planAppender p).Plan ≠ [] := h
    refine ⟨?_, ?_, ?_, ?_⟩
    · exact call_ifEmpty_nonempty (.planAppender p) (.ApplyIfEmpty pb) w rfl hne
    · exact call_ifEmpty_nonempty (.planAppender p) (.ApplyWithConditionIfEmpty c pb) w rfl hne
    · exact call_ifEmpty_nonempty (.planAppender p) (.ApplySubPlanIfEmpty sp plans) w rfl hne
    · intro ops
      exact chain_nonempty ops (.planAppender p) w hne

/-- C5: when the operation of the wrapped appender panics, the same operation on the recovery
appender returns the recovery appender itself, so its plan is the plan accumulated before; no
operation of a recovery appender lets a panic through; and a chain goes on from that
appender. -/
theorem recovery_returns_self_on_fault (a : PlanAppender σ PB C SP) (op : Op PB C SP)
    (w w1 : σ) (e : Fault) (h : a.call op w = (.error e, w1)) :
    (PlanAppender.planAppenderRecovery a).call op w = (.ok (.planAppenderRecovery a), w1)
    ∧ (∀ r w2, (PlanAppender.planAppenderRecovery a).call op w = (.ok r, w2) →
        r.Plan = (PlanAppender.planAppenderRecovery a).Plan)
    ∧ (∀ (b : PlanAppender σ PB C SP) (op2 : Op PB C SP) (w2 : σ),
        ∃ r w3, (PlanAppender.planAppenderRecovery b).call op2 w2 = (.ok r, w3))
    ∧ (∀ rest : List (Op PB C SP),
        PlanAppender.chain (op :: rest) (.planAppenderRecovery a) w
        = PlanAppender.chain rest (.planAppenderRecovery a) w1) := by
  have h1 : (PlanAppender.planAppenderRecovery a).call op w
      = (.ok (.planAppenderRecovery a), w1) := by
    rw [call_recovery, h]
  refine ⟨h1, ?_, ?_, ?_⟩
  · intro r w2 hr
    rw [h1] at hr
    simp only [Prod.mk.injEq, Except.ok.injEq] at hr
    rw [← hr.1]
  · intro b op2 w2
    rw [call_recovery]
    rcases b.call op2 w2 with ⟨r, w3⟩
    rcases r with e2 | r
    · exact ⟨_, _, rfl⟩
    · exact ⟨_, _, rfl⟩
  · intro rest
    simp only [PlanAppender.chain, h1]

/-- C6: when the builder call returns a plan, `Apply`, `ApplyWithCondition` and `ApplySubPlan`
of a `planAppenderType` return an appender whose plan is the current plan followed by that
plan; the plan of a new appender is the plan it was given. -/
theorem Apply_appends_builder_plan (p : planAppenderType σ PB C SP) (pb : PB) (c : C) (sp : SP)
    (plans : List PB) (w w1 : σ) (plan : Plan) :
    (p.pb.Apply pb w = (.ok plan, w1) →
      ∃ a, p.Apply pb w = (.ok a, w1) ∧ a.Plan = p.Plan ++ plan)
    ∧ (p.pb.ApplyWithCondition c pb w = (.ok plan, w1) →
      ∃ a, p.ApplyWithCondition c pb w = (.ok a, w1) ∧ a.Plan = p.Plan ++ plan)
    ∧ (p.pb.ApplySubPlan sp plans w = (.ok plan, w1) →
      ∃ a, p.ApplySubPlan sp plans w = (.ok a, w1) ∧ a.Plan = p.Plan ++ plan)
    ∧ (newPlanAppender p.pb plan).Plan = plan := by
  refine ⟨?_, ?_, ?_, rfl⟩
  · intro h
    exact ⟨_, newFrom_ok p _ w w1 plan h, rfl⟩
  · intro h
    exact ⟨_, newFrom_ok p _ w w1 plan h, rfl⟩
  · intro h
    exact ⟨_, newFrom_ok p _ w w1 plan h, rfl⟩

/-- A chain on the recovery appender in terms of the chain on the wrapped appender, when no
panic of that chain reaches the caller. -/
theorem chain_recovery (ops : List (Op PB C SP)) (a a1 : PlanAppender σ PB C SP) (w w1 : σ)
    (h : PlanAppender.chain ops a w = (.ok a1, w1)) :
    PlanAppender.chain ops (.planAppenderRecovery a) w = (.ok (.planAppenderRecovery a1), w1) := by
  induction ops generalizing a w with
  | nil =>
    simp only [PlanAppender.chain, Prod.mk.injEq, Except.ok.injEq] at h
    simp only [PlanAppender.chain, h.1, h.2]
  | cons op rest ih =>
    simp only [PlanAppender.chain] at h ⊢
    rw [call_recovery]
    rcases hx : a.call op w with ⟨r, w2⟩
    rw [hx] at h
    rcases r with e | r
    · simp at h
    · exact ih r w2 h

/-- C27: the accumulated plan never shrinks or reorders. Whenever one of the six operations
returns an appender, the plan before the operation is a prefix of the plan of the returned
appender; an operation of a `planAppenderType` returns unless the step panics, and an
operation of a recovery appender always returns, also when the step panics. -/
theorem call_plan_only_grows (a : PlanAppender σ PB C SP) (op : Op PB C SP) (w : σ) :
    (∀ a1 w1, a.call op w = (.ok a1, w1) → a.Plan <+: a1.Plan)
    ∧ (∃ a1 w1, (recoverPlanAppender a).call op w = (.ok a1, w1)
        ∧ (recoverPlanAppender a).Plan <+: a1.Plan) := by
  constructor
  · intro a1 w1 h
    obtain ⟨plan, hplan⟩ := call_grows a op w w1 a1 h
    exact ⟨plan, hplan.symm⟩
  · have hrec : ∀ a1 w1, (recoverPlanAppender a).call op w = (.ok a1, w1) →
        (recoverPlanAppender a).Plan <+: a1.Plan := by
      intro a1 w1 h
      obtain ⟨plan, hplan⟩ := call_grows (recoverPlanAppender a) op w w1 a1 h
      exact ⟨plan, hplan.symm⟩
    have hcall := call_recovery a op w
    rcases hx : a.call op w with ⟨r, w2⟩
    rw [hx] at hcall
    rcases r with e | r
    · exact ⟨_, _, hcall, hrec _ _ hcall⟩
    · exact ⟨_, _, hcall, hrec _ _ hcall⟩

/-- C28: the recovery wrapper is transparent when nothing panics. When an operation of the
appender `p` returns `a1`, the same operation of `recoverPlanAppender p` returns, in the same
world, the recovery appender of `a1`, whose plan is the plan of `a1`; and the same holds of
every chain of operations of `p` that returns. -/
theorem recovery_transparent (p : PlanAppender σ PB C SP) (a1 : PlanAppender σ PB C SP)
    (w w1 : σ) :
    (∀ op : Op PB C SP, p.call op w = (.ok a1, w1) →
      (recoverPlanAppender p).call op w = (.ok (recoverPlanAppender a1), w1)
      ∧ (recoverPlanAppender a1).Plan = a1.Plan)
    ∧ (∀ ops : List (Op PB C SP), PlanAppender.chain ops p w = (.ok a1, w1) →
      PlanAppender.chain ops (recoverPlanAppender p) w = (.ok (recoverPlanAppender a1), w1)
      ∧ (recoverPlanAppender a1).Plan = a1.Plan) := by
  constructor
  · intro op h
    refine ⟨?_, rfl⟩
    show (PlanAppender.planAppenderRecovery p).call op w = _
    rw [call_recovery, h]
    rfl
  · intro ops h
    exact ⟨chain_recovery ops p a1 w w1 h, rfl⟩

end appender

/-- C4 at concrete inputs: with an empty plan `ApplyIfEmpty` is `Apply`; with a plan of one
action the panicking step 0 is not run, the call counter stays at 0. -/
theorem ApplyIfEmpty_noop_once_nonempty_witness :
    (emptyAppender.Plan = [] ∧ emptyAppender.ApplyIfEmpty 2 0 = emptyAppender.Apply 2 0)
    ∧ (busyAppender.Plan ≠ [] ∧ busyAppender.ApplyIfEmpty 0 0 = (.ok (.planAppender busyAppender), 0)
      ∧ PlanAppender.chain [.ApplyIfEmpty 0, .Apply 1, .ApplySubPlanIfEmpty () [0]]
          (.planAppender busyAppender) 0
        = PlanAppender.chain [.Apply 1] (.planAppender busyAppender) 0) :=
  ⟨⟨rfl, ((ApplyIfEmpty_noop_once_nonempty emptyAppender 2 true () [] 0).1 rfl).1⟩,
    by decide,
    ((ApplyIfEmpty_noop_once_nonempty busyAppender 0 true () [] 0).2 (by decide)).1,
    ((ApplyIfEmpty_noop_once_nonempty busyAppender 0 true () [] 0).2 (by decide)).2.2.2
      [.ApplyIfEmpty 0, .Apply 1, .ApplySubPlanIfEmpty () [0]]⟩

/-- C5 at a concrete input: step 0 panics on the wrapped appender; the recovery appender
returns itself, with the world the step left. -/
theorem recovery_returns_self_on_fault_witness :
    (PlanAppender.planAppender busyAppender).call (.Apply 0) 0 = (.error ⟨"step failed"⟩, 1)
    ∧ (PlanAppender.planAppenderRecovery (.planAppender busyAppender)).call (.Apply 0) 0
      = (.ok (.planAppenderRecovery (.planAppender busyAppender)), 1) :=
  ⟨rfl, (recovery_returns_self_on_fault (.planAppender busyAppender) (.Apply 0) 0 1
    ⟨"step failed"⟩ rfl).1⟩

/-- C6 at a concrete input: step 2 yields two actions, which follow the one action of the
current plan. -/
theorem Apply_appends_builder_plan_witness :
    busyAppender.pb.Apply 2 0 = (.ok [idle, idle], 1)
    ∧ ∃ a, busyAppender.Apply 2 0 = (.ok a, 1) ∧ a.Plan = busyAppender.Plan ++ [idle, idle] :=
  ⟨rfl, (Apply_appends_builder_plan busyAppender 2 true () [] 0 1 [idle, idle]).1 rfl⟩


/-- C27 at concrete inputs: step 2 on a plan of one action gives a plan of three that starts
with that action; the panicking step 0 on the recovery appender returns an appender with the
plan of one action. -/
theorem call_plan_only_grows_witness :
    ((PlanAppender.planAppender busyAppender).call (.Apply 2) 0
        = (.ok (.planAppender ⟨exampleBuilder, [idle, idle, idle]⟩), 1)
      ∧ (PlanAppender.planAppender busyAppender).Plan
        <+: (PlanAppender.planAppender ⟨exampleBuilder, [idle, idle, idle]⟩).Plan)
    ∧ ∃ a1 w1, (recoverPlanAppender (.planAppender busyAppender)).call (.Apply 0) 0 = (.ok a1, w1)
        ∧ (recoverPlanAppender (.planAppender busyAppender)).Plan <+: a1.Plan :=
  ⟨⟨rfl, (call_plan_only_grows (.planAppender busyAppender) (.Apply 2) 0).1 _ _ rfl⟩,
    (call_plan_only_grows (.planAppender busyAppender) (.Apply 0) 0).2⟩

/-- C28 at concrete inputs: step 2, and the chain of steps 2 and 1, on a plan of one action,
with and without the recovery wrapper. -/
theorem recovery_transparent_witness :
    ((PlanAppender.planAppender busyAppender).call (.Apply 2) 0
        = (.ok (.planAppender ⟨exampleBuilder, [idle, idle, idle]⟩), 1)
      ∧ (recoverPlanAppender (.planAppender busyAppender)).call (.Apply 2) 0
        = (.ok (recoverPlanAppender (.planAppender ⟨exampleBuilder, [idle, idle, idle]⟩)), 1))
    ∧ (PlanAppender.chain [.Apply 2, .ApplyIfEmpty 0, .Apply 1] (.planAppender busyAppender) 0
        = (.ok (.planAppender ⟨exampleBuilder, [idle, idle, idle, idle]⟩), 2)
      ∧ PlanAppender.chain [.Apply 2, .ApplyIfEmpty 0, .Apply 1]
          (recoverPlanAppender (.planAppender busyAppender)) 0
        = (.ok (recoverPlanAppender (.planAppender ⟨exampleBuilder, [idle, idle, idle, idle]⟩)),
            2)) :=
  ⟨⟨rfl, ((recovery_transparent (.planAppender busyAppender)
      (.planAppender ⟨exampleBuilder, [idle, idle, idle]⟩) 0 1).1 (.Apply 2) rfl).1⟩,
    rfl, ((recovery_transparent (.planAppender busyAppender)
      (.planAppender ⟨exampleBuilder, [idle, idle, idle, idle]⟩) 0 2).2
        [.Apply 2, .ApplyIfEmpty 0, .Apply 1] rfl).1⟩

section actions

variable {σ : Type}

/-- C21: an action whose member is not found completes at once as a no-op.
`actionKillMemberPod.Start` and `actionArangoMemberUpdatePodStatus.Start` return
`(true, nil)`, make no `DeletePod` and no status update call and leave the world as it is, and
`actionKillMemberPod.CheckProgress` returns `(true, false, nil)`, whatever the feature switch
is. -/
theorem missing_member_noop (k : Constants) (gracefulShutdown : Bool)
    (ArangoMemberName : MemberStatus → String → ServerGroup → String)
    (Equals : ArangoMemberPodTemplate → Option ArangoMemberPodTemplate → Bool)
    (kill : actionKillMemberPod σ) (update : actionArangoMemberUpdatePodStatus σ) (w : σ) :
    (kill.actionCtx.GetMemberStatusByID w kill.action.MemberID = none →
      kill.Start gracefulShutdown w = ⟨true, none, w, []⟩
      ∧ kill.CheckProgress k gracefulShutdown w = (true, false, none))
    ∧ (update.actionCtx.GetMemberStatusByID w update.action.MemberID = none →
      update.Start ArangoMemberName Equals w = ⟨true, none, w, []⟩) := by
  constructor
  · intro h
    cases gracefulShutdown <;>
      simp [actionKillMemberPod.Start, actionKillMemberPod.CheckProgress, h]
  · intro h
    simp [actionArangoMemberUpdatePodStatus.Start, h]

/-- C22: `actionArangoMemberUpdatePodStatus.Start` short-circuits once its effect is in place.
For a member that exists and whose `ArangoMember` is found: when the status template is
non-nil and equal to the spec template, and also when the action carries a checksum parameter
and the spec template is nil or has another checksum, `Start` returns `(true, nil)`, issues no
status update and leaves the world as it is. -/
theorem UpdatePodStatus_Start_short_circuit
    (ArangoMemberName : MemberStatus → String → ServerGroup → String)
    (Equals : ArangoMemberPodTemplate → Option ArangoMemberPodTemplate → Bool)
    (a : actionArangoMemberUpdatePodStatus σ) (w : σ) (m : MemberStatus)
    (member : ArangoMember)
    (hm : a.actionCtx.GetMemberStatusByID w a.action.MemberID = some m)
    (hmember : a.actionCtx.ArangoMember w
      (ArangoMemberName m (a.actionCtx.GetName w) a.action.Group) = some member) :
    (∀ t, member.Status.Template = some t → Equals t member.Spec.Template = true →
      a.Start ArangoMemberName Equals w = ⟨true, none, w, []⟩)
    ∧ (∀ c, a.action.GetParam ActionTypeArangoMemberUpdatePodStatusChecksum = some c →
        (member.Spec.Template = none
          ∨ ∃ t, member.Spec.Template = some t ∧ t.Checksum ≠ c) →
      a.Start ArangoMemberName Equals w = ⟨true, none, w, []⟩) := by
  constructor
  · intro t ht heq
    have hupdate : actionArangoMemberUpdatePodStatus.Start.update Equals a w member
        = ⟨true, none, w, []⟩ := by
      simp [actionArangoMemberUpdatePodStatus.Start.update, templateDiffers, ht, heq]
    simp only [actionArangoMemberUpdatePodStatus.Start, hm, hmember]
    rcases Option.eq_none_or_eq_some
      (a.action.GetParam ActionTypeArangoMemberUpdatePodStatusChecksum) with hc | ⟨c, hc⟩
    · simp only [hc, hupdate]
    · simp only [hc]
      rcases Option.eq_none_or_eq_some member.Spec.Template with hs | ⟨s, hs⟩
      · simp only [hs]
      · simp only [hs, hupdate]
        split <;> rfl
  · intro c hc hspec
    simp only [actionArangoMemberUpdatePodStatus.Start, hm, hmember, hc]
    rcases hspec with hs | ⟨t, hs, hne⟩
    · simp only [hs]
    · simp [hs, hne]

/-- C24: `actionKillMemberPod.Start` never returns an error; it returns done = false exactly
when the graceful-shutdown feature is enabled, the member exists and `DeletePod` of its pod
succeeded, and done = true in every other case. With the feature disabled or the member
missing it makes no call and leaves the world as it is; otherwise its one call is `DeletePod`
of the pod of the member. -/
theorem KillMemberPod_Start_done (gracefulShutdown : Bool) (a : actionKillMemberPod σ)
    (w : σ) :
    (a.Start gracefulShutdown w).err = none
    ∧ ((a.Start gracefulShutdown w).done = false ↔
        gracefulShutdown = true
        ∧ ∃ m, a.actionCtx.GetMemberStatusByID w a.action.MemberID = some m
          ∧ (a.actionCtx.DeletePod m.PodName w).1 = none)
    ∧ (gracefulShutdown = false ∨ a.actionCtx.GetMemberStatusByID w a.action.MemberID = none →
        (a.Start gracefulShutdown w).calls = [] ∧ (a.Start gracefulShutdown w).world = w)
    ∧ (∀ m, gracefulShutdown = true →
        a.actionCtx.GetMemberStatusByID w a.action.MemberID = some m →
        (a.Start gracefulShutdown w).calls = [.DeletePod m.PodName]
        ∧ (a.Start gracefulShutdown w).world = (a.actionCtx.DeletePod m.PodName w).2) := by
  cases gracefulShutdown
  · simp [actionKillMemberPod.Start]
  · rcases Option.eq_none_or_eq_some
      (a.actionCtx.GetMemberStatusByID w a.action.MemberID) with hm | ⟨m, hm⟩
    · simp [actionKillMemberPod.Start, hm]
    · rcases hd : a.actionCtx.DeletePod m.PodName w with ⟨r, w1⟩
      rcases r with _ | e <;> simp [actionKillMemberPod.Start, hm, hd]

/-- C25: `actionKillMemberPod.CheckProgress` never requests an abort and never returns an
error; it reports ready = false exactly when the graceful-shutdown feature is enabled, the
member and its pod are found and the finalizers of the pod contain both the graceful-shutdown
finalizer and the delay-pod-termination finalizer, and ready = true in every other case. -/
theorem KillMemberPod_CheckProgress_ready (k : Constants) (gracefulShutdown : Bool)
    (a : actionKillMemberPod σ) (w : σ) :
    (a.CheckProgress k gracefulShutdown w).2.1 = false
    ∧ (a.CheckProgress k gracefulShutdown w).2.2 = none
    ∧ ((a.CheckProgress k gracefulShutdown w).1 = false ↔
        gracefulShutdown = true
        ∧ ∃ m p, a.actionCtx.GetMemberStatusByID w a.action.MemberID = some m
          ∧ (a.actionCtx.GetCachedStatus w).Pod m.PodName = some p
          ∧ StringList.Has p.Finalizers k.FinalizerPodGracefulShutdown = true
          ∧ StringList.Has p.Finalizers k.FinalizerDelayPodTermination = true) := by
  cases gracefulShutdown
  · simp [actionKillMemberPod.CheckProgress]
  · rcases Option.eq_none_or_eq_some
      (a.actionCtx.GetMemberStatusByID w a.action.MemberID) with hm | ⟨m, hm⟩
    · simp [actionKillMemberPod.CheckProgress, hm]
    · rcases Option.eq_none_or_eq_some
        ((a.actionCtx.GetCachedStatus w).Pod m.PodName) with hp | ⟨p, hp⟩
      · simp [actionKillMemberPod.CheckProgress, hm, hp]
      · rcases Bool.eq_false_or_eq_true
          (StringList.Has p.Finalizers k.FinalizerPodGracefulShutdown) with hg | hg <;>
        rcases Bool.eq_false_or_eq_true
          (StringList.Has p.Finalizers k.FinalizerDelayPodTermination) with hd | hd <;>
        simp [actionKillMemberPod.CheckProgress, hm, hp, hg, hd]

end actions

/-- C21 at concrete inputs: no member `m9` exists; with the feature enabled both actions
complete at once and the call counter stays at 0. -/
theorem missing_member_noop_witness :
    exampleContext.GetMemberStatusByID 0 "m9" = none
    ∧ (killAction "m9").Start true 0 = ⟨true, none, 0, []⟩
    ∧ (killAction "m9").CheckProgress rotation.exampleConstants true 0 = (true, false, none)
    ∧ (updateAction "m9" []).Start exampleMemberName exampleEquals 0 = ⟨true, none, 0, []⟩ :=
  ⟨by decide,
    ((missing_member_noop rotation.exampleConstants true exampleMemberName exampleEquals
      (killAction "m9") (updateAction "m9" []) 0).1 (by decide)).1,
    ((missing_member_noop rotation.exampleConstants true exampleMemberName exampleEquals
      (killAction "m9") (updateAction "m9" []) 0).1 (by decide)).2,
    (missing_member_noop rotation.exampleConstants true exampleMemberName exampleEquals
      (killAction "m9") (updateAction "m9" []) 0).2 (by decide)⟩

/-- C22 at concrete inputs: the `ArangoMember` of `m1` has the status template equal to the
spec template; that of `m2` has no status template and the action carries the checksum `xyz`
while the spec template has `abc`. Neither `Start` issues a status update; without the
checksum parameter the action for `m2` does. -/
theorem UpdatePodStatus_Start_short_circuit_witness :
    (updateAction "m1" []).Start exampleMemberName exampleEquals 0 = ⟨true, none, 0, []⟩
    ∧ (updateAction "m2" [("checksum", "xyz")]).Start exampleMemberName exampleEquals 0
      = ⟨true, none, 0, []⟩
    ∧ (updateAction "m2" []).Start exampleMemberName exampleEquals 0
      = ⟨true, none, 1, [.WithArangoMemberStatusUpdate "default" "depl-m2"]⟩ :=
  ⟨(UpdatePodStatus_Start_short_circuit exampleMemberName exampleEquals (updateAction "m1" [])
      0 { ID := "m1", PodName := "pod-m1" }
      { Namespace := "default", Name := "depl-m1"
        Spec := { Template := some { Checksum := "abc" } }
        Status := { Template := some { Checksum := "abc" } } }
      (by decide) (by decide)).1 { Checksum := "abc" } rfl (by decide),
    (UpdatePodStatus_Start_short_circuit exampleMemberName exampleEquals
      (updateAction "m2" [("checksum", "xyz")])
      0 { ID := "m2", PodName := "pod-m2" }
      { Namespace := "default", Name := "depl-m2"
        Spec := { Template := some { Checksum := "abc" } } }
      (by decide) (by decide)).2 "xyz" (by decide)
        (Or.inr ⟨{ Checksum := "abc" }, rfl, by decide⟩),
    rfl⟩

/-- C24 at concrete inputs: with the feature enabled the pod of `m1` is deleted and done is
false; the pod of `m2` cannot be deleted and done is true, without an error; with the feature
disabled nothing is called. -/
theorem KillMemberPod_Start_done_witness :
    ((killAction "m1").Start true 0).done = false
    ∧ ((killAction "m1").Start true 0).calls = [.DeletePod "pod-m1"]
    ∧ ((killAction "m2").Start true 0).done = true
    ∧ ((killAction "m2").Start true 0).err = none
    ∧ ((killAction "m1").Start false 0).calls = [] :=
  ⟨(KillMemberPod_Start_done true (killAction "m1") 0).2.1.2
      ⟨rfl, { ID := "m1", PodName := "pod-m1" }, by decide, by decide⟩,
    ((KillMemberPod_Start_done true (killAction "m1") 0).2.2.2
      { ID := "m1", PodName := "pod-m1" } rfl (by decide)).1,
    by decide,
    (KillMemberPod_Start_done true (killAction "m2") 0).1,
    ((KillMemberPod_Start_done false (killAction "m1") 0).2.2.1 (Or.inl rfl)).1⟩

/-- C25 at concrete inputs: the pod of `m1` carries both finalizers, so the action is not
ready; the pod of `m2` carries only the graceful-shutdown finalizer, so it is. -/
theorem KillMemberPod_CheckProgress_ready_witness :
    ((killAction "m1").CheckProgress rotation.exampleConstants true 0).1 = false
    ∧ ((killAction "m1").CheckProgress rotation.exampleConstants true 0).2.1 = false
    ∧ (killAction "m2").CheckProgress rotation.exampleConstants true 0 = (true, false, none) :=
  ⟨(KillMemberPod_CheckProgress_ready rotation.exampleConstants true (killAction "m1") 0).2.2.2
      ⟨rfl, { ID := "m1", PodName := "pod-m1" },
        { Name := "pod-m1"
          Finalizers := ["pod.database.arangodb.com/graceful-shutdown",
            "pod.database.arangodb.com/delay"] },
        by decide, by decide, by decide, by decide⟩,
    (KillMemberPod_CheckProgress_ready rotation.exampleConstants true (killAction "m1") 0).1,
    by decide⟩

end reconcile

namespace k8sutil

/-- The closure `shouldRemove` is the membership test in `finalizers`. -/
theorem shouldRemove_iff (finalizers : List String) (f : String) :
    shouldRemove finalizers f = true ↔ f ∈ finalizers := by
  induction finalizers with
  | nil => simp [shouldRemove]
  | cons x rest ih =>
    simp only [shouldRemove, List.mem_cons]
    by_cases hx : x = f
    · simp [hx]
    · have hx2 : ¬ f = x := fun h => hx h.symm
      simp [hx, hx2, ih]

/-- The fill loop, started from any accumulator, appends the kept elements in order. -/
theorem foldl_keep (finalizers : List String) (original acc : List String) :
    original.foldl (fun acc f => if !shouldRemove finalizers f then acc ++ [f] else acc) acc
    = acc ++ original.filter (fun f => !shouldRemove finalizers f) := by
  induction original generalizing acc with
  | nil => simp
  | cons x rest ih =>
    simp only [List.foldl_cons, List.filter_cons]
    rw [ih]
    cases hx : shouldRemove finalizers x <;> simp

/-- The list `newList` is `original` without the elements of `finalizers`, order and
multiplicity kept. -/
theorem newList_eq_filter (finalizers original : List String) :
    newList finalizers original = original.filter (fun f => decide (f ∉ finalizers)) := by
  simp only [newList, foldl_keep, List.nil_append]
  apply List.filter_congr
  intro x _
  cases hx : shouldRemove finalizers x
  · have : x ∉ finalizers := fun h => by
      rw [(shouldRemove_iff finalizers x).mpr h] at hx
      exact Bool.noConfusion hx
    simp [this]
  · have : x ∈ finalizers := (shouldRemove_iff finalizers x).mp hx
    simp [this]

/-- The list `newList` is never longer than `original`. -/
theorem newList_length_le (finalizers original : List String) :
    (newList finalizers original).length ≤ original.length := by
  rw [newList_eq_filter]
  exact List.length_filter_le _ _

/-- The list `newList` is shorter than `original` exactly when `original` holds an element of
`finalizers`. -/
theorem newList_length_lt_iff (finalizers original : List String) :
    (newList finalizers original).length < original.length
    ↔ ∃ f ∈ original, f ∈ finalizers := by
  rw [newList_eq_filter]
  induction original with
  | nil => simp
  | cons x rest ih =>
    by_cases hx : x ∈ finalizers
    · have hle := List.length_filter_le (fun f => decide (f ∉ finalizers)) rest
      simp only [List.filter_cons, hx, not_true_eq_false, decide_False, List.length_cons]
      constructor
      · intro _
        exact ⟨x, List.mem_cons_self _ _, hx⟩
      · intro _
        simp only [Bool.false_eq_true, if_false]
        omega
    · simp only [List.filter_cons, hx, not_false_eq_true, decide_True, if_true,
        List.length_cons, Nat.add_lt_add_iff_right, ih, List.mem_cons]
      constructor
      · rintro ⟨f, hf, hff⟩
        exact ⟨f, Or.inr hf, hff⟩
      · rintro ⟨f, hf | hf, hff⟩
        · exact absurd (hf ▸ hff) hx
        · exact ⟨f, hf, hff⟩

section loop

variable {σ : Type} (finalizers : List String)
  (getFunc : σ → Except Error Object × σ) (updateFunc : Object → σ → Option Error × σ)
  (ignoreNotFound : Bool)

/-- One iteration in which `getFunc` fails. -/
theorem loop_get_error (attempts : Nat) (w w1 : σ) (err : Error)
    (hget : getFunc w = (.error err, w1)) :
    RemoveFinalizers.loop finalizers getFunc updateFunc ignoreNotFound attempts w
    = ⟨if IsNotFound (some err) && ignoreNotFound then none else some err, 1, [], w1⟩ := by
  rw [RemoveFinalizers.loop]
  simp only [hget]
  split <;> rfl

/-- One iteration in which the object holds no finalizer to remove. -/
theorem loop_no_update (attempts : Nat) (w w1 : σ) (obj : Object)
    (hget : getFunc w = (.ok obj, w1))
    (hnone : ∀ f ∈ obj.GetFinalizers, f ∉ finalizers) :
    RemoveFinalizers.loop finalizers getFunc updateFunc ignoreNotFound attempts w
    = ⟨none, 1, [], w1⟩ := by
  have hlt : ¬ (newList finalizers obj.GetFinalizers).length < obj.GetFinalizers.length := by
    rw [newList_length_lt_iff]
    rintro ⟨f, hf, hff⟩
    exact hnone f hf hff
  rw [RemoveFinalizers.loop]
  simp only [hget]
  split
  · rfl
  · simp only [hlt, if_false]

/-- One iteration in which the object holds a finalizer to remove: `updateFunc` is called with
the shortened list, and only a conflict within the attempt bound enters the next iteration. -/
theorem loop_update (attempts : Nat) (w w1 w2 : σ) (obj : Object) (err : Option Error)
    (hget : getFunc w = (.ok obj, w1))
    (hsome : ∃ f ∈ obj.GetFinalizers, f ∈ finalizers)
    (hupd : updateFunc (obj.SetFinalizers (newList finalizers obj.GetFinalizers)) w1
      = (err, w2)) :
    RemoveFinalizers.loop finalizers getFunc updateFunc ignoreNotFound attempts w
    = if IsConflict err then
        if attempts + 1 > maxRemoveFinalizersAttempts then
          ⟨err, 1, [⟨obj, obj.SetFinalizers (newList finalizers obj.GetFinalizers)⟩], w2⟩
        else
          ⟨(RemoveFinalizers.loop finalizers getFunc updateFunc ignoreNotFound
              (attempts + 1) w2).err,
            1 + (RemoveFinalizers.loop finalizers getFunc updateFunc ignoreNotFound
              (attempts + 1) w2).gets,
            ⟨obj, obj.SetFinalizers (newList finalizers obj.GetFinalizers)⟩ ::
              (RemoveFinalizers.loop finalizers getFunc updateFunc ignoreNotFound
                (attempts + 1) w2).updates,
            (RemoveFinalizers.loop finalizers getFunc updateFunc ignoreNotFound
              (attempts + 1) w2).world⟩
      else if IsNotFound err && ignoreNotFound then
        ⟨none, 1, [⟨obj, obj.SetFinalizers (newList finalizers obj.GetFinalizers)⟩], w2⟩
      else ⟨err, 1, [⟨obj, obj.SetFinalizers (newList finalizers obj.GetFinalizers)⟩], w2⟩ := by
  have hlt : (newList finalizers obj.GetFinalizers).length < obj.GetFinalizers.length :=
    (newList_length_lt_iff _ _).mpr hsome
  have hlen : ¬ (obj.GetFinalizers.length == 0) = true := by
    simp only [beq_iff_eq]
    omega
  rw [RemoveFinalizers.loop]
  simp only [hget, hlen, hlt, if_true, if_false, hupd, Bool.false_eq_true]
  by_cases hc : IsConflict err = true
  · by_cases hn : attempts + 1 > maxRemoveFinalizersAttempts
    · simp [hc, hn]
    · simp [hc, hn]
  · by_cases hnf : (IsNotFound err && ignoreNotFound) = true
    · simp only [hc, hnf, if_true, if_false, Bool.false_eq_true]
    · simp only [hc, hnf, if_false, Bool.false_eq_true]
      cases err with
      | none => rfl
      | some e => rfl

/-- The call recorded by an iteration that updates is as specified. -/
theorem call_writtenAsSpecified (w w1 : σ) (obj : Object)
    (hget : getFunc w = (.ok obj, w1))
    (hsome : ∃ f ∈ obj.GetFinalizers, f ∈ finalizers) :
    writtenAsSpecified finalizers getFunc
      ⟨obj, obj.SetFinalizers (newList finalizers obj.GetFinalizers)⟩ := by
  refine ⟨?_, ?_, ?_, ⟨w, w1, hget⟩⟩
  · simp only [newList_eq_filter]
  · exact (newList_length_lt_iff _ _).mpr hsome
  · intro f hf
    simp only [Object.GetFinalizers, Object.SetFinalizers, newList_eq_filter,
      List.mem_filter, decide_eq_true_eq] at hf
    exact hf.2

/-- Every call of `updateFunc` made from any iteration on is as specified. -/
theorem loop_updates_writtenAsSpecified (k : Nat) :
    ∀ (attempts : Nat) (w : σ), maxRemoveFinalizersAttempts + 1 - attempts ≤ k →
      ∀ call ∈ (RemoveFinalizers.loop finalizers getFunc updateFunc ignoreNotFound
        attempts w).updates, writtenAsSpecified finalizers getFunc call := by
  induction k with
  | zero =>
    intro attempts w hk call hcall
    rcases hg : getFunc w with ⟨r, w1⟩
    rcases r with e | obj
    · rw [loop_get_error _ _ _ _ _ _ _ _ hg] at hcall
      simp at hcall
    · by_cases hsome : ∃ f ∈ obj.GetFinalizers, f ∈ finalizers
      · rcases hu : updateFunc (obj.SetFinalizers (newList finalizers obj.GetFinalizers)) w1
          with ⟨err, w2⟩
        rw [loop_update _ _ _ _ _ _ _ _ _ _ hg hsome hu] at hcall
        have hn : attempts + 1 > maxRemoveFinalizersAttempts := by omega
        simp only [hn, if_true] at hcall
        have hmem : call = ⟨obj, obj.SetFinalizers (newList finalizers obj.GetFinalizers)⟩ := by
          split at hcall
          · simpa using hcall
          · split at hcall <;> simpa using hcall
        rw [hmem]
        exact call_writtenAsSpecified _ _ _ _ _ hg hsome
      · have hnone : ∀ f ∈ obj.GetFinalizers, f ∉ finalizers :=
          fun f hf hff => hsome ⟨f, hf, hff⟩
        rw [loop_no_update _ _ _ _ _ _ _ _ hg hnone] at hcall
        simp at hcall
  | succ k ih =>
    intro attempts w hk call hcall
    rcases hg : getFunc w with ⟨r, w1⟩
    rcases r with e | obj
    · rw [loop_get_error _ _ _ _ _ _ _ _ hg] at hcall
      simp at hcall
    · by_cases hsome : ∃ f ∈ obj.GetFinalizers, f ∈ finalizers
      · rcases hu : updateFunc (obj.SetFinalizers (newList finalizers obj.GetFinalizers)) w1
          with ⟨err, w2⟩
        rw [loop_update _ _ _ _ _ _ _ _ _ _ hg hsome hu] at hcall
        have hthis := call_writtenAsSpecified finalizers getFunc w w1 obj hg hsome
        split at hcall
        · split at hcall
          · have hmem : call
                = ⟨obj, obj.SetFinalizers (newList finalizers obj.GetFinalizers)⟩ := by
              simpa using hcall
            rw [hmem]
            exact hthis
          · simp only [List.mem_cons] at hcall
            rcases hcall with hmem | hrest
            · rw [hmem]
              exact hthis
            · exact ih (attempts + 1) w2 (by omega) call hrest
        · have hmem : call
              = ⟨obj, obj.SetFinalizers (newList finalizers obj.GetFinalizers)⟩ := by
            split at hcall <;> simpa using hcall
          rw [hmem]
          exact hthis
      · have hnone : ∀ f ∈ obj.GetFinalizers, f ∉ finalizers :=
          fun f hf hff => hsome ⟨f, hf, hff⟩
        rw [loop_no_update _ _ _ _ _ _ _ _ hg hnone] at hcall
        simp at hcall

/-- From any iteration on, the calls of `getFunc` and of `updateFunc` are bounded by the
attempts that are left. -/
theorem loop_calls_le (k : Nat) :
    ∀ (attempts : Nat) (w : σ), maxRemoveFinalizersAttempts + 1 - attempts ≤ k →
      (RemoveFinalizers.loop finalizers getFunc updateFunc ignoreNotFound
        attempts w).updates.length ≤ max 1 (maxRemoveFinalizersAttempts + 1 - attempts)
      ∧ (RemoveFinalizers.loop finalizers getFunc updateFunc ignoreNotFound
        attempts w).gets ≤ max 1 (maxRemoveFinalizersAttempts + 1 - attempts) := by
  induction k with
  | zero =>
    intro attempts w hk
    rcases hg : getFunc w with ⟨r, w1⟩
    rcases r with e | obj
    · rw [loop_get_error _ _ _ _ _ _ _ _ hg]
      simp
    · by_cases hsome : ∃ f ∈ obj.GetFinalizers, f ∈ finalizers
      · rcases hu : updateFunc (obj.SetFinalizers (newList finalizers obj.GetFinalizers)) w1
          with ⟨err, w2⟩
        rw [loop_update _ _ _ _ _ _ _ _ _ _ hg hsome hu]
        have hn : attempts + 1 > maxRemoveFinalizersAttempts := by omega
        simp only [hn, if_true]
        split
        · simp
        · split <;> simp
      · have hnone : ∀ f ∈ obj.GetFinalizers, f ∉ finalizers :=
          fun f hf hff => hsome ⟨f, hf, hff⟩
        rw [loop_no_update _ _ _ _ _ _ _ _ hg hnone]
        simp
  | succ k ih =>
    intro attempts w hk
    rcases hg : getFunc w with ⟨r, w1⟩
    rcases r with e | obj
    · rw [loop_get_error _ _ _ _ _ _ _ _ hg]
      simp
    · by_cases hsome : ∃ f ∈ obj.GetFinalizers, f ∈ finalizers
      · rcases hu : updateFunc (obj.SetFinalizers (newList finalizers obj.GetFinalizers)) w1
          with ⟨err, w2⟩
        rw [loop_update _ _ _ _ _ _ _ _ _ _ hg hsome hu]
        split
        · split
          · simp
          · rename_i hn
            have hrest := ih (attempts + 1) w2 (by omega)
            simp only [List.length_cons]
            simp only [maxRemoveFinalizersAttempts] at hn hrest ⊢
            omega
        · split <;> simp
      · have hnone : ∀ f ∈ obj.GetFinalizers, f ∉ finalizers :=
          fun f hf hff => hsome ⟨f, hf, hff⟩
        rw [loop_no_update _ _ _ _ _ _ _ _ hg hnone]
        simp

/-- When every get returns an object with a finalizer to remove and every update conflicts,
the loop runs through all the attempts that are left and returns the conflict. -/
theorem loop_always_conflict
    (hget : ∀ w, ∃ obj w1, getFunc w = (.ok obj, w1) ∧ ∃ f ∈ obj.GetFinalizers, f ∈ finalizers)
    (hupd : ∀ obj w, (updateFunc obj w).1 = some .Conflict) (k : Nat) :
    ∀ (attempts : Nat) (w : σ), attempts ≤ maxRemoveFinalizersAttempts →
      maxRemoveFinalizersAttempts + 1 - attempts = k →
      (RemoveFinalizers.loop finalizers getFunc updateFunc ignoreNotFound
        attempts w).err = some .Conflict
      ∧ (RemoveFinalizers.loop finalizers getFunc updateFunc ignoreNotFound
        attempts w).updates.length = maxRemoveFinalizersAttempts + 1 - attempts
      ∧ (RemoveFinalizers.loop finalizers getFunc updateFunc ignoreNotFound
        attempts w).gets = maxRemoveFinalizersAttempts + 1 - attempts := by
  induction k with
  | zero =>
    intro attempts w hle hk
    omega
  | succ k ih =>
    intro attempts w hle hk
    obtain ⟨obj, w1, hg, hsome⟩ := hget w
    rcases hu : updateFunc (obj.SetFinalizers (newList finalizers obj.GetFinalizers)) w1
      with ⟨err, w2⟩
    have herr : err = some .Conflict := by
      have := hupd (obj.SetFinalizers (newList finalizers obj.GetFinalizers)) w1
      rw [hu] at this
      exact this
    rw [loop_update _ _ _ _ _ _ _ _ _ _ hg hsome hu]
    have hc : IsConflict err = true := by rw [herr]; rfl
    simp only [hc, if_true]
    by_cases hn : attempts + 1 > maxRemoveFinalizersAttempts
    · simp only [hn, if_true, List.length_singleton]
      refine ⟨herr, ?_, ?_⟩ <;> omega
    · simp only [hn, if_false, List.length_cons]
      obtain ⟨h1, h2, h3⟩ := ih (attempts + 1) w2 (by omega) (by omega)
      refine ⟨h1, ?_, ?_⟩ <;> omega

end loop

/-- C7: when the object that `getFunc` returns holds none of the finalizers to remove (also
when it holds no finalizer at all), `RemoveFinalizers` returns nil after that one get, without
any call of `updateFunc`, in the world the get left. -/
theorem RemoveFinalizers_none_present {σ : Type} (finalizers : List String)
    (getFunc : σ → Except Error Object × σ) (updateFunc : Object → σ → Option Error × σ)
    (ignoreNotFound : Bool) (w w1 : σ) (obj : Object)
    (hget : getFunc w = (.ok obj, w1))
    (hnone : ∀ f ∈ obj.GetFinalizers, f ∉ finalizers) :
    (RemoveFinalizers finalizers getFunc updateFunc ignoreNotFound w).err = none
    ∧ (RemoveFinalizers finalizers getFunc updateFunc ignoreNotFound w).updates = []
    ∧ (RemoveFinalizers finalizers getFunc updateFunc ignoreNotFound w).gets = 1
    ∧ (RemoveFinalizers finalizers getFunc updateFunc ignoreNotFound w).world = w1 := by
  rw [RemoveFinalizers, loop_no_update _ _ _ _ _ _ _ _ hget hnone]
  exact ⟨rfl, rfl, rfl, rfl⟩

/-- C7 at a concrete input: a pod whose only finalizers are kept. -/
theorem RemoveFinalizers_none_present_witness :
    (RemoveFinalizers ["gone", "remove-me"] exampleGet conflictingUpdate false 0).err = none
    ∧ (RemoveFinalizers ["gone", "remove-me"] exampleGet conflictingUpdate false 0).updates = []
    ∧ (RemoveFinalizers ["gone", "remove-me"] exampleGet conflictingUpdate false 0).gets = 1
    ∧ (RemoveFinalizers ["gone", "remove-me"] exampleGet conflictingUpdate false 0).world = 0 :=
  RemoveFinalizers_none_present ["gone", "remove-me"] exampleGet conflictingUpdate false 0 0
    { Name := "pod", ResourceVersion := 0, Finalizers := ["keep", "remove"] } rfl (by decide)

/-- C8: every object that `RemoveFinalizers` gives to `updateFunc` is an object that `getFunc`
returned, with its finalizer list set to the original list without the elements of
`finalizers` (order and multiplicity of the others kept); that list is strictly shorter than
the original and holds no element of `finalizers`. -/
theorem RemoveFinalizers_written_list {σ : Type} (finalizers : List String)
    (getFunc : σ → Except Error Object × σ) (updateFunc : Object → σ → Option Error × σ)
    (ignoreNotFound : Bool) (w : σ) (call : UpdateCall)
    (hcall : call ∈ (RemoveFinalizers finalizers getFunc updateFunc ignoreNotFound w).updates) :
    call.updated
      = call.original.SetFinalizers
          (call.original.GetFinalizers.filter (fun f => decide (f ∉ finalizers)))
    ∧ call.updated.GetFinalizers.length < call.original.GetFinalizers.length
    ∧ (∀ f ∈ call.updated.GetFinalizers, f ∉ finalizers)
    ∧ ∃ w0 w1, getFunc w0 = (.ok call.original, w1) :=
  loop_updates_writtenAsSpecified finalizers getFunc updateFunc ignoreNotFound
    (maxRemoveFinalizersAttempts + 1) 0 w (Nat.le_refl _) call hcall

/-- The run of the example: one get, one accepted update. -/
theorem example_run :
    RemoveFinalizers ["remove"] exampleGet acceptingUpdate false 0
    = ⟨none, 1, [⟨{ Name := "pod", ResourceVersion := 0, Finalizers := ["keep", "remove"] },
        { Name := "pod", ResourceVersion := 0, Finalizers := ["keep"] }⟩], 1⟩ := by
  rw [RemoveFinalizers,
    loop_update ["remove"] exampleGet acceptingUpdate false 0 0 0 1
      { Name := "pod", ResourceVersion := 0, Finalizers := ["keep", "remove"] } none rfl
      ⟨"remove", by decide, by decide⟩ rfl]
  rfl

/-- C8 at a concrete input: of the finalizers keep and remove, keep is written. -/
theorem RemoveFinalizers_written_list_witness :
    (⟨{ Name := "pod", ResourceVersion := 0, Finalizers := ["keep", "remove"] },
        { Name := "pod", ResourceVersion := 0, Finalizers := ["keep"] }⟩ : UpdateCall)
      ∈ (RemoveFinalizers ["remove"] exampleGet acceptingUpdate false 0).updates
    ∧ ({ Name := "pod", ResourceVersion := 0, Finalizers := ["keep"] } : Object)
      = Object.SetFinalizers
          { Name := "pod", ResourceVersion := 0, Finalizers := ["keep", "remove"] }
          (["keep", "remove"].filter (fun f => decide (f ∉ ["remove"]))) :=
  ⟨by rw [example_run]; exact List.mem_singleton.mpr rfl,
    (RemoveFinalizers_written_list ["remove"] exampleGet acceptingUpdate false 0
      ⟨{ Name := "pod", ResourceVersion := 0, Finalizers := ["keep", "remove"] },
        { Name := "pod", ResourceVersion := 0, Finalizers := ["keep"] }⟩
      (by rw [example_run]; exact List.mem_singleton.mpr rfl)).1⟩

/-- C9: `RemoveFinalizers` never calls `getFunc` or `updateFunc` more than 51 times (the first
attempt and `maxRemoveFinalizersAttempts` = 50 retries); and when every get returns an object
with a finalizer to remove and every update conflicts, it returns the conflict error after
exactly 51 gets and 51 updates. -/
theorem RemoveFinalizers_conflict_retries {σ : Type} (finalizers : List String)
    (getFunc : σ → Except Error Object × σ) (updateFunc : Object → σ → Option Error × σ)
    (ignoreNotFound : Bool) (w : σ) :
    ((RemoveFinalizers finalizers getFunc updateFunc ignoreNotFound w).updates.length ≤ 51
      ∧ (RemoveFinalizers finalizers getFunc updateFunc ignoreNotFound w).gets ≤ 51)
    ∧ ((∀ w, ∃ obj w1, getFunc w = (.ok obj, w1) ∧ ∃ f ∈ obj.GetFinalizers, f ∈ finalizers) →
        (∀ obj w, (updateFunc obj w).1 = some .Conflict) →
        (RemoveFinalizers finalizers getFunc updateFunc ignoreNotFound w).err = some .Conflict
        ∧ (RemoveFinalizers finalizers getFunc updateFunc ignoreNotFound w).updates.length = 51
        ∧ (RemoveFinalizers finalizers getFunc updateFunc ignoreNotFound w).gets = 51
        ∧ maxRemoveFinalizersAttempts = 50) := by
  constructor
  · have h := loop_calls_le finalizers getFunc updateFunc ignoreNotFound
      (maxRemoveFinalizersAttempts + 1) 0 w (Nat.le_refl _)
    simp only [maxRemoveFinalizersAttempts] at h
    exact h
  · intro hget hupd
    have h := loop_always_conflict finalizers getFunc updateFunc ignoreNotFound hget hupd
      (maxRemoveFinalizersAttempts + 1) 0 w (Nat.zero_le _) rfl
    simp only [maxRemoveFinalizersAttempts] at h
    exact ⟨h.1, h.2.1, h.2.2, rfl⟩

/-- C9 at a concrete input: a pod that keeps its finalizer to remove and an update that always
conflicts. -/
theorem RemoveFinalizers_conflict_retries_witness :
    (RemoveFinalizers ["remove"] exampleGet conflictingUpdate true 0).err = some .Conflict
    ∧ (RemoveFinalizers ["remove"] exampleGet conflictingUpdate true 0).updates.length = 51
    ∧ (RemoveFinalizers ["remove"] exampleGet conflictingUpdate true 0).gets = 51
    ∧ maxRemoveFinalizersAttempts = 50 :=
  (RemoveFinalizers_conflict_retries ["remove"] exampleGet conflictingUpdate true 0).2
    (fun w => ⟨_, w, rfl, "remove", by simp [Object.GetFinalizers], by decide⟩)
    (fun _ _ => rfl)

/-- C10: in every iteration of `RemoveFinalizers` (entered with any value of `attempts`), a
not-found error from `getFunc` or from `updateFunc` ends the run with nil when
`ignoreNotFound` is true and with that error when it is false, and any other error that is
not a conflict ends the run with that error; in each case no further call is made. -/
theorem RemoveFinalizers_notFound_and_errors {σ : Type} (finalizers : List String)
    (getFunc : σ → Except Error Object × σ) (updateFunc : Object → σ → Option Error × σ)
    (ignoreNotFound : Bool) (attempts : Nat) (w w1 w2 : σ) (obj : Object) (msg : String) :
    (getFunc w = (.error .NotFound, w1) →
      RemoveFinalizers.loop finalizers getFunc updateFunc ignoreNotFound attempts w
      = ⟨if ignoreNotFound then none else some .NotFound, 1, [], w1⟩)
    ∧ (getFunc w = (.error (.Other msg), w1) →
      RemoveFinalizers.loop finalizers getFunc updateFunc ignoreNotFound attempts w
      = ⟨some (.Other msg), 1, [], w1⟩)
    ∧ (getFunc w = (.ok obj, w1) → (∃ f ∈ obj.GetFinalizers, f ∈ finalizers) →
      updateFunc (obj.SetFinalizers (newList finalizers obj.GetFinalizers)) w1
        = (some .NotFound, w2) →
      RemoveFinalizers.loop finalizers getFunc updateFunc ignoreNotFound attempts w
      = ⟨if ignoreNotFound then none else some .NotFound, 1,
          [⟨obj, obj.SetFinalizers (newList finalizers obj.GetFinalizers)⟩], w2⟩)
    ∧ (getFunc w = (.ok obj, w1) → (∃ f ∈ obj.GetFinalizers, f ∈ finalizers) →
      updateFunc (obj.SetFinalizers (newList finalizers obj.GetFinalizers)) w1
        = (some (.Other msg), w2) →
      RemoveFinalizers.loop finalizers getFunc updateFunc ignoreNotFound attempts w
      = ⟨some (.Other msg), 1,
          [⟨obj, obj.SetFinalizers (newList finalizers obj.GetFinalizers)⟩], w2⟩)
    ∧ RemoveFinalizers finalizers getFunc updateFunc ignoreNotFound w
      = RemoveFinalizers.loop finalizers getFunc updateFunc ignoreNotFound 0 w := by
  refine ⟨?_, ?_, ?_, ?_, rfl⟩
  · intro hget
    rw [loop_get_error _ _ _ _ _ _ _ _ hget]
    cases ignoreNotFound <;> rfl
  · intro hget
    rw [loop_get_error _ _ _ _ _ _ _ _ hget]
    rfl
  · intro hget hsome hupd
    rw [loop_update _ _ _ _ _ _ _ _ _ _ hget hsome hupd]
    cases ignoreNotFound <;> rfl
  · intro hget hsome hupd
    rw [loop_update _ _ _ _ _ _ _ _ _ _ hget hsome hupd]
    rfl

/-- C10 at concrete inputs: a not-found get is nil when ignored and the error otherwise; a
not-found update is nil when ignored. -/
theorem RemoveFinalizers_notFound_and_errors_witness :
    (RemoveFinalizers ["remove"] missingGet acceptingUpdate true 7).err = none
    ∧ (RemoveFinalizers ["remove"] missingGet acceptingUpdate false 7).err = some .NotFound
    ∧ (RemoveFinalizers ["remove"] exampleGet vanishedUpdate true 7).err = none
    ∧ (RemoveFinalizers ["remove"] exampleGet vanishedUpdate true 7).updates.length = 1 :=
  ⟨congrArg Outcome.err
      ((RemoveFinalizers_notFound_and_errors ["remove"] missingGet acceptingUpdate true 0 7 7 7
        {} "").1 rfl),
    congrArg Outcome.err
      ((RemoveFinalizers_notFound_and_errors ["remove"] missingGet acceptingUpdate false 0 7 7 7
        {} "").1 rfl),
    congrArg Outcome.err
      ((RemoveFinalizers_notFound_and_errors ["remove"] exampleGet vanishedUpdate true 0 7 7 8
        { Name := "pod", ResourceVersion := 7, Finalizers := ["keep", "remove"] } "").2.2.1
        rfl ⟨"remove", by decide, by decide⟩ rfl),
    congrArg (fun r => r.updates.length)
      ((RemoveFinalizers_notFound_and_errors ["remove"] exampleGet vanishedUpdate true 0 7 7 8
        { Name := "pod", ResourceVersion := 7, Finalizers := ["keep", "remove"] } "").2.2.1
        rfl ⟨"remove", by decide, by decide⟩ rfl)⟩


end k8sutil

namespace deployment

section scaling

variable {σ : Type}

/-- A live count equal to the last known one is not a change. -/
theorem countChanged_eq_false (req : Option Int) (c : Int) (reqCount : Int)
    (h : ∀ x, req = some x → reqCount = c) :
    countChanged req (some c) reqCount c = false := by
  rcases req with _ | x
  · simp [countChanged]
  · simp [countChanged, h x rfl]

/-- One inspection when both last known counts are set and the cluster reports them. -/
theorem inspectCluster_same_counts (m : SpecMethods) (depl : Deployment σ)
    (ci : clusterScalingIntegration) (expectSuccess : Bool) (w w1 w2 : σ)
    (req : NumberOfServers) (c d : Int)
    (hc : ci.lastNumberOfServers.Coordinators = some c)
    (hd : ci.lastNumberOfServers.DBServers = some d)
    (hdb : depl.GetDatabase w = (none, w1))
    (hreq : depl.GetNumberOfServers w1 = (.ok req, w2))
    (hceq : ∀ x, req.Coordinators = some x → x = c)
    (hdeq : ∀ y, req.DBServers = some y → y = d) :
    inspectCluster m depl ci expectSuccess w
    = ⟨none, ci, w2, [.GetDatabase, .GetNumberOfServers]⟩ := by
  have h1 : countChanged req.Coordinators ci.lastNumberOfServers.Coordinators
      req.GetCoordinators ci.lastNumberOfServers.GetCoordinators = false := by
    have : ci.lastNumberOfServers.GetCoordinators = c := by
      simp [NumberOfServers.GetCoordinators, hc]
    rw [this, hc]
    apply countChanged_eq_false
    intro x hx
    simp [NumberOfServers.GetCoordinators, hx, hceq x hx]
  have h2 : countChanged req.DBServers ci.lastNumberOfServers.DBServers
      req.GetDBServers ci.lastNumberOfServers.GetDBServers = false := by
    have : ci.lastNumberOfServers.GetDBServers = d := by
      simp [NumberOfServers.GetDBServers, hd]
    rw [this, hd]
    apply countChanged_eq_false
    intro y hy
    simp [NumberOfServers.GetDBServers, hy, hdeq y hy]
  simp only [inspectCluster, hdb, hreq, h1, h2]
  split
  · rfl
  · simp [hc, hd]

/-- One inspection, whether or not the fetch succeeds, when both last known counts are set and
the cluster, if it reports, reports them: the integration is unchanged and only the two fetch
calls are made. -/
theorem inspectCluster_stable (m : SpecMethods) (depl : Deployment σ)
    (ci : clusterScalingIntegration) (expectSuccess : Bool) (c d : Int)
    (hc : ci.lastNumberOfServers.Coordinators = some c)
    (hd : ci.lastNumberOfServers.DBServers = some d)
    (hstable : ∀ w req w1, depl.GetNumberOfServers w = (.ok req, w1) →
      (∀ x, req.Coordinators = some x → x = c) ∧ (∀ y, req.DBServers = some y → y = d))
    (w : σ) :
    (inspectCluster m depl ci expectSuccess w).ci = ci
    ∧ ∀ call ∈ (inspectCluster m depl ci expectSuccess w).calls,
        call = .GetDatabase ∨ call = .GetNumberOfServers := by
  rcases hdb : depl.GetDatabase w with ⟨e, w1⟩
  rcases e with _ | e
  · rcases hreq : depl.GetNumberOfServers w1 with ⟨r, w2⟩
    rcases r with e | req
    · simp [inspectCluster, hdb, hreq]
    · obtain ⟨hceq, hdeq⟩ := hstable w1 req w2 hreq
      rw [inspectCluster_same_counts m depl ci expectSuccess w w1 w2 req c d hc hd hdb hreq
        hceq hdeq]
      simp
  · simp [inspectCluster, hdb]

/-- C11: when the last known coordinator and dbserver counts are both set and the live cluster
reports counts equal to them (for each group it reports), `inspectCluster` returns nil, makes
no call but the two fetches (no `updateCRSpec`), records no pending update and leaves the last
known counts as they are; and any number of ticks with such reports leaves the integration
unchanged and writes nothing back. -/
theorem inspectCluster_no_write_back_when_stable (m : SpecMethods) (depl : Deployment σ)
    (ci : clusterScalingIntegration) (expectSuccess : Bool) (c d : Int)
    (hc : ci.lastNumberOfServers.Coordinators = some c)
    (hd : ci.lastNumberOfServers.DBServers = some d) :
    (∀ (w w1 w2 : σ) (req : NumberOfServers),
      depl.GetDatabase w = (none, w1) → depl.GetNumberOfServers w1 = (.ok req, w2) →
      (∀ x, req.Coordinators = some x → x = c) → (∀ y, req.DBServers = some y → y = d) →
      inspectCluster m depl ci expectSuccess w
      = ⟨none, ci, w2, [.GetDatabase, .GetNumberOfServers]⟩)
    ∧ ((∀ w req w1, depl.GetNumberOfServers w = (.ok req, w1) →
        (∀ x, req.Coordinators = some x → x = c) ∧ (∀ y, req.DBServers = some y → y = d)) →
      ∀ (n : Nat) (w : σ),
        (inspectRepeatedly m depl expectSuccess n ci w).ci = ci
        ∧ ∀ call ∈ (inspectRepeatedly m depl expectSuccess n ci w).calls,
            call = .GetDatabase ∨ call = .GetNumberOfServers) := by
  constructor
  · intro w w1 w2 req hdb hreq hceq hdeq
    exact inspectCluster_same_counts m depl ci expectSuccess w w1 w2 req c d hc hd hdb hreq
      hceq hdeq
  · intro hstable n
    induction n with
    | zero =>
      intro w
      simp [inspectRepeatedly]
    | succ n ih =>
      intro w
      obtain ⟨h1, h2⟩ := inspectCluster_stable m depl ci expectSuccess c d hc hd hstable w
      simp only [inspectRepeatedly, h1]
      obtain ⟨h3, h4⟩ := ih (inspectCluster m depl ci expectSuccess w).world
      refine ⟨h3, ?_⟩
      intro call hcall
      rcases List.mem_append.mp hcall with h | h
      · exact h2 call h
      · exact h4 call h

/-- C11 at the scenario of the specification: coordinators `min=2, max=5, count=3` and a live
cluster that reports three coordinators, once and over five ticks. -/
theorem inspectCluster_no_write_back_when_stable_witness :
    inspectCluster exampleMethods exampleDeployment settledIntegration true 3
      = ⟨none, settledIntegration, 3, [.GetDatabase, .GetNumberOfServers]⟩
    ∧ (inspectRepeatedly exampleMethods steadyDeployment true 5 settledIntegration 0).ci
      = settledIntegration
    ∧ ∀ call ∈ (inspectRepeatedly exampleMethods steadyDeployment true 5
        settledIntegration 0).calls, call = .GetDatabase ∨ call = .GetNumberOfServers :=
  ⟨(inspectCluster_no_write_back_when_stable exampleMethods exampleDeployment
      settledIntegration true 3 3 rfl rfl).1 3 3 3
      { Coordinators := some 3, DBServers := some 3 }
      rfl rfl (fun x hx => by injection hx with hx; exact hx.symm)
      (fun y hy => by injection hy with hy; exact hy.symm),
    (inspectCluster_no_write_back_when_stable exampleMethods steadyDeployment
      settledIntegration true 3 3 rfl rfl).2
      (fun w req w1 h => by
        have hreq : req = { Coordinators := some 3, DBServers := some 3 } := by
          simp only [steadyDeployment, Prod.mk.injEq, Except.ok.injEq] at h
          exact h.1.symm
        subst hreq
        exact ⟨fun x hx => by injection hx with hx; exact hx.symm,
          fun y hy => by injection hy with hy; exact hy.symm⟩) 5 0⟩

/-- The spec handed to `updateCRSpec` or validated: the stored spec with the count of each
changed group replaced by the live count. -/
theorem updatedSpec_eq (current : DeploymentSpec) (cc dc : Bool) (req : NumberOfServers) :
    updatedSpec current cc dc req
    = { current with
        Coordinators := { current.Coordinators with
          Count := if cc then some req.GetCoordinators else current.Coordinators.Count }
        DBServers := { current.DBServers with
          Count := if dc then some req.GetDBServers else current.DBServers.Count } } := by
  cases cc <;> cases dc <;> rfl

/-- The inspection up to the validation, when a count changed and the stored spec is read. -/
theorem inspectCluster_changed (m : SpecMethods) (depl : Deployment σ)
    (ci : clusterScalingIntegration) (expectSuccess : Bool) (w w1 w2 w3 : σ)
    (req : NumberOfServers) (current : DeploymentSpec) (cc dc : Bool)
    (hdb : depl.GetDatabase w = (none, w1))
    (hreq : depl.GetNumberOfServers w1 = (.ok req, w2))
    (hcc : countChanged req.Coordinators ci.lastNumberOfServers.Coordinators
      req.GetCoordinators ci.lastNumberOfServers.GetCoordinators = cc)
    (hdc : countChanged req.DBServers ci.lastNumberOfServers.DBServers
      req.GetDBServers ci.lastNumberOfServers.GetDBServers = dc)
    (hchanged : cc = true ∨ dc = true)
    (hcur : depl.GetCurrent w2 = (.ok current, w3)) :
    inspectCluster m depl ci expectSuccess w
    = match m.Validate (updatedSpec current cc dc req) with
      | some err =>
        ⟨none, SendUpdateToCluster ci current, depl.CreateEvent err w3,
          [.GetDatabase, .GetNumberOfServers, .GetCurrent, .CreateEvent err]⟩
      | none =>
        ⟨(depl.updateCRSpec (updatedSpec current cc dc req) w3).1, ci,
          (depl.updateCRSpec (updatedSpec current cc dc req) w3).2,
          [.GetDatabase, .GetNumberOfServers, .GetCurrent,
            .updateCRSpec (updatedSpec current cc dc req)]⟩ := by
  have hnone : (req.Coordinators == none && req.DBServers == none) = false := by
    rcases hchanged with h | h
    · rw [h] at hcc
      rcases hr : req.Coordinators with _ | x
      · simp [countChanged, hr] at hcc
      · simp
    · rw [h] at hdc
      rcases hr : req.DBServers with _ | x
      · simp [countChanged, hr] at hdc
      · simp
  have hany : (!cc && !dc) = false := by
    rcases hchanged with h | h <;> simp [h]
  simp only [inspectCluster, hdb, hreq, hnone, hcc, hdc, hany, hcur]
  rcases hv : m.Validate (updatedSpec current cc dc req) with _ | err
  · rcases hu : depl.updateCRSpec (updatedSpec current cc dc req) w3 with ⟨e, w4⟩
    rcases e with _ | e <;> simp
  · simp

/-- The coordinator count changed: both counts are set and they differ. -/
theorem coordinatorsChanged_iff (req last : NumberOfServers) :
    countChanged req.Coordinators last.Coordinators req.GetCoordinators last.GetCoordinators
      = true
    ↔ ∃ x c, req.Coordinators = some x ∧ last.Coordinators = some c ∧ x ≠ c := by
  rcases hr : req.Coordinators with _ | x <;> rcases hl : last.Coordinators with _ | c <;>
    simp [countChanged, NumberOfServers.GetCoordinators, hr, hl]

/-- The dbserver count changed: both counts are set and they differ. -/
theorem dbserversChanged_iff (req last : NumberOfServers) :
    countChanged req.DBServers last.DBServers req.GetDBServers last.GetDBServers = true
    ↔ ∃ y d, req.DBServers = some y ∧ last.DBServers = some d ∧ y ≠ d := by
  rcases hr : req.DBServers with _ | y <;> rcases hl : last.DBServers with _ | d <;>
    simp [countChanged, NumberOfServers.GetDBServers, hr, hl]

/-- C12: when the live cluster reports a count that differs from the set last known count for
the coordinators or for the dbservers, and the stored spec with the live count of each changed
group in place of `Count` passes `Validate`, then exactly that spec is written back through
`updateCRSpec`: the count of a group that did not change and every other field are those of
the stored spec. The write is the only change: the world after the inspection is the world
that `updateCRSpec` of that spec leaves, the error returned is the error of that write, and
the integration is unchanged. -/
theorem inspectCluster_writes_live_counts (m : SpecMethods) (depl : Deployment σ)
    (ci : clusterScalingIntegration) (expectSuccess : Bool) (w w1 w2 w3 : σ)
    (req : NumberOfServers) (current : DeploymentSpec) (cc dc : Bool)
    (hdb : depl.GetDatabase w = (none, w1))
    (hreq : depl.GetNumberOfServers w1 = (.ok req, w2))
    (hcc : cc = true ↔ ∃ x c, req.Coordinators = some x
      ∧ ci.lastNumberOfServers.Coordinators = some c ∧ x ≠ c)
    (hdc : dc = true ↔ ∃ y d, req.DBServers = some y
      ∧ ci.lastNumberOfServers.DBServers = some d ∧ y ≠ d)
    (hchanged : cc = true ∨ dc = true)
    (hcur : depl.GetCurrent w2 = (.ok current, w3))
    (hvalid : m.Validate
      { current with
        Coordinators := { current.Coordinators with
          Count := if cc then some req.GetCoordinators else current.Coordinators.Count }
        DBServers := { current.DBServers with
          Count := if dc then some req.GetDBServers else current.DBServers.Count } } = none) :
    (inspectCluster m depl ci expectSuccess w).calls
      = [.GetDatabase, .GetNumberOfServers, .GetCurrent,
          .updateCRSpec
            { current with
              Coordinators := { current.Coordinators with
                Count := if cc then some req.GetCoordinators
                  else current.Coordinators.Count }
              DBServers := { current.DBServers with
                Count := if dc then some req.GetDBServers else current.DBServers.Count } }]
    ∧ (inspectCluster m depl ci expectSuccess w).ci = ci
    ∧ (inspectCluster m depl ci expectSuccess w).world
      = (depl.updateCRSpec
          { current with
            Coordinators := { current.Coordinators with
              Count := if cc then some req.GetCoordinators
                else current.Coordinators.Count }
            DBServers := { current.DBServers with
              Count := if dc then some req.GetDBServers else current.DBServers.Count } }
          w3).2
    ∧ (inspectCluster m depl ci expectSuccess w).result
      = (depl.updateCRSpec
          { current with
            Coordinators := { current.Coordinators with
              Count := if cc then some req.GetCoordinators
                else current.Coordinators.Count }
            DBServers := { current.DBServers with
              Count := if dc then some req.GetDBServers else current.DBServers.Count } }
          w3).1 := by
  have hcc1 : countChanged req.Coordinators ci.lastNumberOfServers.Coordinators
      req.GetCoordinators ci.lastNumberOfServers.GetCoordinators = cc := by
    rw [Bool.eq_iff_iff, coordinatorsChanged_iff]
    exact hcc.symm
  have hdc1 : countChanged req.DBServers ci.lastNumberOfServers.DBServers
      req.GetDBServers ci.lastNumberOfServers.GetDBServers = dc := by
    rw [Bool.eq_iff_iff, dbserversChanged_iff]
    exact hdc.symm
  rw [← updatedSpec_eq] at hvalid ⊢
  rw [inspectCluster_changed m depl ci expectSuccess w w1 w2 w3 req current cc dc hdb hreq
    hcc1 hdc1 hchanged hcur, hvalid]
  exact ⟨rfl, rfl, rfl, rfl⟩

/-- C12 at the scenario of the specification: last known 3 coordinators, the live cluster
reports 4, bounds `[2,5]`: the stored spec with `count=4` is written back, and the world
carries the trace of the accepted write (4 + 100). -/
theorem inspectCluster_writes_live_counts_witness :
    (inspectCluster exampleMethods writingDeployment settledIntegration true 4).calls
      = [.GetDatabase, .GetNumberOfServers, .GetCurrent,
          .updateCRSpec
            { Coordinators := { Count := some 4, MinCount := some 2, MaxCount := some 5 }
              DBServers := { Count := some 3, MinCount := some 3, MaxCount := some 3 } }]
    ∧ (inspectCluster exampleMethods writingDeployment settledIntegration true 4).ci
      = settledIntegration
    ∧ (inspectCluster exampleMethods writingDeployment settledIntegration true 4).world = 104
    ∧ (inspectCluster exampleMethods writingDeployment settledIntegration true 4).result
      = none :=
  inspectCluster_writes_live_counts exampleMethods writingDeployment settledIntegration true
    4 4 4 4 { Coordinators := some 4, DBServers := some 3 } storedSpec true false rfl rfl
    ⟨fun _ => ⟨4, 3, rfl, rfl, by decide⟩, fun _ => rfl⟩
    ⟨fun h => Bool.noConfusion h, fun ⟨y, d, hy, hd, hne⟩ => by
      injection hy with hy
      injection hd with hd
      exact absurd (hy.symm.trans hd) hne⟩
    (Or.inl rfl) rfl (by decide)

/-- C13: when the stored spec with the live counts in place fails `Validate`, `updateCRSpec` is
not called, an event is created, the stored spec as it was read is recorded as the pending
update, and `inspectCluster` returns nil. -/
theorem inspectCluster_restores_on_invalid (m : SpecMethods) (depl : Deployment σ)
    (ci : clusterScalingIntegration) (expectSuccess : Bool) (w w1 w2 w3 : σ)
    (req : NumberOfServers) (current : DeploymentSpec) (cc dc : Bool) (err : Error)
    (hdb : depl.GetDatabase w = (none, w1))
    (hreq : depl.GetNumberOfServers w1 = (.ok req, w2))
    (hcc : cc = true ↔ ∃ x c, req.Coordinators = some x
      ∧ ci.lastNumberOfServers.Coordinators = some c ∧ x ≠ c)
    (hdc : dc = true ↔ ∃ y d, req.DBServers = some y
      ∧ ci.lastNumberOfServers.DBServers = some d ∧ y ≠ d)
    (hchanged : cc = true ∨ dc = true)
    (hcur : depl.GetCurrent w2 = (.ok current, w3))
    (hinvalid : m.Validate
      { current with
        Coordinators := { current.Coordinators with
          Count := if cc then some req.GetCoordinators else current.Coordinators.Count }
        DBServers := { current.DBServers with
          Count := if dc then some req.GetDBServers else current.DBServers.Count } }
      = some err) :
    inspectCluster m depl ci expectSuccess w
      = ⟨none, { ci with pendingUpdate := some current }, depl.CreateEvent err w3,
          [.GetDatabase, .GetNumberOfServers, .GetCurrent, .CreateEvent err]⟩
    ∧ (∀ spec, Call.updateCRSpec spec ∉ (inspectCluster m depl ci expectSuccess w).calls)
    ∧ (inspectCluster m depl ci expectSuccess w).result = none
    ∧ (inspectCluster m depl ci expectSuccess w).ci.pendingUpdate = some current := by
  have hcc1 : countChanged req.Coordinators ci.lastNumberOfServers.Coordinators
      req.GetCoordinators ci.lastNumberOfServers.GetCoordinators = cc := by
    rw [Bool.eq_iff_iff, coordinatorsChanged_iff]
    exact hcc.symm
  have hdc1 : countChanged req.DBServers ci.lastNumberOfServers.DBServers
      req.GetDBServers ci.lastNumberOfServers.GetDBServers = dc := by
    rw [Bool.eq_iff_iff, dbserversChanged_iff]
    exact hdc.symm
  rw [← updatedSpec_eq] at hinvalid
  rw [inspectCluster_changed m depl ci expectSuccess w w1 w2 w3 req current cc dc hdb hreq
    hcc1 hdc1 hchanged hcur, hinvalid]
  refine ⟨rfl, ?_, rfl, rfl⟩
  intro spec hmem
  simp at hmem

/-- C13 at the scenario of the specification: last known 3 coordinators, the live cluster
reports 6, bounds `[2,5]`: nothing is written back and the stored spec with `count=3` is to be
pushed to the cluster. -/
theorem inspectCluster_restores_on_invalid_witness :
    inspectCluster exampleMethods exampleDeployment settledIntegration true 6
    = ⟨none, { settledIntegration with pendingUpdate := some storedSpec }, 6,
        [.GetDatabase, .GetNumberOfServers, .GetCurrent,
          .CreateEvent (.Other "Invalid count value")]⟩ :=
  (inspectCluster_restores_on_invalid exampleMethods exampleDeployment settledIntegration true
    6 6 6 6 { Coordinators := some 6, DBServers := some 3 } storedSpec true false
    (.Other "Invalid count value") rfl rfl
    ⟨fun _ => ⟨6, 3, rfl, rfl, by decide⟩, fun _ => rfl⟩
    ⟨fun h => Bool.noConfusion h, fun ⟨y, d, hy, hd, hne⟩ => by
      injection hy with hy
      injection hd with hd
      exact absurd (hy.symm.trans hd) hne⟩
    (Or.inl rfl) rfl (by decide)).1

/-- C14: without a pending spec `updateClusterServerCount` returns `(true, nil)` and makes no
call. With a pending spec it calls `SetNumberOfServers` exactly when the current coordinator
count or the current dbserver count differs from the last pushed one, once, and the value
given for a group is nil when the minimum and the maximum count of that group in the pending
spec are equal and the current count otherwise. The call is really made: the world after is
the world that `SetNumberOfServers` with these values leaves; when it fails the result is
`(false, err)` with its error and the integration is unchanged, when it succeeds the result is
`(true, nil)`, the pending spec is cleared and the current counts are recorded as the last
pushed ones. When no count differs the world is untouched, the result is `(true, nil)`, and
the pending spec is cleared with the current counts recorded. -/
theorem updateClusterServerCount_push (m : SpecMethods) (depl : Deployment σ)
    (ci : clusterScalingIntegration) (expectSuccess : Bool) (w : σ) :
    (ci.pendingUpdate = none →
      updateClusterServerCount m depl ci expectSuccess w = ⟨(true, none), ci, w, []⟩)
    ∧ (∀ spec, ci.pendingUpdate = some spec →
      ((((depl.GetStatus w).Members.Coordinators.length : Int)
            ≠ ci.lastNumberOfServers.GetCoordinators
          ∨ ((depl.GetStatus w).Members.DBServers.length : Int)
            ≠ ci.lastNumberOfServers.GetDBServers) →
        (updateClusterServerCount m depl ci expectSuccess w).calls
        = [.SetNumberOfServers
            (if m.GetMaxCount spec.Coordinators = m.GetMinCount spec.Coordinators then none
              else some ((depl.GetStatus w).Members.Coordinators.length : Int))
            (if m.GetMaxCount spec.DBServers = m.GetMinCount spec.DBServers then none
              else some ((depl.GetStatus w).Members.DBServers.length : Int))]
        ∧ (updateClusterServerCount m depl ci expectSuccess w).world
          = (depl.SetNumberOfServers
              (if m.GetMaxCount spec.Coordinators = m.GetMinCount spec.Coordinators then none
                else some ((depl.GetStatus w).Members.Coordinators.length : Int))
              (if m.GetMaxCount spec.DBServers = m.GetMinCount spec.DBServers then none
                else some ((depl.GetStatus w).Members.DBServers.length : Int)) w).2
        ∧ (∀ err, (depl.SetNumberOfServers
              (if m.GetMaxCount spec.Coordinators = m.GetMinCount spec.Coordinators then none
                else some ((depl.GetStatus w).Members.Coordinators.length : Int))
              (if m.GetMaxCount spec.DBServers = m.GetMinCount spec.DBServers then none
                else some ((depl.GetStatus w).Members.DBServers.length : Int)) w).1
              = some err →
            (updateClusterServerCount m depl ci expectSuccess w).result = (false, some err)
            ∧ (updateClusterServerCount m depl ci expectSuccess w).ci = ci)
        ∧ ((depl.SetNumberOfServers
              (if m.GetMaxCount spec.Coordinators = m.GetMinCount spec.Coordinators then none
                else some ((depl.GetStatus w).Members.Coordinators.length : Int))
              (if m.GetMaxCount spec.DBServers = m.GetMinCount spec.DBServers then none
                else some ((depl.GetStatus w).Members.DBServers.length : Int)) w).1 = none →
            (updateClusterServerCount m depl ci expectSuccess w).result = (true, none)
            ∧ (updateClusterServerCount m depl ci expectSuccess w).ci
              = { ci with
                  pendingUpdate := none
                  lastNumberOfServers :=
                    { Coordinators := some ((depl.GetStatus w).Members.Coordinators.length : Int)
                      DBServers := some ((depl.GetStatus w).Members.DBServers.length : Int) } }))
      ∧ (¬ (((depl.GetStatus w).Members.Coordinators.length : Int)
            ≠ ci.lastNumberOfServers.GetCoordinators
          ∨ ((depl.GetStatus w).Members.DBServers.length : Int)
            ≠ ci.lastNumberOfServers.GetDBServers) →
        (updateClusterServerCount m depl ci expectSuccess w).calls = []
        ∧ updateClusterServerCount m depl ci expectSuccess w
          = ⟨(true, none),
              { ci with
                pendingUpdate := none
                lastNumberOfServers :=
                  { Coordinators := some ((depl.GetStatus w).Members.Coordinators.length : Int)
                    DBServers := some ((depl.GetStatus w).Members.DBServers.length : Int) } },
              w, []⟩)) := by
  constructor
  · intro h
    simp [updateClusterServerCount, h]
  · intro spec h
    constructor
    · intro hdiff
      have hcond : (((depl.GetStatus w).Members.Coordinators.length : Int)
            != ci.lastNumberOfServers.GetCoordinators
          || ((depl.GetStatus w).Members.DBServers.length : Int)
            != ci.lastNumberOfServers.GetDBServers) = true := by
        simpa using hdiff
      simp only [updateClusterServerCount, h, getNumbersOfServers, GetLastNumberOfServers,
        hcond, if_true]
      simp only [beq_iff_eq]
      rcases hset : depl.SetNumberOfServers
          (if m.GetMaxCount spec.Coordinators = m.GetMinCount spec.Coordinators then none
            else some ((depl.GetStatus w).Members.Coordinators.length : Int))
          (if m.GetMaxCount spec.DBServers = m.GetMinCount spec.DBServers then none
            else some ((depl.GetStatus w).Members.DBServers.length : Int)) w with ⟨r, w1⟩
      rcases r with _ | err <;> simp
    · intro hsame
      have hcond : (((depl.GetStatus w).Members.Coordinators.length : Int)
            != ci.lastNumberOfServers.GetCoordinators
          || ((depl.GetStatus w).Members.DBServers.length : Int)
            != ci.lastNumberOfServers.GetDBServers) = false := by
        simpa using hsame
      simp only [updateClusterServerCount, h, getNumbersOfServers, GetLastNumberOfServers,
        hcond]
      simp

/-- C14 at concrete inputs: three coordinators and three dbservers against two and three
pushed last; the coordinators scale between 2 and 5, the dbservers are fixed at 3. On the
accepting cluster the call is counted in the world, the pending spec is cleared and the counts
are recorded; on the refusing cluster the call is counted, the error is returned and the
integration is unchanged. -/
theorem updateClusterServerCount_push_witness :
    ((updateClusterServerCount exampleMethods acceptingDeployment
        { pendingUpdate := some storedSpec
          lastNumberOfServers := { Coordinators := some 2, DBServers := some 3 } }
        true 0).calls
      = [.SetNumberOfServers (some 3) none]
    ∧ (updateClusterServerCount exampleMethods acceptingDeployment
        { pendingUpdate := some storedSpec
          lastNumberOfServers := { Coordinators := some 2, DBServers := some 3 } }
        true 0).world = 1
    ∧ (updateClusterServerCount exampleMethods acceptingDeployment
        { pendingUpdate := some storedSpec
          lastNumberOfServers := { Coordinators := some 2, DBServers := some 3 } }
        true 0).result = (true, none)
    ∧ (updateClusterServerCount exampleMethods acceptingDeployment
        { pendingUpdate := some storedSpec
          lastNumberOfServers := { Coordinators := some 2, DBServers := some 3 } }
        true 0).ci
      = { pendingUpdate := none
          lastNumberOfServers := { Coordinators := some 3, DBServers := some 3 } })
    ∧ ((updateClusterServerCount exampleMethods refusingDeployment
        { pendingUpdate := some storedSpec
          lastNumberOfServers := { Coordinators := some 2, DBServers := some 3 } }
        true 0).world = 1
    ∧ (updateClusterServerCount exampleMethods refusingDeployment
        { pendingUpdate := some storedSpec
          lastNumberOfServers := { Coordinators := some 2, DBServers := some 3 } }
        true 0).result = (false, some (.Other "cluster unreachable"))) :=
  ⟨⟨(((updateClusterServerCount_push exampleMethods acceptingDeployment
      { pendingUpdate := some storedSpec
        lastNumberOfServers := { Coordinators := some 2, DBServers := some 3 } }
      true 0).2 storedSpec rfl).1 (Or.inl (by decide))).1,
    (((updateClusterServerCount_push exampleMethods acceptingDeployment
      { pendingUpdate := some storedSpec
        lastNumberOfServers := { Coordinators := some 2, DBServers := some 3 } }
      true 0).2 storedSpec rfl).1 (Or.inl (by decide))).2.1,
    ((((updateClusterServerCount_push exampleMethods acceptingDeployment
      { pendingUpdate := some storedSpec
        lastNumberOfServers := { Coordinators := some 2, DBServers := some 3 } }
      true 0).2 storedSpec rfl).1 (Or.inl (by decide))).2.2.2 rfl).1,
    ((((updateClusterServerCount_push exampleMethods acceptingDeployment
      { pendingUpdate := some storedSpec
        lastNumberOfServers := { Coordinators := some 2, DBServers := some 3 } }
      true 0).2 storedSpec rfl).1 (Or.inl (by decide))).2.2.2 rfl).2⟩,
    (((updateClusterServerCount_push exampleMethods refusingDeployment
      { pendingUpdate := some storedSpec
        lastNumberOfServers := { Coordinators := some 2, DBServers := some 3 } }
      true 0).2 storedSpec rfl).1 (Or.inl (by decide))).2.1,
    ((((updateClusterServerCount_push exampleMethods refusingDeployment
      { pendingUpdate := some storedSpec
        lastNumberOfServers := { Coordinators := some 2, DBServers := some 3 } }
      true 0).2 storedSpec rfl).1 (Or.inl (by decide))).2.2.1
        (.Other "cluster unreachable") rfl).1⟩

/-- The push step makes no call of the inspection. -/
theorem updateClusterServerCount_calls (m : SpecMethods) (depl : Deployment σ)
    (ci : clusterScalingIntegration) (expectSuccess : Bool) (w : σ) :
    ∀ call ∈ (updateClusterServerCount m depl ci expectSuccess w).calls,
      call.isInspection = false := by
  rcases hp : ci.pendingUpdate with _ | spec
  · simp [updateClusterServerCount, hp]
  · simp only [updateClusterServerCount, hp]
    split
    · split <;> simp [Call.isInspection]
    · simp

/-- The attempt to turn scaling on again makes no call of the inspection. -/
theorem enable_calls (depl : Deployment σ) (ci : clusterScalingIntegration) (w : σ) :
    ∀ call ∈ (checkScalingCluster.enable depl ci w).calls, call.isInspection = false := by
  simp only [checkScalingCluster.enable]
  split
  · split
    · split <;> simp [Call.isInspection]
    · simp
  · simp

/-- Every inspection starts with the call of `GetDatabase`. -/
theorem inspectCluster_calls_head (m : SpecMethods) (depl : Deployment σ)
    (ci : clusterScalingIntegration) (expectSuccess : Bool) (w : σ) :
    Call.GetDatabase ∈ (inspectCluster m depl ci expectSuccess w).calls := by
  simp only [inspectCluster]
  repeat' split
  all_goals simp

/-- C15: `checkScalingCluster` runs `inspectCluster` exactly when the scaling integration is
enabled in the config, the phase is Running, the scale-enabled flag is true (after the attempt
to turn it on again) and the push step `updateClusterServerCount` returned `(true, nil)`; it
then returns true exactly when the inspection returned nil. In every other case it returns
false and makes no call of the inspection: no fetch and no write-back. -/
theorem checkScalingCluster_inspects_after_push (m : SpecMethods) (depl : Deployment σ)
    (ci : clusterScalingIntegration) (expectSuccess : Bool) (w : σ) :
    let en := checkScalingCluster.enable depl ci w
    let push := updateClusterServerCount m depl en.ci expectSuccess en.world
    let inspect := inspectCluster m depl push.ci expectSuccess push.world
    let r := checkScalingCluster m depl ci expectSuccess w
    ((depl.ScalingIntegrationEnabled = true ∧ depl.GetPhase en.world = .Running
        ∧ en.ci.scaleEnabled = true ∧ push.result = (true, none)) →
      r.calls = en.calls ++ push.calls ++ inspect.calls
      ∧ r.ci = inspect.ci ∧ r.world = inspect.world
      ∧ (r.result = true ↔ inspect.result = none))
    ∧ (¬ (depl.ScalingIntegrationEnabled = true ∧ depl.GetPhase en.world = .Running
        ∧ en.ci.scaleEnabled = true ∧ push.result = (true, none)) →
      r.result = false ∧ ∀ call ∈ r.calls, call.isInspection = false)
    ∧ (Call.GetDatabase ∈ r.calls →
      depl.ScalingIntegrationEnabled = true ∧ depl.GetPhase en.world = .Running
        ∧ en.ci.scaleEnabled = true ∧ push.result = (true, none)) := by
  have hen := enable_calls depl ci w
  have hen1 : Call.GetDatabase ∉ (checkScalingCluster.enable depl ci w).calls :=
    fun h => Bool.noConfusion (hen _ h)
  have hpush := updateClusterServerCount_calls m depl (checkScalingCluster.enable depl ci w).ci
    expectSuccess (checkScalingCluster.enable depl ci w).world
  have hpush1 : Call.GetDatabase ∉ (updateClusterServerCount m depl
      (checkScalingCluster.enable depl ci w).ci expectSuccess
      (checkScalingCluster.enable depl ci w).world).calls :=
    fun h => Bool.noConfusion (hpush _ h)
  unfold checkScalingCluster
  dsimp only
  generalize checkScalingCluster.enable depl ci w = en at hen hen1 hpush hpush1 ⊢
  generalize updateClusterServerCount m depl en.ci expectSuccess en.world = push
    at hpush hpush1 ⊢
  generalize inspectCluster m depl push.ci expectSuccess push.world = inspect
  rcases push with ⟨⟨safe, perr⟩, pci, pw, pcalls⟩
  rcases inspect with ⟨ires, ici, iw, icalls⟩
  have hboth : ∀ call ∈ en.calls ++ pcalls, call.isInspection = false := by
    intro call hc
    rcases List.mem_append.mp hc with h | h
    · exact hen call h
    · exact hpush call h
  have hboth1 : Call.GetDatabase ∉ en.calls ++ pcalls :=
    fun h => Bool.noConfusion (hboth _ h)
  rcases Bool.eq_false_or_eq_true depl.ScalingIntegrationEnabled with h1 | h1 <;>
    rcases Bool.eq_false_or_eq_true en.ci.scaleEnabled with h3 | h3 <;>
    rcases safe with _ | _ <;> rcases perr with _ | perr <;> rcases ires with _ | ires <;>
    by_cases h2 : depl.GetPhase en.world = .Running <;>
    simp_all

/-- C15 at concrete inputs: with scaling enabled, phase Running and nothing pending the
inspection runs and `checkScalingCluster` returns true; with the flag off and a plan that is
not empty nothing is fetched and it returns false. -/
theorem checkScalingCluster_inspects_after_push_witness :
    ((checkScalingCluster exampleMethods exampleDeployment settledIntegration true 3).calls
        = [.GetDatabase, .GetNumberOfServers]
      ∧ (checkScalingCluster exampleMethods exampleDeployment settledIntegration true 3).result
        = true)
    ∧ (checkScalingCluster exampleMethods
        { exampleDeployment with GetStatus := fun _ => { Plan := [reconcile.idle] } }
        { settledIntegration with scaleEnabled := false } true 3).result = false :=
  ⟨⟨((checkScalingCluster_inspects_after_push exampleMethods exampleDeployment
        settledIntegration true 3).1 ⟨rfl, rfl, rfl, rfl⟩).1,
      ((checkScalingCluster_inspects_after_push exampleMethods exampleDeployment
        settledIntegration true 3).1 ⟨rfl, rfl, rfl, rfl⟩).2.2.2.mpr rfl⟩,
    ((checkScalingCluster_inspects_after_push exampleMethods
      { exampleDeployment with GetStatus := fun _ => { Plan := [reconcile.idle] } }
      { settledIntegration with scaleEnabled := false } true 3).2.1
      (fun h => Bool.noConfusion h.2.2.1)).1⟩

/-- C29: the scale-enabled flag changes only on a successful remote call. A new integration
starts enabled. `DisableScalingCluster` makes the one call `SetNumberOfServers(nil, nil)`; when
it succeeds the flag is false afterwards and nil is returned, when it fails the error is
returned and the integration is unchanged. `EnableScalingCluster` with the flag already true
returns nil, makes no call and changes nothing; with the flag false it makes the one call that
pushes the current member counts, and sets the flag to true and returns nil when that
succeeds, and returns the error with the integration unchanged (flag false) when it fails. -/
theorem scaleEnabled_changes_on_success (depl : Deployment σ)
    (ci : clusterScalingIntegration) (w : σ) :
    newClusterScalingIntegration.scaleEnabled = true
    ∧ (∀ w1, depl.SetNumberOfServers none none w = (none, w1) →
        DisableScalingCluster depl ci w
        = ⟨none, { ci with scaleEnabled := false }, w1, [.SetNumberOfServers none none]⟩)
    ∧ (∀ err w1, depl.SetNumberOfServers none none w = (some err, w1) →
        DisableScalingCluster depl ci w = ⟨some err, ci, w1, [.SetNumberOfServers none none]⟩)
    ∧ (ci.scaleEnabled = true → EnableScalingCluster depl ci w = ⟨none, ci, w, []⟩)
    ∧ (ci.scaleEnabled = false →
        (∀ w1, depl.SetNumberOfServers (some (getNumbersOfServers depl w).1)
            (some (getNumbersOfServers depl w).2) w = (none, w1) →
          EnableScalingCluster depl ci w
          = ⟨none, { ci with scaleEnabled := true }, w1,
              [.SetNumberOfServers (some (getNumbersOfServers depl w).1)
                (some (getNumbersOfServers depl w).2)]⟩)
        ∧ (∀ err w1, depl.SetNumberOfServers (some (getNumbersOfServers depl w).1)
            (some (getNumbersOfServers depl w).2) w = (some err, w1) →
          EnableScalingCluster depl ci w
          = ⟨some err, ci, w1,
              [.SetNumberOfServers (some (getNumbersOfServers depl w).1)
                (some (getNumbersOfServers depl w).2)]⟩
          ∧ (EnableScalingCluster depl ci w).ci.scaleEnabled = false)) := by
  refine ⟨rfl, ?_, ?_, ?_, ?_⟩
  · intro w1 h
    simp only [DisableScalingCluster, h]
  · intro err w1 h
    simp only [DisableScalingCluster, h]
  · intro h
    simp only [EnableScalingCluster, h, if_true]
  · intro h
    constructor
    · intro w1 h1
      simp [EnableScalingCluster, setNumberOfServers, h, h1]
    · intro err w1 h1
      simp [EnableScalingCluster, setNumberOfServers, h, h1]

/-- C29 at concrete inputs: disabling a new integration succeeds on the accepting cluster and
fails, flag kept, on the refusing one; enabling with the flag false pushes three coordinators
and three dbservers and leaves the flag false when the cluster refuses. -/
theorem scaleEnabled_changes_on_success_witness :
    DisableScalingCluster acceptingDeployment newClusterScalingIntegration 0
      = ⟨none, { scaleEnabled := false }, 1, [.SetNumberOfServers none none]⟩
    ∧ DisableScalingCluster refusingDeployment newClusterScalingIntegration 0
      = ⟨some (.Other "cluster unreachable"), newClusterScalingIntegration, 1,
          [.SetNumberOfServers none none]⟩
    ∧ EnableScalingCluster refusingDeployment newClusterScalingIntegration 0
      = ⟨none, newClusterScalingIntegration, 0, []⟩
    ∧ EnableScalingCluster acceptingDeployment {} 0
      = ⟨none, { scaleEnabled := true }, 1, [.SetNumberOfServers (some 3) (some 3)]⟩
    ∧ (EnableScalingCluster refusingDeployment {} 0).ci.scaleEnabled = false :=
  ⟨(scaleEnabled_changes_on_success acceptingDeployment newClusterScalingIntegration 0).2.1 1
      rfl,
    (scaleEnabled_changes_on_success refusingDeployment newClusterScalingIntegration 0).2.2.1
      (.Other "cluster unreachable") 1 rfl,
    (scaleEnabled_changes_on_success refusingDeployment newClusterScalingIntegration 0).2.2.2.1
      rfl,
    ((scaleEnabled_changes_on_success acceptingDeployment {} 0).2.2.2.2 rfl).1 1 rfl,
    (((scaleEnabled_changes_on_success refusingDeployment {} 0).2.2.2.2 rfl).2
      (.Other "cluster unreachable") 1 rfl).2⟩

end scaling

end deployment

namespace resources

/-- No statement of `SelectImage` reaches the status of the caller. -/
theorem SelectImage_callerStatus (spec : DeploymentSpec) (status : deployment.DeploymentStatus) :
    (SelectImage spec status).callerStatus = status := by
  unfold SelectImage
  split
  · rfl
  · split <;> rfl

/-- C26: at a status that has no current image and knows the image of the spec, `SelectImage`
returns that image info with true and sets `CurrentImage` on its own copy of the status; the
status of the caller still has no current image afterwards. -/
theorem SelectImage_saves_to_its_copy :
    (SelectImage imageSpec imageStatus).imageInfo = knownImage
    ∧ (SelectImage imageSpec imageStatus).found = true
    ∧ (SelectImage imageSpec imageStatus).status.CurrentImage = some knownImage
    ∧ (SelectImage imageSpec imageStatus).callerStatus = imageStatus
    ∧ (SelectImage imageSpec imageStatus).callerStatus.CurrentImage = none := by
  decide

/-- The copy of a pod has the contents of the pod. -/
theorem Pod_DeepCopy_eq (p : Pod) : Pod.DeepCopy p = p := rfl

/-- The checksum is that of the pod spec with the init containers replaced: by the containers
of the group spec in update mode, by none in every other mode. -/
theorem ChecksumArangoPod_eq (modeDefault : ServerGroupInitContainerMode)
    (Marshal : PodSpec → Except Error String) (SHA256 : String → String)
    (groupSpec : ServerGroupSpec) (pod : Pod) :
    ChecksumArangoPod modeDefault Marshal SHA256 groupSpec pod
    = match Marshal { pod.Spec with
        InitContainers :=
          if ServerGroupInitContainerMode.Get modeDefault
              (ServerGroupInitContainers.GetMode groupSpec.InitContainers)
              = .ServerGroupInitContainerUpdateMode
          then ServerGroupInitContainers.GetContainers groupSpec.InitContainers
          else [] } with
      | .error err => ⟨"", some err, pod⟩
      | .ok data => ⟨SHA256 data, none, pod⟩ := by
  unfold ChecksumArangoPod
  simp only [Pod_DeepCopy_eq]
  cases ServerGroupInitContainerMode.Get modeDefault
    (ServerGroupInitContainers.GetMode groupSpec.InitContainers) <;> simp

/-- C30: `ChecksumArangoPod` does not depend on the init containers or the metadata of the
pod and does not modify it. For every group spec and two pods whose specs are equal apart
from the init containers (their metadata may differ), the two calls return the same checksum
and error; the init containers that enter the checksum are the containers of the group spec
in update mode and none in every other mode; and the pod is unchanged after the call. -/
theorem ChecksumArangoPod_ignores_initContainers (modeDefault : ServerGroupInitContainerMode)
    (Marshal : PodSpec → Except Error String) (SHA256 : String → String)
    (groupSpec : ServerGroupSpec) (pod1 pod2 : Pod)
    (h : { pod1.Spec with InitContainers := [] } = { pod2.Spec with InitContainers := [] }) :
    (ChecksumArangoPod modeDefault Marshal SHA256 groupSpec pod1).checksum
      = (ChecksumArangoPod modeDefault Marshal SHA256 groupSpec pod2).checksum
    ∧ (ChecksumArangoPod modeDefault Marshal SHA256 groupSpec pod1).err
      = (ChecksumArangoPod modeDefault Marshal SHA256 groupSpec pod2).err
    ∧ (ChecksumArangoPod modeDefault Marshal SHA256 groupSpec pod1).pod = pod1
    ∧ (ChecksumArangoPod modeDefault Marshal SHA256 groupSpec pod2).pod = pod2
    ∧ ((ChecksumArangoPod modeDefault Marshal SHA256 groupSpec pod1).checksum,
        (ChecksumArangoPod modeDefault Marshal SHA256 groupSpec pod1).err)
      = match Marshal { pod1.Spec with
          InitContainers :=
            if ServerGroupInitContainerMode.Get modeDefault
                (ServerGroupInitContainers.GetMode groupSpec.InitContainers)
                = .ServerGroupInitContainerUpdateMode
            then ServerGroupInitContainers.GetContainers groupSpec.InitContainers
            else [] } with
        | .error err => ("", some err)
        | .ok data => (SHA256 data, none) := by
  have hspec : ∀ l : List Container,
      { pod1.Spec with InitContainers := l } = { pod2.Spec with InitContainers := l } := by
    intro l
    simp only [PodSpec.mk.injEq] at h ⊢
    simp only [h, and_self]
  rw [ChecksumArangoPod_eq, ChecksumArangoPod_eq, hspec]
  refine ⟨?_, ?_, ?_, ?_, ?_⟩
  · split <;> rfl
  · split <;> rfl
  · split <;> rfl
  · split <;> rfl
  · split <;> rfl

/-- C30 at concrete inputs: two pods with other names, other finalizers and other init
containers and the same scheduler get the same checksum, that of the init container of the
group spec; the pod is as before. -/
theorem ChecksumArangoPod_ignores_initContainers_witness :
    (ChecksumArangoPod .ServerGroupInitContainerUpdateMode exampleMarshal exampleSHA256
        updateGroupSpec
        { Name := "pod-a", Spec := { SchedulerName := "s", InitContainers := [{ Name := "x" }] } }
      ).checksum
      = (ChecksumArangoPod .ServerGroupInitContainerUpdateMode exampleMarshal exampleSHA256
        updateGroupSpec
        { Name := "pod-b", Finalizers := ["f"], Spec := { SchedulerName := "s" } }).checksum
    ∧ (ChecksumArangoPod .ServerGroupInitContainerUpdateMode exampleMarshal exampleSHA256
        updateGroupSpec
        { Name := "pod-a", Spec := { SchedulerName := "s", InitContainers := [{ Name := "x" }] } }
      ).checksum = "sha256:s;;user-init" :=
  ⟨(ChecksumArangoPod_ignores_initContainers .ServerGroupInitContainerUpdateMode exampleMarshal
      exampleSHA256 updateGroupSpec
      { Name := "pod-a", Spec := { SchedulerName := "s", InitContainers := [{ Name := "x" }] } }
      { Name := "pod-b", Finalizers := ["f"], Spec := { SchedulerName := "s" } }
      (by decide)).1,
    by decide⟩

/-- The `--foxx.queues` options of two collections put together. -/
theorem foxxQueues_append (a b : OptionPairs) :
    foxxQueues (a ++ b) = foxxQueues a ++ foxxQueues b := by
  simp [foxxQueues]

/-- Adding an option with another key adds no `--foxx.queues` option. -/
theorem foxxQueues_Add_other (o : OptionPairs) (key : String) (value : OptionValue)
    (hkey : (key == "--foxx.queues") = false) :
    foxxQueues (o.Add key value) = foxxQueues o := by
  simp [foxxQueues, OptionPairs.Add, List.filter_cons, hkey]

/-- Adding a `--foxx.queues` option adds it at the end. -/
theorem foxxQueues_Add_same (o : OptionPairs) (value : OptionValue) :
    foxxQueues (o.Add "--foxx.queues" value) = foxxQueues o ++ [⟨"--foxx.queues", value⟩] := by
  simp [foxxQueues, OptionPairs.Add, List.filter_cons]

/-- The loop over the other agents adds no `--foxx.queues` option. -/
theorem agencyEndpoints_foxxQueues (h : ArgsHelpers) (cachedStatus : Inspector) (input : Input)
    (scheme : String) (agents : List MemberStatus) (options result : OptionPairs)
    (hres : agencyEndpoints h cachedStatus input scheme agents options = .ok result) :
    foxxQueues result = foxxQueues options := by
  induction agents generalizing options with
  | nil =>
    simp only [agencyEndpoints, Except.ok.injEq] at hres
    rw [hres]
  | cons p rest ih =>
    simp only [agencyEndpoints] at hres
    split at hres
    · split at hres
      · simp at hres
      · rw [ih _ hres]
        exact foxxQueues_Add_other _ _ _ (by decide)
    · exact ih _ hres

/-- The loop over the agents adds no `--foxx.queues` option. -/
theorem clusterAgencyEndpoints_foxxQueues (h : ArgsHelpers) (cachedStatus : Inspector)
    (input : Input) (scheme : String) (agents : List MemberStatus)
    (options result : OptionPairs)
    (hres : clusterAgencyEndpoints h cachedStatus input scheme agents options = .ok result) :
    foxxQueues result = foxxQueues options := by
  induction agents generalizing options with
  | nil =>
    simp only [clusterAgencyEndpoints, Except.ok.injEq] at hres
    rw [hres]
  | cons p rest ih =>
    simp only [clusterAgencyEndpoints] at hres
    split at hres
    · simp at hres
    · rw [ih _ hres]
      exact foxxQueues_Add_other _ _ _ (by decide)

/-- The switch on the group adds the expected `--foxx.queues` options and no other. -/
theorem groupSwitch_foxxQueues (h : ArgsHelpers) (cachedStatus : Inspector) (input : Input)
    (scheme myTCPURL : String) (options result : OptionPairs) (addAgentEndpoints : Bool)
    (hres : groupSwitch h cachedStatus input scheme myTCPURL options
      = .ok (result, addAgentEndpoints)) :
    foxxQueues result = foxxQueues options ++ expectedFoxxQueues input := by
  unfold groupSwitch at hres
  unfold expectedFoxxQueues
  split at hres
  · dsimp only at hres
    split at hres
    · simp at hres
    · rename_i o1 hloop
      simp only [Except.ok.injEq, Prod.mk.injEq] at hres
      rw [← hres.1, agencyEndpoints_foxxQueues _ _ _ _ _ _ _ hloop]
      simp [foxxQueues, OptionPairs.Add, OptionPairs.Addf, List.filter_cons]
  · simp only [Except.ok.injEq, Prod.mk.injEq] at hres
    rw [← hres.1]
    simp [foxxQueues, OptionPairs.Add, List.filter_cons]
  · simp only [Except.ok.injEq, Prod.mk.injEq] at hres
    rw [← hres.1]
    split <;> simp [foxxQueues, OptionPairs.Add, List.filter_cons]
  · dsimp only at hres
    split at hres
    · simp only [Except.ok.injEq, Prod.mk.injEq] at hres
      rw [← hres.1]
      split <;> simp [foxxQueues, OptionPairs.Add, List.filter_cons]
    · simp only [Except.ok.injEq, Prod.mk.injEq] at hres
      rw [← hres.1]
      simp [foxxQueues, OptionPairs.Add, List.filter_cons]
  · rename_i hA hD hC hS
    simp only [Except.ok.injEq, Prod.mk.injEq] at hres
    rw [← hres.1]
    cases hgroup : input.Group <;> simp_all

/-- The `--foxx.queues` options among the collected options: those passed in (by the argument
builders and as additional options), in the order of collection, followed by the expected
ones of the group. -/
theorem options_foxxQueues (h : ArgsHelpers) (cachedStatus : Inspector) (input : Input)
    (additionalOptions : List OptionPair) (options : OptionPairs)
    (hopts : createArangodArgs.options h cachedStatus input additionalOptions = .ok options) :
    foxxQueues options
    = foxxQueues (h.JWT input) ++ foxxQueues (h.Security input)
      ++ foxxQueues additionalOptions ++ foxxQueues (h.TLS input)
      ++ foxxQueues (h.Encryption input) ++ foxxQueues (h.SNI input)
      ++ expectedFoxxQueues input := by
  unfold createArangodArgs.options at hopts
  dsimp only at hopts
  split at hopts
  · simp at hopts
  · split at hopts
    · simp at hopts
    · rename_i o1 b hsw
      have h1 := groupSwitch_foxxQueues _ _ _ _ _ _ _ _ hsw
      have hpre : foxxQueues o1
          = foxxQueues (h.JWT input) ++ foxxQueues (h.Security input)
            ++ foxxQueues additionalOptions ++ foxxQueues (h.TLS input)
            ++ foxxQueues (h.Encryption input) ++ foxxQueues (h.SNI input)
            ++ expectedFoxxQueues input := by
        rw [h1]
        congr 1
        cases input.GroupSpec.InternalPort <;>
          simp [foxxQueues, OptionPairs.Add, OptionPairs.Addf, OptionPairs.Merge,
            OptionPairs.Append, List.filter_cons]
      have hend : ∀ o2 : OptionPairs, foxxQueues o2 = foxxQueues o1 →
          (if h.EncryptionRotationEnabled = true then
              (Except.ok (o2.Add "--rocksdb.encryption-key-rotation" (.str "true")) :
                Except Error OptionPairs)
            else .ok o2) = .ok options →
          foxxQueues options = foxxQueues o1 := by
        intro o2 ho2 hret
        split at hret
        · simp only [Except.ok.injEq] at hret
          rw [← hret, foxxQueues_Add_other _ _ _ (by decide), ho2]
        · simp only [Except.ok.injEq] at hret
          rw [← hret, ho2]
      rw [← hpre]
      cases b
      · simp only [Bool.false_eq_true, if_false] at hopts
        exact hend o1 rfl hopts
      · simp only [if_true] at hopts
        split at hopts
        · simp at hopts
        · rename_i o2 hloop
          exact hend o2 (clusterAgencyEndpoints_foxxQueues _ _ _ _ _ _ _ hloop) hopts

/-- What `SelectImage` and `SelectImageForMember` return: the current image when the status
has one, else the image of the spec as the status knows it, else the empty image info with
false; and the image of the member when it is set. -/
theorem SelectImage_result (spec : DeploymentSpec) (status : deployment.DeploymentStatus)
    (member : MemberStatus) :
    (∀ current, status.CurrentImage = some current →
      (SelectImage spec status).imageInfo = current ∧ (SelectImage spec status).found = true)
    ∧ (∀ info, status.CurrentImage = none →
        ImageInfoList.GetByImage status.Images spec.GetImage = some info →
        (SelectImage spec status).imageInfo = info ∧ (SelectImage spec status).found = true)
    ∧ (status.CurrentImage = none →
        ImageInfoList.GetByImage status.Images spec.GetImage = none →
        (SelectImage spec status).imageInfo = {} ∧ (SelectImage spec status).found = false)
    ∧ (∀ image, member.Image = some image →
        SelectImageForMember spec status member = (image, true))
    ∧ (member.Image = none →
        SelectImageForMember spec status member
        = ((SelectImage spec status).imageInfo, (SelectImage spec status).found)) := by
  refine ⟨?_, ?_, ?_, ?_, ?_⟩
  · intro current hc
    simp [SelectImage, hc]
  · intro info hc hi
    simp [SelectImage, hc, hi]
  · intro hc hi
    simp [SelectImage, hc, hi]
  · intro image hm
    simp [SelectImageForMember, hm]
  · intro hm
    simp [SelectImageForMember, hm]

/-- C23, the claim as stated fails: for the dbserver `d1` and the additional option
`--foxx.queues` with the value true, `createArangodArgs` renders without error and emits two
`--foxx.queues` options, the first of them with the value true. -/
theorem createArangodArgs_foxxQueues_counterexample :
    createArangodArgs exampleHelpers noObjects dbserverInput [⟨"--foxx.queues", .bool true⟩]
      = .ok ["--server.endpoint=tcp://[::]:8529", "--server.storage-engine=rocksdb",
          "--log.level=INFO", "--foxx.queues=true", "--database.directory=/data",
          "--log.output=+", "--cluster.my-address=tcp://depl-d1.svc:8529",
          "--cluster.my-role=PRIMARY", "--foxx.queues=false", "--server.statistics=true"]
    ∧ (createArangodArgs.options exampleHelpers noObjects dbserverInput
        [⟨"--foxx.queues", .bool true⟩]).map foxxQueues
      = .ok [⟨"--foxx.queues", .bool true⟩, ⟨"--foxx.queues", .bool false⟩] := by
  constructor <;> rfl

/-- C23, amended: for every input to `createArangodArgs` for which the options are collected
without error and in which neither the additional options nor the options of the argument
builders (JWT, security, TLS, encryption, SNI) hold a `--foxx.queues` option, the collected
options hold exactly one `--foxx.queues` option for a member of the four arangod groups: with
the value false for a dbserver and an agent, whatever the feature of the deployment is, and
with the value of the feature for a coordinator and a single server, which is true when the
feature is not set. These options are rendered by `Sort().AsArgs()` and followed by the raw
arguments of the group spec as they are. -/
theorem createArangodArgs_foxxQueues (h : ArgsHelpers) (cachedStatus : Inspector)
    (input : Input) (additionalOptions : List OptionPair) (options : OptionPairs)
    (hopts : createArangodArgs.options h cachedStatus input additionalOptions = .ok options)
    (hadd : foxxQueues additionalOptions = [])
    (hbuilders : foxxQueues (h.JWT input) = [] ∧ foxxQueues (h.Security input) = []
      ∧ foxxQueues (h.TLS input) = [] ∧ foxxQueues (h.Encryption input) = []
      ∧ foxxQueues (h.SNI input) = []) :
    (input.Group = .DBServers ∨ input.Group = .Agents →
      foxxQueues options = [⟨"--foxx.queues", .bool false⟩])
    ∧ (input.Group = .Coordinators ∨ input.Group = .Single →
      foxxQueues options
        = [⟨"--foxx.queues", .bool (DeploymentFeatures.GetFoxxQueues input.Deployment.Features)⟩])
    ∧ (input.Deployment.Features = none
        ∨ (∃ f, input.Deployment.Features = some f ∧ f.FoxxQueues = none) →
      DeploymentFeatures.GetFoxxQueues input.Deployment.Features = true)
    ∧ createArangodArgs h cachedStatus input additionalOptions
      = .ok (h.SortAsArgs options ++ input.GroupSpec.Args) := by
  have hall := options_foxxQueues h cachedStatus input additionalOptions options hopts
  obtain ⟨h1, h2, h3, h4, h5⟩ := hbuilders
  rw [hadd, h1, h2, h3, h4, h5] at hall
  simp only [List.nil_append] at hall
  refine ⟨?_, ?_, ?_, ?_⟩
  · intro hg
    rw [hall]
    rcases hg with hg | hg <;> simp [expectedFoxxQueues, hg]
  · intro hg
    rw [hall]
    rcases hg with hg | hg <;> simp [expectedFoxxQueues, hg]
  · intro hf
    rcases hf with hf | ⟨f, hf, hq⟩
    · simp [DeploymentFeatures.GetFoxxQueues, hf]
    · simp [DeploymentFeatures.GetFoxxQueues, hf, hq]
  · simp only [createArangodArgs, hopts]
    split
    · rfl
    · rename_i hlen
      have : input.GroupSpec.Args = [] := by
        cases hargs : input.GroupSpec.Args with
        | nil => rfl
        | cons x xs => simp [hargs] at hlen
      simp [this]

/-- C23 at concrete inputs: without additional options the dbserver `d1` gets the one option
`--foxx.queues` false, and the coordinator `c1` of a deployment that turns the feature off
gets the one option with the value of the feature, false. -/
theorem createArangodArgs_foxxQueues_witness :
    createArangodArgs.options exampleHelpers noObjects dbserverInput []
      = .ok [⟨"--server.endpoint", .str "tcp://[::]:8529"⟩,
          ⟨"--server.storage-engine", .str "rocksdb"⟩, ⟨"--log.level", .str "INFO"⟩,
          ⟨"--database.directory", .str "/data"⟩, ⟨"--log.output", .str "+"⟩,
          ⟨"--cluster.my-address", .str "tcp://depl-d1.svc:8529"⟩,
          ⟨"--cluster.my-role", .str "PRIMARY"⟩, ⟨"--foxx.queues", .bool false⟩,
          ⟨"--server.statistics", .str "true"⟩]
    ∧ foxxQueues [⟨"--server.endpoint", .str "tcp://[::]:8529"⟩,
          ⟨"--server.storage-engine", .str "rocksdb"⟩, ⟨"--log.level", .str "INFO"⟩,
          ⟨"--database.directory", .str "/data"⟩, ⟨"--log.output", .str "+"⟩,
          ⟨"--cluster.my-address", .str "tcp://depl-d1.svc:8529"⟩,
          ⟨"--cluster.my-role", .str "PRIMARY"⟩, ⟨"--foxx.queues", .bool false⟩,
          ⟨"--server.statistics", .str "true"⟩]
      = [⟨"--foxx.queues", .bool false⟩]
    ∧ createArangodArgs exampleHelpers noObjects dbserverInput []
      = .ok (exampleHelpers.SortAsArgs [⟨"--server.endpoint", .str "tcp://[::]:8529"⟩,
          ⟨"--server.storage-engine", .str "rocksdb"⟩, ⟨"--log.level", .str "INFO"⟩,
          ⟨"--database.directory", .str "/data"⟩, ⟨"--log.output", .str "+"⟩,
          ⟨"--cluster.my-address", .str "tcp://depl-d1.svc:8529"⟩,
          ⟨"--cluster.my-role", .str "PRIMARY"⟩, ⟨"--foxx.queues", .bool false⟩,
          ⟨"--server.statistics", .str "true"⟩] ++ dbserverInput.GroupSpec.Args)
    ∧ foxxQueues [⟨"--server.endpoint", .str "tcp://[::]:8529"⟩,
          ⟨"--server.storage-engine", .str "rocksdb"⟩, ⟨"--log.level", .str "INFO"⟩,
          ⟨"--database.directory", .str "/data"⟩, ⟨"--log.output", .str "+"⟩,
          ⟨"--cluster.my-address", .str "tcp://depl-c1.svc:8529"⟩,
          ⟨"--cluster.my-role", .str "COORDINATOR"⟩, ⟨"--foxx.queues", .bool false⟩,
          ⟨"--server.statistics", .str "true"⟩]
      = [⟨"--foxx.queues",
          .bool (DeploymentFeatures.GetFoxxQueues coordinatorInput.Deployment.Features)⟩] :=
  ⟨rfl,
    (createArangodArgs_foxxQueues exampleHelpers noObjects dbserverInput [] _ rfl rfl
      ⟨rfl, rfl, rfl, rfl, rfl⟩).1 (Or.inl rfl),
    (createArangodArgs_foxxQueues exampleHelpers noObjects dbserverInput [] _ rfl rfl
      ⟨rfl, rfl, rfl, rfl, rfl⟩).2.2.2,
    (createArangodArgs_foxxQueues exampleHelpers noObjects coordinatorInput []
      [⟨"--server.endpoint", .str "tcp://[::]:8529"⟩,
        ⟨"--server.storage-engine", .str "rocksdb"⟩, ⟨"--log.level", .str "INFO"⟩,
        ⟨"--database.directory", .str "/data"⟩, ⟨"--log.output", .str "+"⟩,
        ⟨"--cluster.my-address", .str "tcp://depl-c1.svc:8529"⟩,
        ⟨"--cluster.my-role", .str "COORDINATOR"⟩, ⟨"--foxx.queues", .bool false⟩,
        ⟨"--server.statistics", .str "true"⟩] rfl rfl
      ⟨rfl, rfl, rfl, rfl, rfl⟩).2.1 (Or.inl rfl)⟩

end resources

end KubeArangoDB
